import Mathlib

/-!
# Gyroscope offset calibration: `do_gyro_calibration`

A shallow embedding of `src/modules/commander/gyro_calibration.cpp` (the code
that is compiled, i.e. everything outside the `#if 0` block) and the
properties of its reset / sampling / validation / commit / persist pipeline.

Modelling conventions

* The outside world (device files, the uORB sample source, the parameter
  store) is an oracle `Env`: every call whose result the routine looks at
  takes its answer from there.
* The messages sent, the `param_set` calls, the `GYROIOCSSCALE` `ioctl`s and
  the `param_save_default` call are appended to `State.trace`, in program
  order. Opening and closing files, subscribing and sleeping leave no entry.
* `float` values are `FVal`: a rational number, or one of the IEEE-754 special
  values `+inf`, `-inf`, `NaN`.  The special values follow IEEE-754, in
  particular a division by zero does not trap.  The accumulation (`+=` and
  `/=`) is carried out exactly on finite values: its round-off and its
  overflow to infinity are not modelled, and the properties of the committed
  offsets are those of the exact sums.  The validation test is the binary32
  one: the subtraction is rounded to nearest, ties to even, with gradual
  underflow and overflow to infinity, and `maxoff` is the binary32 value of
  `0.01f`, that is 10737418 / 2^30.  What is proved of the validation holds for
  every state at line 190, whatever the accumulation has left in it.
* `unsigned` counters are natural numbers.  `poll_errcount` never exceeds 1001
  and `calibration_counter[0]` never exceeds 5000 (both are proved below); the
  counters of the other gyros grow by at most one per `poll` call and are
  taken without wrap-around at 2^32.
* The `while` loop is run with a fuel argument bounding the number of turns;
  `none` means that the loop is still running when the fuel is used up.
* The arrays of `max_gyros = 3` elements are records of three fields; the
  loops over `s = 0 .. max_gyros - 1` are folds over `List.range max_gyros`.
-/

namespace GyroCal

/-! ## Values of type `float` -/

/-- Values of the C type `float`: an exact rational or an IEEE-754 special value. -/
inductive FVal where
  | fin (q : ℚ)
  | pinf
  | ninf
  | nan
  deriving DecidableEq

/-- The exponent `e` of the binade `[2^e, 2^(e+1))` of a positive `x`,
searched downwards from `n - 127` and not below the least binary32 exponent
`-126` (below `2^-126` the values are subnormal and share its unit). -/
def binade (x : ℚ) : Nat → Int
  | 0 => -126
  | n + 1 => if (2 : ℚ) ^ ((n : Int) - 126) ≤ x then (n : Int) - 126 else binade x n

/-- Rounding to the nearest integer, ties to even. -/
def roundHalfEven (y : ℚ) : Int :=
  if y - ⌊y⌋ < 1 / 2 then ⌊y⌋
  else if 1 / 2 < y - ⌊y⌋ then ⌊y⌋ + 1
  else if ⌊y⌋ % 2 = 0 then ⌊y⌋ else ⌊y⌋ + 1

/-- Rounding of an exact result to binary32 (24 significant bits, exponents
`-126 .. 127`), to nearest, ties to even: the magnitude is rounded to a whole
number of units `2^(e - 23)` of its binade, and a result of `2^128` or more is
an infinity. -/
def round32 (x : ℚ) : FVal :=
  if x = 0 then FVal.fin 0
  else
    let e := binade |x| 254
    let m := (roundHalfEven (|x| / (2 : ℚ) ^ (e - 23)) : ℚ) * (2 : ℚ) ^ (e - 23)
    if (2 : ℚ) ^ (128 : Int) ≤ m then (if 0 < x then FVal.pinf else FVal.ninf)
    else FVal.fin (if 0 < x then m else -m)

namespace FVal

/-- The accumulation `a += b` on `float`, exact on finite values. -/
def add : FVal → FVal → FVal
  | fin a, fin b => fin (a + b)
  | fin _, pinf => pinf
  | fin _, ninf => ninf
  | pinf, fin _ => pinf
  | pinf, pinf => pinf
  | ninf, fin _ => ninf
  | ninf, ninf => ninf
  | pinf, ninf => nan
  | ninf, pinf => nan
  | nan, _ => nan
  | fin _, nan => nan
  | pinf, nan => nan
  | ninf, nan => nan

/-- Unary minus on `float`. -/
def neg : FVal → FVal
  | fin a => fin (-a)
  | pinf => ninf
  | ninf => pinf
  | nan => nan

/-- The C operator `a - b` on `float`: the difference rounded to binary32. -/
def sub : FVal → FVal → FVal
  | fin a, fin b => round32 (a - b)
  | fin _, pinf => ninf
  | fin _, ninf => pinf
  | pinf, fin _ => pinf
  | pinf, ninf => pinf
  | ninf, fin _ => ninf
  | ninf, pinf => ninf
  | pinf, pinf => nan
  | ninf, ninf => nan
  | nan, _ => nan
  | fin _, nan => nan
  | pinf, nan => nan
  | ninf, nan => nan

/-- The C expression `a /= n` for `float a` and `unsigned n`, exact on finite
values (the divisor is converted to `float`; dividing by zero does not trap,
it yields `NaN` for `0/0` and an infinity otherwise). -/
def divNat : FVal → Nat → FVal
  | fin a, n =>
    if n = 0 then (if a = 0 then nan else if 0 < a then pinf else ninf)
    else fin (a / (n : ℚ))
  | pinf, _ => pinf
  | ninf, _ => ninf
  | nan, _ => nan

/-- The C macro `isfinite`. -/
def isfinite : FVal → Bool
  | fin _ => true
  | pinf => false
  | ninf => false
  | nan => false

/-- The C function `fabsf`. -/
def fabsf : FVal → FVal
  | fin a => fin |a|
  | pinf => pinf
  | ninf => pinf
  | nan => nan

/-- The C comparison `a > b` on `float` (false as soon as one side is `NaN`). -/
def gt : FVal → FVal → Bool
  | fin a, fin b => decide (b < a)
  | pinf, fin _ => true
  | pinf, ninf => true
  | fin _, ninf => true
  | fin _, pinf => false
  | pinf, pinf => false
  | ninf, _ => false
  | nan, _ => false
  | fin _, nan => false
  | pinf, nan => false

end FVal

/-! ## Data -/

/-- A C array with `max_gyros = 3` elements. The routine only ever uses the
indices 0, 1 and 2. -/
structure Arr3 (α : Type) where
  e0 : α
  e1 : α
  e2 : α

/-- The element `a[s]`. -/
def Arr3.get {α : Type} (a : Arr3 α) : Nat → α
  | 0 => a.e0
  | 1 => a.e1
  | _ => a.e2

/-- The array after `a[s] = v`. -/
def Arr3.set {α : Type} (a : Arr3 α) (s : Nat) (v : α) : Arr3 α :=
  match s with
  | 0 => { a with e0 := v }
  | 1 => { a with e1 := v }
  | _ => { a with e2 := v }

/-- The array with all elements equal to `v`. -/
def Arr3.const {α : Type} (v : α) : Arr3 α := { e0 := v, e1 := v, e2 := v }

/-- The fields of `struct gyro_report` that the routine reads. -/
structure gyro_report where
  x : FVal
  y : FVal
  z : FVal
  deriving DecidableEq

/-- The C type `struct gyro_scale`. -/
structure gyro_scale where
  x_offset : FVal
  x_scale : FVal
  y_offset : FVal
  y_scale : FVal
  z_offset : FVal
  z_scale : FVal
  deriving DecidableEq

/-- The parameter names the routine passes to `param_find`. -/
inductive ParamKey where
  | CAL_BOARD_ID
  | CAL_GYRO_XOFF (s : Nat)
  | CAL_GYRO_YOFF (s : Nat)
  | CAL_GYRO_ZOFF (s : Nat)
  | CAL_GYRO_ID (s : Nat)
  deriving DecidableEq

/-- The value handed to `param_set`: a `float`, the `uint32_t` board id, or an
`int32_t` device id (`none` when `device_id[s]` was never assigned). -/
inductive ParamVal where
  | float (v : FVal)
  | uint32 (v : Nat)
  | int32 (v : Option Int)
  deriving DecidableEq

/-- The messages sent through `mavlink_log_info` / `mavlink_log_critical`. -/
inductive Msg where
  | CAL_STARTED_MSG
  | HOLD_STILL
  | CAL_FAILED_RESET_CAL_MSG
  | CAL_PROGRESS_MSG (percent : Nat)
  | CAL_FAILED_SENSOR_MSG
  | ERROR_Calibration_failed
  | CAL_FAILED_APPLY_CAL_MSG
  | ERROR_failed_to_set_offset_params
  | CAL_FAILED_SAVE_PARAMS_MSG
  | CAL_DONE_MSG
  | CAL_FAILED_MSG
  deriving DecidableEq

/-- What the routine does to the outside world. `reset_cal s` is the
`ioctl(fd, GYROIOCSSCALE, &gyro_scale_zero)` of the reset loop on gyro `s`;
`apply_cal s g` is the `ioctl(fd, GYROIOCSSCALE, &gyro_scale[s])` of the
commit loop, with the content of `gyro_scale[s]` at the time of the call. -/
inductive Event where
  | log_info (m : Msg)
  | log_critical (m : Msg)
  | param_set (key : ParamKey) (v : ParamVal)
  | reset_cal (s : Nat)
  | apply_cal (s : Nat) (g : gyro_scale)
  | param_save_default
  deriving DecidableEq

/-- The answers of the outside world. -/
structure Env where
  /-- Word `mcu_id[2]` filled in by `mcu_unique_id`. -/
  mcu_id_2 : Nat
  /-- Whether `open` of gyro `s` in the reset loop returns `fd >= 0`. -/
  open_reset : Nat → Bool
  /-- Result of `ioctl(fd, DEVIOCGDEVICEID, 0)` on gyro `s`. -/
  ioctl_DEVIOCGDEVICEID : Nat → Int
  /-- Result of `ioctl(fd, GYROIOCSSCALE, &gyro_scale_zero)` on gyro `s`. -/
  reset_res : Nat → Int
  /-- Result of the `i`-th call of `poll` (counted from 0). -/
  poll_ret : Nat → Int
  /-- Answer `changed` of `orb_check` for gyro `s` after the `i`-th `poll`. -/
  changed : Nat → Nat → Bool
  /-- Report copied by `orb_copy` into `gyro_report` for gyro `s` after the `i`-th `poll`. -/
  report : Nat → Nat → gyro_report
  /-- Report copied by the second `orb_copy` (into `gyro_report_0`) after the `i`-th `poll`. -/
  report_0 : Nat → gyro_report
  /-- Result of `param_set` on the given parameter. -/
  param_set_res : ParamKey → Int
  /-- Whether `open` of gyro `s` in the commit loop returns `fd >= 0`. -/
  open_apply : Nat → Bool
  /-- Result of `ioctl(fd, GYROIOCSSCALE, &gyro_scale[s])` on gyro `s`. -/
  apply_res : Nat → Int
  /-- Result of `param_save_default`. -/
  save_res : Int

/-- The local variables of `do_gyro_calibration`, the number of `poll` calls
made so far, and the trace of effects. -/
structure State where
  device_id : Arr3 (Option Int)
  gyro_scale : Arr3 gyro_scale
  res : Int
  calibration_counter : Arr3 Nat
  gyro_report_0 : gyro_report
  poll_errcount : Nat
  failed : Bool
  polls : Nat
  trace : List Event

/-! ## Constants -/

/-- The status `OK`. -/
def OK : Int := 0

/-- The constant `static const int ERROR = -1`. -/
def ERROR : Int := -1

/-- The constant `max_gyros`. -/
def max_gyros : Nat := 3

/-- The constant `calibration_count`. -/
def calibration_count : Nat := 5000

/-- The constant `maxoff = 0.01f`: the binary32 number nearest to 0.01, which
is `10737418 / 2^30` (bit pattern `0x3C23D70A`). -/
def maxoff : FVal := FVal.fin (10737418 / 1073741824)

/-- The initialiser of `gyro_scale_zero`: zero offsets, unit scales. -/
def gyro_scale_zero : gyro_scale :=
  { x_offset := FVal.fin 0, x_scale := FVal.fin 1,
    y_offset := FVal.fin 0, y_scale := FVal.fin 1,
    z_offset := FVal.fin 0, z_scale := FVal.fin 1 }

/-! ## The routine -/

/-- State at line 96: the two start messages are sent, `res = OK`, the board
id is stored. (`calibration_counter`, `gyro_report_0`, `poll_errcount` and
`failed` are declared further down, with the initial values given here.) -/
def initState (env : Env) : State :=
  { device_id := Arr3.const none
    gyro_scale := Arr3.const gyro_scale_zero
    res := OK
    calibration_counter := Arr3.const 0
    gyro_report_0 := { x := FVal.fin 0, y := FVal.fin 0, z := FVal.fin 0 }
    poll_errcount := 0
    failed := false
    polls := 0
    trace := [Event.log_info Msg.CAL_STARTED_MSG, Event.log_info Msg.HOLD_STILL,
              Event.param_set ParamKey.CAL_BOARD_ID (ParamVal.uint32 env.mcu_id_2)] }

/-- One pass of the reset loop (lines 98-119). -/
def resetSlot (env : Env) (st : State) (s : Nat) : State :=
  let st1 := { st with gyro_scale := st.gyro_scale.set s gyro_scale_zero }
  if env.open_reset s then
    let st2 := { st1 with
      device_id := st1.device_id.set s (some (env.ioctl_DEVIOCGDEVICEID s))
      res := env.reset_res s
      trace := st1.trace ++ [Event.reset_cal s] }
    if st2.res ≠ OK then
      { st2 with trace := st2.trace ++ [Event.log_critical Msg.CAL_FAILED_RESET_CAL_MSG] }
    else st2
  else st1

/-- The reset loop (lines 98-119), from the state at line 96. -/
def resetStage (env : Env) : State :=
  (List.range max_gyros).foldl (resetSlot env) (initState env)

/-- Lines 154-165 for gyro `s`, after the `i`-th `poll`: when `orb_check`
reports a change the report is copied, added to the sums of gyro `s` and
counted. -/
def readSample (env : Env) (i : Nat) (st : State) (s : Nat) : State :=
  if env.changed i s then
    { st with
      gyro_report_0 := if s = 0 then env.report_0 i else st.gyro_report_0
      gyro_scale := st.gyro_scale.set s
        { st.gyro_scale.get s with
          x_offset := FVal.add (st.gyro_scale.get s).x_offset (env.report i s).x
          y_offset := FVal.add (st.gyro_scale.get s).y_offset (env.report i s).y
          z_offset := FVal.add (st.gyro_scale.get s).z_offset (env.report i s).z }
      calibration_counter :=
        st.calibration_counter.set s (st.calibration_counter.get s + 1) }
  else st

/-- Lines 167-169 for gyro `s`: the progress message. -/
def logProgress (st : State) (s : Nat) : State :=
  if s = 0 ∧ st.calibration_counter.get 0 % (calibration_count / 20) = 0 then
    { st with trace := st.trace ++
        [Event.log_info (Msg.CAL_PROGRESS_MSG (st.calibration_counter.get 0 * 100 / calibration_count))] }
  else st

/-- One pass of the inner `for` loop of the sampling loop (lines 150-170),
after the `i`-th `poll`. -/
def sampleSlot (env : Env) (i : Nat) (st : State) (s : Nat) : State :=
  logProgress (readSample env i st s) s

/-- The body of the `while` loop up to line 174: the `poll` call and what
depends on its result. -/
def loopBody (env : Env) (st : State) : State :=
  let st1 := { st with polls := st.polls + 1 }
  if 0 < env.poll_ret st.polls then
    (List.range max_gyros).foldl (sampleSlot env st.polls) st1
  else
    { st1 with poll_errcount := st1.poll_errcount + 1 }

/-- Outcome of one turn of the `while` loop. -/
inductive Ctl where
  | next (st : State)
  | done (st : State)

/-- One turn of the `while` loop (lines 143-181): the loop condition, the
body, and the `break` on `poll_errcount > 1000`. -/
def whileStep (env : Env) (st : State) : Ctl :=
  if st.calibration_counter.get 0 < calibration_count then
    let st1 := loopBody env st
    if 1000 < st1.poll_errcount then
      Ctl.done { st1 with
        res := ERROR
        trace := st1.trace ++ [Event.log_critical Msg.CAL_FAILED_SENSOR_MSG] }
    else Ctl.next st1
  else Ctl.done st

/-- The `while` loop (lines 143-181), with at most `fuel` turns. -/
def sampleLoop (env : Env) : Nat → State → Option State
  | 0, _ => none
  | fuel + 1, st =>
    match whileStep env st with
    | Ctl.done st1 => some st1
    | Ctl.next st1 => sampleLoop env fuel st1

/-- One pass of the loop after the `while` loop (lines 183-189): the sum of
gyro `s` is divided by `calibration_counter[s]`. -/
def divideSlot (st : State) (s : Nat) : State :=
  { st with
    gyro_scale := st.gyro_scale.set s
      { st.gyro_scale.get s with
        x_offset := FVal.divNat (st.gyro_scale.get s).x_offset (st.calibration_counter.get s)
        y_offset := FVal.divNat (st.gyro_scale.get s).y_offset (st.calibration_counter.get s)
        z_offset := FVal.divNat (st.gyro_scale.get s).z_offset (st.calibration_counter.get s) } }

/-- The loop of lines 183-189. -/
def divideStage (st : State) : State :=
  (List.range max_gyros).foldl divideSlot st

/-- The block of lines 126-190: entered when `res == OK` after the reset loop. -/
def samplingStage (env : Env) (fuel : Nat) (st : State) : Option State :=
  if st.res = OK then (sampleLoop env fuel st).map divideStage else some st

/-- The condition of the `if` at lines 201-206. -/
def checkFails (st : State) : Bool :=
  let xdiff := FVal.sub st.gyro_report_0.x (st.gyro_scale.get 0).x_offset
  let ydiff := FVal.sub st.gyro_report_0.y (st.gyro_scale.get 0).y_offset
  let zdiff := FVal.sub st.gyro_report_0.z (st.gyro_scale.get 0).z_offset
  !FVal.isfinite (st.gyro_scale.get 0).x_offset ||
  !FVal.isfinite (st.gyro_scale.get 0).y_offset ||
  !FVal.isfinite (st.gyro_scale.get 0).z_offset ||
  FVal.gt (FVal.fabsf xdiff) maxoff ||
  FVal.gt (FVal.fabsf ydiff) maxoff ||
  FVal.gt (FVal.fabsf zdiff) maxoff

/-- The block of lines 192-210. -/
def validateStage (st : State) : State :=
  if st.res = OK then
    if checkFails st then
      { st with
        res := ERROR
        trace := st.trace ++ [Event.log_critical Msg.ERROR_Calibration_failed] }
    else st
  else st

/-- One `failed |= (OK != param_set(param_find(key), &v))`. -/
def setParam (env : Env) (st : State) (key : ParamKey) (v : ParamVal) : State :=
  { st with
    trace := st.trace ++ [Event.param_set key v]
    failed := st.failed || decide (OK ≠ env.param_set_res key) }

/-- One pass of the commit loop (lines 216-247). -/
def commitSlot (env : Env) (st : State) (s : Nat) : State :=
  if st.calibration_counter.get s < calibration_count / 2 then st
  else
    let st1 := setParam env st (ParamKey.CAL_GYRO_XOFF s) (ParamVal.float (st.gyro_scale.get s).x_offset)
    let st2 := setParam env st1 (ParamKey.CAL_GYRO_YOFF s) (ParamVal.float (st1.gyro_scale.get s).y_offset)
    let st3 := setParam env st2 (ParamKey.CAL_GYRO_ZOFF s) (ParamVal.float (st2.gyro_scale.get s).z_offset)
    let st4 := setParam env st3 (ParamKey.CAL_GYRO_ID s) (ParamVal.int32 (st3.device_id.get s))
    if env.open_apply s then
      let st5 := { st4 with
        res := env.apply_res s
        trace := st4.trace ++ [Event.apply_cal s (st4.gyro_scale.get s)] }
      if st5.res ≠ OK then
        { st5 with trace := st5.trace ++ [Event.log_critical Msg.CAL_FAILED_APPLY_CAL_MSG] }
      else st5
    else { st4 with failed := true }

/-- The block of lines 212-253. -/
def commitStage (env : Env) (st : State) : State :=
  if st.res = OK then
    let st1 := (List.range max_gyros).foldl (commitSlot env) { st with failed := false }
    if st1.failed then
      { st1 with
        res := ERROR
        trace := st1.trace ++ [Event.log_critical Msg.ERROR_failed_to_set_offset_params] }
    else st1
  else st

/-- The block of lines 381-388. -/
def persistStage (env : Env) (st : State) : State :=
  if st.res = OK then
    let st1 := { st with res := env.save_res, trace := st.trace ++ [Event.param_save_default] }
    if st1.res ≠ OK then
      { st1 with trace := st1.trace ++ [Event.log_critical Msg.CAL_FAILED_SAVE_PARAMS_MSG] }
    else st1
  else st

/-- The block of lines 390-395. -/
def reportStage (st : State) : State :=
  if st.res = OK then
    { st with trace := st.trace ++ [Event.log_info Msg.CAL_DONE_MSG] }
  else
    { st with trace := st.trace ++ [Event.log_info Msg.CAL_FAILED_MSG] }

/-- Lines 192-397, from the state at line 190. -/
def finish (env : Env) (st : State) : State :=
  reportStage (persistStage env (commitStage env (validateStage st)))

/-- The routine `do_gyro_calibration`: the state at `return res` (the value
returned is its field `res`), or `none` when the `while` loop has not ended
after `fuel` turns. -/
def do_gyro_calibration (env : Env) (fuel : Nat) : Option State :=
  (samplingStage env fuel (resetStage env)).map (finish env)

/-! ## The run as seen from the sample source

The definitions below do not come from the routine: they describe, from the
answers of the sample source alone, what the first `n` turns of the `while`
loop are given. -/

/-- Whether the `i`-th `poll` returns a positive value (at least one stream
signalled); otherwise the wait timed out or failed. -/
def woke (env : Env) (i : Nat) : Bool := decide (0 < env.poll_ret i)

/-- The reports of gyro `s` handed out by `orb_copy` during the first `n`
turns: one for every turn whose `poll` woke and whose `orb_check` on gyro `s`
reported a change, in order of arrival. -/
def samplesRead (env : Env) (s : Nat) : Nat → List gyro_report
  | 0 => []
  | n + 1 =>
    if woke env n && env.changed n s then samplesRead env s n ++ [env.report n s]
    else samplesRead env s n

/-- The number of `poll` calls among the first `n` that did not wake: `poll`
returned 0 (the wait timed out) or a negative value. These are the calls that
the routine counts in `poll_errcount`. -/
def timeouts (env : Env) : Nat → Nat
  | 0 => 0
  | n + 1 => if woke env n then timeouts env n else timeouts env n + 1

/-- The report last copied into `gyro_report_0` during the first `n` turns
(all zero when there was none). -/
def snapshot (env : Env) : Nat → gyro_report
  | 0 => { x := FVal.fin 0, y := FVal.fin 0, z := FVal.fin 0 }
  | n + 1 => if woke env n && env.changed n 0 then env.report_0 n else snapshot env n

/-- The sum of a list of `float` values, added up from the left starting at 0. -/
def sumF (l : List FVal) : FVal := l.foldl FVal.add (FVal.fin 0)

/-- The arithmetic mean of a list of `float` values: their sum divided by
their number. -/
def mean (l : List FVal) : FVal := FVal.divNat (sumF l) l.length

/-- The trace holds no commit: no `param_set` other than on `CAL_BOARD_ID`,
no apply `ioctl`, no `param_save_default`. -/
def NoCommit (tr : List Event) : Prop :=
  (∀ key v, Event.param_set key v ∈ tr → key = ParamKey.CAL_BOARD_ID) ∧
  (∀ s g, Event.apply_cal s g ∉ tr) ∧
  Event.param_save_default ∉ tr

/-- The state at the head of the `while` loop after `n` turns, `none` when
the loop has ended before. -/
def stateAt (env : Env) : Nat → Option State
  | 0 => some (resetStage env)
  | n + 1 =>
    match stateAt env n with
    | none => none
    | some st =>
      match whileStep env st with
      | Ctl.next st1 => some st1
      | Ctl.done _ => none

/-! ## Closed forms and invariants

The definitions below restate, stage by stage, what the routine computes;
the lemmas further down prove that they agree with the routine. -/

/-- A list of progress messages. -/
def OnlyProgress (l : List Event) : Prop :=
  ∀ e ∈ l, ∃ p, e = Event.log_info (Msg.CAL_PROGRESS_MSG p)

/-- The content of `gyro_scale[s]` while the reports `l` have been added up. -/
def sumScale (l : List gyro_report) : gyro_scale :=
  { x_offset := sumF (l.map gyro_report.x), x_scale := FVal.fin 1,
    y_offset := sumF (l.map gyro_report.y), y_scale := FVal.fin 1,
    z_offset := sumF (l.map gyro_report.z), z_scale := FVal.fin 1 }

/-- Events of the stages before commit: messages other than the two terminal
ones, the board id, the reset `ioctl`. -/
def Event.early : Event → Bool
  | Event.log_info m => decide (m ≠ Msg.CAL_DONE_MSG ∧ m ≠ Msg.CAL_FAILED_MSG)
  | Event.log_critical _ => true
  | Event.param_set key _ => decide (key = ParamKey.CAL_BOARD_ID)
  | Event.reset_cal _ => true
  | Event.apply_cal _ _ => false
  | Event.param_save_default => false

/-- What links the variables of the sampling loop, after any number of turns,
to what the sample source has delivered during these turns. -/
structure LoopInv (env : Env) (st : State) : Prop where
  counter : ∀ s, s < 3 → st.calibration_counter.get s = (samplesRead env s st.polls).length
  scale : ∀ s, s < 3 → st.gyro_scale.get s = sumScale (samplesRead env s st.polls)
  errs : st.poll_errcount = timeouts env st.polls
  snap : st.gyro_report_0 = snapshot env st.polls
  device_id : st.device_id = (resetStage env).device_id
  failed : st.failed = false
  ref_le : st.calibration_counter.get 0 ≤ calibration_count

/-- What holds at the head of the `while` loop. -/
structure LoopHead (env : Env) (st : State) : Prop where
  inv : LoopInv env st
  res : st.res = (resetStage env).res
  trace : ∃ l, st.trace = (resetStage env).trace ++ l ∧ OnlyProgress l
  errs_le : st.poll_errcount ≤ 1000

/-- The `while` loop is left through its condition: gyro 0 has delivered
`calibration_count` reports. -/
structure Completed (env : Env) (st : State) : Prop where
  inv : LoopInv env st
  full : st.calibration_counter.get 0 = calibration_count
  res : st.res = (resetStage env).res
  trace : ∃ l, st.trace = (resetStage env).trace ++ l ∧ OnlyProgress l
  errs_le : st.poll_errcount ≤ 1000

/-- The `while` loop is left through the `break`: `poll` has failed for the
1001st time before gyro 0 has delivered `calibration_count` reports. -/
structure Aborted (env : Env) (st : State) : Prop where
  inv : LoopInv env st
  short : st.calibration_counter.get 0 < calibration_count
  res : st.res = ERROR
  trace : ∃ l, st.trace = (resetStage env).trace ++ l ++
    [Event.log_critical Msg.CAL_FAILED_SENSOR_MSG] ∧ OnlyProgress l
  errs_eq : st.poll_errcount = 1001
  prev : ∃ k, st.polls = k + 1 ∧ timeouts env k ≤ 1000

/-- The state in which the `while` loop is left by the `break`. -/
def abortState (st : State) : State :=
  { st with res := ERROR, trace := st.trace ++ [Event.log_critical Msg.CAL_FAILED_SENSOR_MSG] }

/-- The content of `gyro_scale[s]` after the division, when the reports `l`
have been added up and counted. -/
def meanScale (l : List gyro_report) : gyro_scale :=
  { x_offset := mean (l.map gyro_report.x), x_scale := FVal.fin 1,
    y_offset := mean (l.map gyro_report.y), y_scale := FVal.fin 1,
    z_offset := mean (l.map gyro_report.z), z_scale := FVal.fin 1 }

/-- The events of one pass of the commit loop on gyro `s`. -/
def slotEvents (env : Env) (st : State) (s : Nat) : List Event :=
  if st.calibration_counter.get s < calibration_count / 2 then []
  else
    [Event.param_set (ParamKey.CAL_GYRO_XOFF s) (ParamVal.float (st.gyro_scale.get s).x_offset),
     Event.param_set (ParamKey.CAL_GYRO_YOFF s) (ParamVal.float (st.gyro_scale.get s).y_offset),
     Event.param_set (ParamKey.CAL_GYRO_ZOFF s) (ParamVal.float (st.gyro_scale.get s).z_offset),
     Event.param_set (ParamKey.CAL_GYRO_ID s) (ParamVal.int32 (st.device_id.get s))] ++
    (if env.open_apply s = true then
      Event.apply_cal s (st.gyro_scale.get s) ::
        (if env.apply_res s ≠ OK then [Event.log_critical Msg.CAL_FAILED_APPLY_CAL_MSG] else [])
     else [])

/-- Whether one pass of the commit loop on gyro `s` sets the flag `failed`. -/
def slotFails (env : Env) (st : State) (s : Nat) : Bool :=
  decide (calibration_count / 2 ≤ st.calibration_counter.get s) &&
    (decide (OK ≠ env.param_set_res (ParamKey.CAL_GYRO_XOFF s)) ||
     decide (OK ≠ env.param_set_res (ParamKey.CAL_GYRO_YOFF s)) ||
     decide (OK ≠ env.param_set_res (ParamKey.CAL_GYRO_ZOFF s)) ||
     decide (OK ≠ env.param_set_res (ParamKey.CAL_GYRO_ID s)) ||
     !env.open_apply s)

/-- Whether one pass of the commit loop on gyro `s` reaches the apply `ioctl`. -/
def slotApplies (env : Env) (st : State) (s : Nat) : Bool :=
  decide (calibration_count / 2 ≤ st.calibration_counter.get s) && env.open_apply s

/-- The events of the commit loop. -/
def commitEvents (env : Env) (st : State) : List Event :=
  slotEvents env st 0 ++ (slotEvents env st 1 ++ slotEvents env st 2)

/-- Whether the commit loop ends with the flag `failed` set. -/
def commitFails (env : Env) (st : State) : Bool :=
  slotFails env st 0 || slotFails env st 1 || slotFails env st 2

/-- The value of `res` at the end of the commit loop, entered with `res == OK`:
the result of the apply `ioctl` issued last, if any. -/
def commitRes (env : Env) (st : State) : Int :=
  if slotApplies env st 2 = true then env.apply_res 2
  else if slotApplies env st 1 = true then env.apply_res 1
  else if slotApplies env st 0 = true then env.apply_res 0
  else OK

/-- The events of the persist block entered with the given `res`. -/
def persistEvents (env : Env) (res : Int) : List Event :=
  if res = OK then
    Event.param_save_default ::
      (if env.save_res ≠ OK then [Event.log_critical Msg.CAL_FAILED_SAVE_PARAMS_MSG] else [])
  else []

/-- The state at line 190 of a run whose sampling loop was entered and left
through its condition, in terms of what the sample source has delivered. -/
structure Sampled (env : Env) (st : State) : Prop where
  res : st.res = OK
  counter : ∀ s, s < 3 → st.calibration_counter.get s = (samplesRead env s st.polls).length
  full : st.calibration_counter.get 0 = calibration_count
  scale : ∀ s, s < 3 → st.gyro_scale.get s = meanScale (samplesRead env s st.polls)
  snap : st.gyro_report_0 = snapshot env st.polls
  device_id : ∀ s, s < 3 → st.device_id.get s =
    if env.open_reset s = true then some (env.ioctl_DEVIOCGDEVICEID s) else none
  early : ∀ e ∈ st.trace, e.early = true
  errs : timeouts env st.polls ≤ 1000

/-- Whether `fabsf(a - b) > maxoff`. -/
def exceeds (a b : FVal) : Bool := FVal.gt (FVal.fabsf (FVal.sub a b)) maxoff

/-- The gyro that the commit loop handles last when gyro 0 is not skipped:
the highest index counted at least `calibration_count / 2` times. -/
def lastCommitted (st : State) : Nat :=
  if calibration_count / 2 ≤ st.calibration_counter.get 2 then 2
  else if calibration_count / 2 ≤ st.calibration_counter.get 1 then 1
  else 0

/-! ## Scenarios -/

/-- The report (1.0, 2.0, 3.0). -/
def report123 : gyro_report := { x := FVal.fin 1, y := FVal.fin 2, z := FVal.fin 3 }

/-- Gyro 1 is absent; every `poll` wakes with a report (1.0, 2.0, 3.0) from
gyro 0 and from gyro 2; every call succeeds. -/
def envSteady : Env :=
  { mcu_id_2 := 7
    open_reset := fun s => s != 1
    ioctl_DEVIOCGDEVICEID := fun s => 100 + s
    reset_res := fun _ => 0
    poll_ret := fun _ => 1
    changed := fun _ s => s != 1
    report := fun _ _ => report123
    report_0 := fun _ => report123
    param_set_res := fun _ => 0
    open_apply := fun s => s != 1
    apply_res := fun _ => 0
    save_res := 0 }

/-- As `envSteady`, but the second copy of gyro 0 reads (2.0, 2.0, 3.0): the
x rate has moved away from the mean by 1.0. -/
def envMoved : Env :=
  { envSteady with report_0 := fun _ => { x := FVal.fin 2, y := FVal.fin 2, z := FVal.fin 3 } }

/-- The reports of gyro 0 on `envThreshold`: x = -2684667/2^28 on the first
wake, x = 0.01f = 10737418/2^30 on the 5000th, x = 0 in between, y and z at 0
throughout. These are binary32 numbers, and so are all the partial sums of
the x values, their total -5000/2^32 and their mean -1/2^32: the accumulation
of the routine is exact on them. -/
def thresholdReport (i : Nat) : gyro_report :=
  { x := FVal.fin (if i = 0 then -2684667 / 268435456
      else if i = 4999 then 10737418 / 1073741824 else 0)
    y := FVal.fin 0
    z := FVal.fin 0 }

/-- As `envSteady`, but gyro 0 delivers the reports `thresholdReport`, the
second copy reading the same report as the first. -/
def envThreshold : Env :=
  { envSteady with
    report := fun i s => if s = 0 then thresholdReport i else report123
    report_0 := fun i => thresholdReport i }

/-- As `envSteady`, but the reports of gyro 2 carry `NaN` on the x axis. -/
def envNaN2 : Env :=
  { envSteady with
    report := fun _ s =>
      if s = 2 then { x := FVal.nan, y := FVal.fin 2, z := FVal.fin 3 } else report123 }

/-- As `envSteady`, but the reports of gyro 0 carry `NaN` on the x axis. -/
def envNaN0 : Env :=
  { envSteady with
    report := fun _ s =>
      if s = 0 then { x := FVal.nan, y := FVal.fin 2, z := FVal.fin 3 } else report123 }

/-- As `envSteady`, but gyro 0 has no report on the first wake, while gyro 2
has one on every wake. -/
def envLate : Env :=
  { envSteady with changed := fun i s => s == 2 || (s == 0 && i != 0) }

/-- Gyro 0 has dropped out: every `poll` wakes, but only gyro 2 has a report. -/
def envDropout : Env :=
  { envSteady with changed := fun _ s => s == 2 }

/-- As `envSteady`, but every `poll` times out. -/
def envSilent : Env :=
  { envSteady with poll_ret := fun _ => 0 }

/-- All three gyros are present and report (1.0, 2.0, 3.0) on every wake;
every call succeeds, except the apply `ioctl` on gyro 2. -/
def envApplyFails : Env :=
  { envSteady with
    open_reset := fun _ => true
    open_apply := fun _ => true
    changed := fun _ _ => true
    apply_res := fun s => if s = 2 then -1 else 0 }

/-- All three gyros are present and report (1.0, 2.0, 3.0) on every wake;
every call succeeds, except the reset `ioctl` and the apply `ioctl` on gyro 0. -/
def envEarlyFails : Env :=
  { envSteady with
    open_reset := fun _ => true
    open_apply := fun _ => true
    changed := fun _ _ => true
    reset_res := fun s => if s = 0 then -1 else 0
    apply_res := fun s => if s = 0 then -1 else 0 }

/-- As `envSteady`, but gyro 2 has a report on the first 1000 wakes only. -/
def envSparse : Env :=
  { envSteady with changed := fun i s => s == 0 || (s == 2 && decide (i < 1000)) }

/-! ## Rounding to binary32 -/

theorem binade_eq (x : ℚ) (e : Int) (h1 : (2 : ℚ) ^ e ≤ x) (h2 : x < (2 : ℚ) ^ (e + 1))
    (hlo : -126 ≤ e) : ∀ n : Nat, e + 126 < n → binade x n = e := by
  intro n
  induction n with
  | zero => intro h; omega
  | succ k ih =>
    intro h
    rw [binade]
    by_cases hk : (k : Int) - 126 = e
    · rw [hk, if_pos h1]
    · have hlt : e + 1 ≤ (k : Int) - 126 := by omega
      have : ¬ (2 : ℚ) ^ ((k : Int) - 126) ≤ x := by
        intro hle
        have := zpow_le_zpow_right₀ (a := (2 : ℚ)) (by norm_num) hlt
        linarith
      rw [if_neg this]
      exact ih (by omega)

theorem roundHalfEven_eq (y : ℚ) (k : Int) (h1 : (k : ℚ) - 1 / 2 < y) (h2 : y < (k : ℚ) + 1 / 2) :
    roundHalfEven y = k := by
  unfold roundHalfEven
  by_cases hk : (k : ℚ) ≤ y
  · have hf : ⌊y⌋ = k := by
      rw [Int.floor_eq_iff]
      constructor
      · exact hk
      · linarith
    rw [hf, if_pos (by linarith)]
  · have hf : ⌊y⌋ = k - 1 := by
      rw [Int.floor_eq_iff]
      push_cast
      constructor
      · linarith
      · linarith [not_le.mp hk]
    rw [hf]
    push_cast
    rw [if_neg (by linarith), if_pos (by linarith)]
    ring

theorem round32_zero : round32 0 = FVal.fin 0 := by
  simp [round32]

/-- A positive value in the binade of exponent `e` whose quotient by the unit
in the last place is nearer to `k` than to any other integer rounds to `k`
units. -/
theorem round32_eq (x : ℚ) (e k : Int) (hpos : 0 < x)
    (h1 : (2 : ℚ) ^ e ≤ x) (h2 : x < (2 : ℚ) ^ (e + 1)) (hlo : -126 ≤ e) (hhi : e ≤ 127)
    (hk1 : (k : ℚ) - 1 / 2 < x / (2 : ℚ) ^ (e - 23))
    (hk2 : x / (2 : ℚ) ^ (e - 23) < (k : ℚ) + 1 / 2)
    (hfin : (k : ℚ) * (2 : ℚ) ^ (e - 23) < (2 : ℚ) ^ (128 : Int)) :
    round32 x = FVal.fin ((k : ℚ) * (2 : ℚ) ^ (e - 23)) := by
  have hb : binade |x| 254 = e := by
    rw [abs_of_pos hpos]
    exact binade_eq x e h1 h2 hlo 254 (by omega)
  have hr : roundHalfEven (|x| / (2 : ℚ) ^ (e - 23)) = k := by
    rw [abs_of_pos hpos]
    exact roundHalfEven_eq _ k hk1 hk2
  unfold round32
  simp only [hb, hr]
  rw [if_neg (ne_of_gt hpos), if_neg (not_le.mpr hfin), if_pos hpos]

/-- The mirror image of `round32_eq` below zero. -/
theorem round32_eq_neg (x : ℚ) (e k : Int) (hpos : 0 < x)
    (h1 : (2 : ℚ) ^ e ≤ x) (h2 : x < (2 : ℚ) ^ (e + 1)) (hlo : -126 ≤ e) (hhi : e ≤ 127)
    (hk1 : (k : ℚ) - 1 / 2 < x / (2 : ℚ) ^ (e - 23))
    (hk2 : x / (2 : ℚ) ^ (e - 23) < (k : ℚ) + 1 / 2)
    (hfin : (k : ℚ) * (2 : ℚ) ^ (e - 23) < (2 : ℚ) ^ (128 : Int)) :
    round32 (-x) = FVal.fin (-((k : ℚ) * (2 : ℚ) ^ (e - 23))) := by
  have hb : binade |(-x)| 254 = e := by
    rw [abs_neg, abs_of_pos hpos]
    exact binade_eq x e h1 h2 hlo 254 (by omega)
  have hr : roundHalfEven (|(-x)| / (2 : ℚ) ^ (e - 23)) = k := by
    rw [abs_neg, abs_of_pos hpos]
    exact roundHalfEven_eq _ k hk1 hk2
  have hx0 : ¬ (-x = 0) := by
    intro h
    linarith
  have hxn : ¬ (0 < -x) := by
    intro h
    linarith
  unfold round32
  simp only [hb, hr]
  rw [if_neg hx0, if_neg (not_le.mpr hfin), if_neg hxn]

theorem round32_one : round32 1 = FVal.fin 1 := by
  have h := round32_eq 1 0 8388608 (by norm_num) (by norm_num) (by norm_num) (by norm_num)
    (by norm_num) (by norm_num) (by norm_num) (by norm_num)
  rw [h]
  norm_num

theorem round32_sliver :
    round32 (42949673 / 4294967296) = FVal.fin (10737418 / 1073741824) := by
  have h := round32_eq (42949673 / 4294967296) (-7) 10737418 (by norm_num) (by norm_num)
    (by norm_num) (by norm_num) (by norm_num) (by norm_num) (by norm_num) (by norm_num)
  rw [h]
  norm_num

theorem binade_le (x : ℚ) (e : Int) (h : x < (2 : ℚ) ^ (e + 1)) (hlo : -126 ≤ e) :
    ∀ n : Nat, binade x n ≤ e := by
  intro n
  induction n with
  | zero => exact hlo
  | succ k ih =>
    rw [binade]
    split
    · rename_i hc
      have hlt : (2 : ℚ) ^ ((k : Int) - 126) < (2 : ℚ) ^ (e + 1) := lt_of_le_of_lt hc h
      have := (zpow_lt_zpow_iff_right₀ (a := (2 : ℚ)) (by norm_num)).mp hlt
      omega
    · exact ih

theorem binade_ge (x : ℚ) (e : Int) (h : (2 : ℚ) ^ e ≤ x) (hlo : -126 ≤ e) :
    ∀ n : Nat, e + 126 < n → e ≤ binade x n := by
  intro n
  induction n with
  | zero => intro hn; omega
  | succ k ih =>
    intro hn
    rw [binade]
    split
    · omega
    · rename_i hc
      have hne : (k : Int) - 126 ≠ e := by
        intro heq
        rw [heq] at hc
        exact hc h
      exact ih (by omega)

theorem binade_lower (x : ℚ) (h : (2 : ℚ) ^ (-126 : Int) ≤ x) :
    ∀ n : Nat, (2 : ℚ) ^ (binade x n) ≤ x := by
  intro n
  induction n with
  | zero => exact h
  | succ k ih =>
    rw [binade]
    split
    · assumption
    · exact ih

theorem roundHalfEven_ge (y : ℚ) : y - 1 / 2 ≤ (roundHalfEven y : ℚ) := by
  have h1 := Int.floor_le y
  have h2 := Int.lt_floor_add_one y
  unfold roundHalfEven
  split
  · linarith
  · split
    · push_cast; linarith
    · split
      · linarith
      · push_cast; linarith

theorem roundHalfEven_le (y : ℚ) : (roundHalfEven y : ℚ) ≤ y + 1 / 2 := by
  have h1 := Int.floor_le y
  have h2 := Int.lt_floor_add_one y
  unfold roundHalfEven
  split
  · linarith
  · split
    · push_cast; linarith
    · split
      · linarith
      · push_cast; linarith

/-- Above an even integer `n`, ties to even rounds up exactly the values
above `n + 1/2`. -/
theorem lt_roundHalfEven_iff (y : ℚ) (n : Int) (hn : n % 2 = 0) :
    n < roundHalfEven y ↔ (n : ℚ) + 1 / 2 < y := by
  have h1 := Int.floor_le y
  have h2 := Int.lt_floor_add_one y
  constructor
  · intro h
    by_contra hy
    have hy : y ≤ (n : ℚ) + 1 / 2 := not_lt.mp hy
    have hfl : ⌊y⌋ ≤ n := by
      have : ((⌊y⌋ : Int) : ℚ) < (n : ℚ) + 1 := by linarith
      have : (⌊y⌋ : Int) < n + 1 := by exact_mod_cast this
      omega
    unfold roundHalfEven at h
    split at h
    · omega
    · split at h
      · rename_i h3 h4
        have : ((⌊y⌋ : Int) : ℚ) + 1 ≤ (n : ℚ) := by
          by_contra hc
          have hc : (n : ℚ) < ((⌊y⌋ : Int) : ℚ) + 1 := not_le.mp hc
          have : n < ⌊y⌋ + 1 := by exact_mod_cast hc
          have heq : ⌊y⌋ = n := by omega
          rw [heq] at h4
          linarith
        have : ⌊y⌋ + 1 ≤ n := by exact_mod_cast this
        omega
      · split at h
        · omega
        · rename_i h3 h4 h5
          have heq : ⌊y⌋ ≠ n := by
            intro heq
            rw [heq] at h5
            exact h5 hn
          omega
  · intro h
    have hfl : n ≤ ⌊y⌋ := by
      have : (n : ℚ) < ((⌊y⌋ : Int) : ℚ) + 1 := by linarith
      have : n < ⌊y⌋ + 1 := by exact_mod_cast this
      omega
    unfold roundHalfEven
    split
    · rename_i h3
      have : (n : ℚ) < ((⌊y⌋ : Int) : ℚ) := by linarith
      exact_mod_cast this
    · split
      · omega
      · split
        · rename_i h3 h4 h5
          have hr : y - ⌊y⌋ = 1 / 2 := le_antisymm (not_lt.mp h4) (not_lt.mp h3)
          have : (n : ℚ) < ((⌊y⌋ : Int) : ℚ) := by linarith
          exact_mod_cast this
        · omega

theorem round32_pos (x : ℚ) (hx : 0 < x) :
    round32 x =
      if (2 : ℚ) ^ (128 : Int) ≤
          (roundHalfEven (x / (2 : ℚ) ^ (binade x 254 - 23)) : ℚ) * (2 : ℚ) ^ (binade x 254 - 23)
      then FVal.pinf
      else FVal.fin
        ((roundHalfEven (x / (2 : ℚ) ^ (binade x 254 - 23)) : ℚ) * (2 : ℚ) ^ (binade x 254 - 23)) := by
  unfold round32
  simp only [if_neg (ne_of_gt hx), abs_of_pos hx, if_pos hx]

/-- The binary32 rounding of a positive value exceeds `maxoff` exactly when
the value exceeds the midpoint `21474837 / 2^31` between `0.01f` and the next
binary32 number (`0.01f` has an even significand, so the midpoint itself
rounds down to it). -/
theorem gt_round32_maxoff (x : ℚ) (hx : 0 < x) :
    FVal.gt (round32 x) maxoff = true ↔ (21474837 / 2147483648 : ℚ) < x := by
  rw [round32_pos x hx]
  have hu : (0 : ℚ) < (2 : ℚ) ^ (binade x 254 - 23) := zpow_pos (by norm_num) _
  have hyu : x / (2 : ℚ) ^ (binade x 254 - 23) * (2 : ℚ) ^ (binade x 254 - 23) = x :=
    div_mul_cancel₀ x (ne_of_gt hu)
  have hle := roundHalfEven_le (x / (2 : ℚ) ^ (binade x 254 - 23))
  have hge := roundHalfEven_ge (x / (2 : ℚ) ^ (binade x 254 - 23))
  have hbig : (1 : ℚ) < (2 : ℚ) ^ (128 : Int) := by norm_num
  rcases lt_or_le x ((2 : ℚ) ^ (-7 : Int)) with hA | hA
  · -- below the binade of `0.01f`
    have hE : binade x 254 ≤ -8 := binade_le x (-8) (by simpa using hA) (by norm_num) 254
    have hu2 : (2 : ℚ) ^ (binade x 254 - 23) ≤ (2 : ℚ) ^ (-31 : Int) :=
      zpow_le_zpow_right₀ (by norm_num) (by omega)
    have h31 : (2 : ℚ) ^ (-31 : Int) = 1 / 2147483648 := by norm_num
    rw [h31] at hu2
    have hm : (roundHalfEven (x / (2 : ℚ) ^ (binade x 254 - 23)) : ℚ) *
        (2 : ℚ) ^ (binade x 254 - 23) ≤ x + 1 / 2147483648 / 2 := by
      calc (roundHalfEven (x / (2 : ℚ) ^ (binade x 254 - 23)) : ℚ) *
            (2 : ℚ) ^ (binade x 254 - 23)
          ≤ (x / (2 : ℚ) ^ (binade x 254 - 23) + 1 / 2) * (2 : ℚ) ^ (binade x 254 - 23) :=
            mul_le_mul_of_nonneg_right hle (le_of_lt hu)
        _ = x + (2 : ℚ) ^ (binade x 254 - 23) / 2 := by rw [add_mul, hyu]; ring
        _ ≤ x + 1 / 2147483648 / 2 := by linarith
    have h7 : (2 : ℚ) ^ (-7 : Int) = 1 / 128 := by norm_num
    rw [h7] at hA
    rw [if_neg (by linarith)]
    simp only [FVal.gt, maxoff, decide_eq_true_eq]
    constructor
    · intro h
      linarith
    · intro h
      linarith
  · rcases lt_or_le x ((2 : ℚ) ^ (-6 : Int)) with hB | hB
    · -- in the binade of `0.01f`
      have hE : binade x 254 = -7 :=
        binade_eq x (-7) hA (by simpa using hB) (by norm_num) 254 (by norm_num)
      rw [hE] at hle hge hyu ⊢
      have h30 : (2 : ℚ) ^ ((-7 : Int) - 23) = 1 / 1073741824 := by norm_num
      have h6 : (2 : ℚ) ^ (-6 : Int) = 1 / 64 := by norm_num
      rw [h30] at hle hge hyu ⊢
      rw [h6] at hB
      have hy : x / (1 / 1073741824) = x * 1073741824 := by ring
      have hm : (roundHalfEven (x / (1 / 1073741824)) : ℚ) * (1 / 1073741824) ≤ 1 := by
        have : (roundHalfEven (x / (1 / 1073741824)) : ℚ) ≤ x * 1073741824 + 1 / 2 := by
          rw [← hy]; exact hle
        linarith
      rw [if_neg (by linarith)]
      simp only [FVal.gt, maxoff, decide_eq_true_eq]
      have key := lt_roundHalfEven_iff (x / (1 / 1073741824)) 10737418 (by norm_num)
      rw [hy] at key ⊢
      constructor
      · intro h
        have h1 : ((10737418 : Int) : ℚ) < (roundHalfEven (x * 1073741824) : ℚ) := by
          push_cast
          linarith
        have h2 : (10737418 : Int) < roundHalfEven (x * 1073741824) := by exact_mod_cast h1
        have h3 := key.mp h2
        push_cast at h3
        linarith
      · intro h
        have h3 : ((10737418 : Int) : ℚ) + 1 / 2 < x * 1073741824 := by
          push_cast
          linarith
        have h2 := key.mpr h3
        have h1 : ((10737418 : Int) : ℚ) < (roundHalfEven (x * 1073741824) : ℚ) := by
          exact_mod_cast h2
        push_cast at h1
        linarith
    · -- above the binade of `0.01f`
      have hE : -6 ≤ binade x 254 := binade_ge x (-6) hB (by norm_num) 254 (by norm_num)
      have hlow : (2 : ℚ) ^ (binade x 254) ≤ x := by
        refine binade_lower x ?_ 254
        have : (2 : ℚ) ^ (-126 : Int) ≤ (2 : ℚ) ^ (-6 : Int) :=
          zpow_le_zpow_right₀ (by norm_num) (by norm_num)
        linarith
      have hsplit : (2 : ℚ) ^ (binade x 254) =
          (2 : ℚ) ^ (23 : Int) * (2 : ℚ) ^ (binade x 254 - 23) := by
        rw [← zpow_add₀ (by norm_num : (2 : ℚ) ≠ 0)]
        congr 1
        omega
      have h23 : (2 : ℚ) ^ (23 : Int) = 8388608 := by norm_num
      rw [h23] at hsplit
      have hy : (8388608 : ℚ) ≤ x / (2 : ℚ) ^ (binade x 254 - 23) := by
        rw [le_div_iff₀ hu, ← hsplit]
        exact hlow
      have hk : (8388608 : Int) ≤ roundHalfEven (x / (2 : ℚ) ^ (binade x 254 - 23)) := by
        have h1 : ((8388608 : Int) : ℚ) - 1 <
            (roundHalfEven (x / (2 : ℚ) ^ (binade x 254 - 23)) : ℚ) := by
          push_cast
          linarith
        have h2 : (8388608 : Int) - 1 < roundHalfEven (x / (2 : ℚ) ^ (binade x 254 - 23)) := by
          exact_mod_cast h1
        omega
      have h6 : (2 : ℚ) ^ (-6 : Int) = 1 / 64 := by norm_num
      have hm : (1 / 64 : ℚ) ≤
          (roundHalfEven (x / (2 : ℚ) ^ (binade x 254 - 23)) : ℚ) *
            (2 : ℚ) ^ (binade x 254 - 23) := by
        have h1 : (2 : ℚ) ^ (-6 : Int) ≤ (2 : ℚ) ^ (binade x 254) :=
          zpow_le_zpow_right₀ (by norm_num) hE
        rw [h6] at h1
        have h2 : (8388608 : ℚ) ≤ (roundHalfEven (x / (2 : ℚ) ^ (binade x 254 - 23)) : ℚ) := by
          exact_mod_cast hk
        have h3 := mul_le_mul_of_nonneg_right h2 (le_of_lt hu)
        linarith
      rw [h6] at hB
      have hT : (21474837 / 2147483648 : ℚ) < x := by linarith
      simp only [hT, iff_true]
      split
      · rfl
      · simp only [FVal.gt, maxoff, decide_eq_true_eq]
        linarith

theorem roundHalfEven_nonneg (y : ℚ) (hy : 0 ≤ y) : 0 ≤ roundHalfEven y := by
  have hf : 0 ≤ ⌊y⌋ := Int.floor_nonneg.mpr hy
  unfold roundHalfEven
  split
  · exact hf
  · split
    · omega
    · split
      · exact hf
      · omega

/-- Rounding is symmetric about zero, so `fabsf` of a rounded value is the
rounded absolute value. -/
theorem fabsf_round32 (d : ℚ) : FVal.fabsf (round32 d) = round32 |d| := by
  have hm : (0 : ℚ) ≤ (roundHalfEven (|d| / (2 : ℚ) ^ (binade |d| 254 - 23)) : ℚ) *
      (2 : ℚ) ^ (binade |d| 254 - 23) := by
    have hu : (0 : ℚ) < (2 : ℚ) ^ (binade |d| 254 - 23) := zpow_pos (by norm_num) _
    have hk : 0 ≤ roundHalfEven (|d| / (2 : ℚ) ^ (binade |d| 254 - 23)) :=
      roundHalfEven_nonneg _ (div_nonneg (abs_nonneg d) (le_of_lt hu))
    have hk2 : (0 : ℚ) ≤ (roundHalfEven (|d| / (2 : ℚ) ^ (binade |d| 254 - 23)) : ℚ) := by
      exact_mod_cast hk
    exact mul_nonneg hk2 (le_of_lt hu)
  rcases lt_trichotomy d 0 with h | h | h
  · have h1 : ¬ (0 < d) := not_lt.mpr (le_of_lt h)
    have h2 : (0 : ℚ) < |d| := abs_pos.mpr (ne_of_lt h)
    unfold round32
    simp only [abs_abs, if_neg (ne_of_lt h), if_neg (ne_of_gt h2), if_neg h1, if_pos h2]
    split
    · rfl
    · simp only [FVal.fabsf, abs_neg, abs_of_nonneg hm]
  · subst h
    simp [round32_zero, FVal.fabsf]
  · have h2 : (0 : ℚ) < |d| := abs_pos.mpr (ne_of_gt h)
    unfold round32
    simp only [abs_abs, if_neg (ne_of_gt h), if_neg (ne_of_gt h2), if_pos h, if_pos h2]
    split
    · rfl
    · simp only [FVal.fabsf, abs_of_nonneg hm]

/-- The test `fabsf(a - b) > maxoff` of the validation stage, on finite
operands: the difference is rounded to binary32 before the comparison with
`0.01f`, so the test fires exactly when the real difference exceeds
`21474837 / 2^31`, which lies above `1 / 100`. -/
theorem exceeds_fin_iff (a b : ℚ) :
    exceeds (FVal.fin a) (FVal.fin b) = true ↔ (21474837 / 2147483648 : ℚ) < |a - b| := by
  show FVal.gt (FVal.fabsf (round32 (a - b))) maxoff = true ↔ _
  rw [fabsf_round32]
  rcases eq_or_lt_of_le (abs_nonneg (a - b)) with h | h
  · rw [← h, round32_zero]
    simp only [FVal.gt, maxoff, decide_eq_true_eq]
    constructor
    · intro h0
      linarith
    · intro h0
      linarith
  · exact gt_round32_maxoff _ h

/-! ## Arrays and `float` sums -/

theorem Arr3.get_set_same {α : Type} (a : Arr3 α) (s : Nat) (v : α) :
    (a.set s v).get s = v := by
  match s with
  | 0 => rfl
  | 1 => rfl
  | _ + 2 => rfl

theorem Arr3.get_set_ne {α : Type} (a : Arr3 α) {s t : Nat} (v : α)
    (hs : s < 3) (ht : t < 3) (hne : s ≠ t) : (a.set s v).get t = a.get t := by
  interval_cases s <;> interval_cases t <;> first | rfl | exact absurd rfl hne

theorem Arr3.get_const {α : Type} (v : α) (s : Nat) : (Arr3.const v).get s = v := by
  match s with
  | 0 => rfl
  | 1 => rfl
  | _ + 2 => rfl

theorem range_max_gyros : List.range max_gyros = [0, 1, 2] := by decide

theorem sumF_nil : sumF [] = FVal.fin 0 := rfl

theorem sumF_snoc (l : List FVal) (x : FVal) : sumF (l ++ [x]) = FVal.add (sumF l) x := by
  simp [sumF, List.foldl_append]

/-- On finite values `sumF` is the exact sum. -/
theorem sumF_fin (qs : List ℚ) : sumF (qs.map FVal.fin) = FVal.fin qs.sum := by
  induction qs using List.reverseRecOn with
  | nil => simp [sumF]
  | append_singleton l a ih =>
    rw [List.map_append, List.map_singleton, sumF_snoc, ih]
    simp [FVal.add]

/-- On a non-empty list of finite values `mean` is the exact arithmetic mean. -/
theorem mean_fin (qs : List ℚ) (h : qs ≠ []) :
    mean (qs.map FVal.fin) = FVal.fin (qs.sum / (qs.length : ℚ)) := by
  have hl : qs.length ≠ 0 := by
    intro h0
    exact h (List.length_eq_zero.mp h0)
  simp [mean, sumF_fin, FVal.divNat, hl]

/-! ## The inner loop -/

theorem readSample_frame (env : Env) (i : Nat) (st : State) (s : Nat) :
    (readSample env i st s).res = st.res ∧
    (readSample env i st s).device_id = st.device_id ∧
    (readSample env i st s).failed = st.failed ∧
    (readSample env i st s).polls = st.polls ∧
    (readSample env i st s).poll_errcount = st.poll_errcount ∧
    (readSample env i st s).trace = st.trace := by
  unfold readSample
  split <;> simp

theorem readSample_counter (env : Env) (i : Nat) (st : State) {s t : Nat}
    (hs : s < 3) (ht : t < 3) :
    (readSample env i st s).calibration_counter.get t =
      if s = t ∧ env.changed i s = true then st.calibration_counter.get t + 1
      else st.calibration_counter.get t := by
  unfold readSample
  by_cases hc : env.changed i s = true
  · by_cases h : s = t
    · subst h
      simp [hc, Arr3.get_set_same]
    · simp [hc, Arr3.get_set_ne _ _ hs ht h, h]
  · simp [hc]

theorem readSample_scale (env : Env) (i : Nat) (st : State) {s t : Nat}
    (hs : s < 3) (ht : t < 3) :
    (readSample env i st s).gyro_scale.get t =
      if s = t ∧ env.changed i s = true then
        { st.gyro_scale.get t with
          x_offset := FVal.add (st.gyro_scale.get t).x_offset (env.report i t).x
          y_offset := FVal.add (st.gyro_scale.get t).y_offset (env.report i t).y
          z_offset := FVal.add (st.gyro_scale.get t).z_offset (env.report i t).z }
      else st.gyro_scale.get t := by
  unfold readSample
  by_cases hc : env.changed i s = true
  · by_cases h : s = t
    · subst h
      simp [hc, Arr3.get_set_same]
    · simp [hc, Arr3.get_set_ne _ _ hs ht h, h]
  · simp [hc]

theorem readSample_report_0 (env : Env) (i : Nat) (st : State) (s : Nat) :
    (readSample env i st s).gyro_report_0 =
      if s = 0 ∧ env.changed i s = true then env.report_0 i else st.gyro_report_0 := by
  unfold readSample
  by_cases hc : env.changed i s = true
  · by_cases h : s = 0
    · subst h
      simp [hc]
    · simp [hc, h]
  · simp [hc]

/-- A progress message. -/
theorem logProgress_frame (st : State) (s : Nat) :
    (logProgress st s).res = st.res ∧
    (logProgress st s).device_id = st.device_id ∧
    (logProgress st s).failed = st.failed ∧
    (logProgress st s).polls = st.polls ∧
    (logProgress st s).poll_errcount = st.poll_errcount ∧
    (logProgress st s).calibration_counter = st.calibration_counter ∧
    (logProgress st s).gyro_scale = st.gyro_scale ∧
    (logProgress st s).gyro_report_0 = st.gyro_report_0 := by
  unfold logProgress
  split <;> simp

theorem logProgress_trace (st : State) (s : Nat) :
    ∃ l, (logProgress st s).trace = st.trace ++ l ∧
      ∀ e ∈ l, ∃ p, e = Event.log_info (Msg.CAL_PROGRESS_MSG p) := by
  unfold logProgress
  split
  · exact ⟨_, rfl, by simp⟩
  · exact ⟨[], by simp, by simp⟩

theorem sampleSlot_frame (env : Env) (i : Nat) (st : State) (s : Nat) :
    (sampleSlot env i st s).res = st.res ∧
    (sampleSlot env i st s).device_id = st.device_id ∧
    (sampleSlot env i st s).failed = st.failed ∧
    (sampleSlot env i st s).polls = st.polls ∧
    (sampleSlot env i st s).poll_errcount = st.poll_errcount := by
  obtain ⟨h1, h2, h3, h4, h5, -⟩ := logProgress_frame (readSample env i st s) s
  obtain ⟨g1, g2, g3, g4, g5, -⟩ := readSample_frame env i st s
  unfold sampleSlot
  exact ⟨h1.trans g1, h2.trans g2, h3.trans g3, h4.trans g4, h5.trans g5⟩

theorem sampleSlot_counter (env : Env) (i : Nat) (st : State) {s t : Nat}
    (hs : s < 3) (ht : t < 3) :
    (sampleSlot env i st s).calibration_counter.get t =
      if s = t ∧ env.changed i s = true then st.calibration_counter.get t + 1
      else st.calibration_counter.get t := by
  unfold sampleSlot
  rw [(logProgress_frame _ s).2.2.2.2.2.1, readSample_counter env i st hs ht]

theorem sampleSlot_scale (env : Env) (i : Nat) (st : State) {s t : Nat}
    (hs : s < 3) (ht : t < 3) :
    (sampleSlot env i st s).gyro_scale.get t =
      if s = t ∧ env.changed i s = true then
        { st.gyro_scale.get t with
          x_offset := FVal.add (st.gyro_scale.get t).x_offset (env.report i t).x
          y_offset := FVal.add (st.gyro_scale.get t).y_offset (env.report i t).y
          z_offset := FVal.add (st.gyro_scale.get t).z_offset (env.report i t).z }
      else st.gyro_scale.get t := by
  unfold sampleSlot
  rw [(logProgress_frame _ s).2.2.2.2.2.2.1, readSample_scale env i st hs ht]

theorem sampleSlot_report_0 (env : Env) (i : Nat) (st : State) (s : Nat) :
    (sampleSlot env i st s).gyro_report_0 =
      if s = 0 ∧ env.changed i s = true then env.report_0 i else st.gyro_report_0 := by
  unfold sampleSlot
  rw [(logProgress_frame _ s).2.2.2.2.2.2.2, readSample_report_0]

theorem OnlyProgress.append {l1 l2 : List Event} (h1 : OnlyProgress l1) (h2 : OnlyProgress l2) :
    OnlyProgress (l1 ++ l2) := by
  intro e he
  rcases List.mem_append.mp he with h | h
  · exact h1 e h
  · exact h2 e h

theorem OnlyProgress.nil : OnlyProgress [] := by
  intro e he
  simp at he

theorem sampleSlot_trace (env : Env) (i : Nat) (st : State) (s : Nat) :
    ∃ l, (sampleSlot env i st s).trace = st.trace ++ l ∧ OnlyProgress l := by
  obtain ⟨l, hl, hp⟩ := logProgress_trace (readSample env i st s) s
  refine ⟨l, ?_, hp⟩
  unfold sampleSlot
  rw [hl, (readSample_frame env i st s).2.2.2.2.2]

/-! ## The body of the `while` loop -/

theorem loopBody_woke (env : Env) (st : State) (h : woke env st.polls = true) :
    loopBody env st =
      sampleSlot env st.polls (sampleSlot env st.polls
        (sampleSlot env st.polls { st with polls := st.polls + 1 } 0) 1) 2 := by
  have h1 : 0 < env.poll_ret st.polls := by simpa [woke] using h
  simp [loopBody, h1, range_max_gyros]

theorem loopBody_timeout (env : Env) (st : State) (h : woke env st.polls = false) :
    loopBody env st =
      { st with polls := st.polls + 1, poll_errcount := st.poll_errcount + 1 } := by
  have h1 : ¬ 0 < env.poll_ret st.polls := by simpa [woke] using h
  simp [loopBody, h1]

theorem loopBody_frame (env : Env) (st : State) :
    (loopBody env st).res = st.res ∧
    (loopBody env st).device_id = st.device_id ∧
    (loopBody env st).failed = st.failed ∧
    (loopBody env st).polls = st.polls + 1 := by
  cases h : woke env st.polls
  · rw [loopBody_timeout env st h]
    simp
  · rw [loopBody_woke env st h]
    simp [sampleSlot_frame]

theorem loopBody_errcount (env : Env) (st : State) :
    (loopBody env st).poll_errcount =
      if woke env st.polls then st.poll_errcount else st.poll_errcount + 1 := by
  cases h : woke env st.polls
  · rw [loopBody_timeout env st h]
    simp
  · rw [loopBody_woke env st h]
    simp [sampleSlot_frame]

theorem loopBody_counter (env : Env) (st : State) {t : Nat} (ht : t < 3) :
    (loopBody env st).calibration_counter.get t =
      if (woke env st.polls && env.changed st.polls t) = true then st.calibration_counter.get t + 1
      else st.calibration_counter.get t := by
  cases h : woke env st.polls
  · rw [loopBody_timeout env st h]
    simp
  · rw [loopBody_woke env st h]
    interval_cases t <;> simp [sampleSlot_counter]

theorem loopBody_scale (env : Env) (st : State) {t : Nat} (ht : t < 3) :
    (loopBody env st).gyro_scale.get t =
      if (woke env st.polls && env.changed st.polls t) = true then
        { st.gyro_scale.get t with
          x_offset := FVal.add (st.gyro_scale.get t).x_offset (env.report st.polls t).x
          y_offset := FVal.add (st.gyro_scale.get t).y_offset (env.report st.polls t).y
          z_offset := FVal.add (st.gyro_scale.get t).z_offset (env.report st.polls t).z }
      else st.gyro_scale.get t := by
  cases h : woke env st.polls
  · rw [loopBody_timeout env st h]
    simp
  · rw [loopBody_woke env st h]
    interval_cases t <;> simp [sampleSlot_scale]

theorem loopBody_report_0 (env : Env) (st : State) :
    (loopBody env st).gyro_report_0 =
      if (woke env st.polls && env.changed st.polls 0) = true then env.report_0 st.polls
      else st.gyro_report_0 := by
  cases h : woke env st.polls
  · rw [loopBody_timeout env st h]
    simp
  · rw [loopBody_woke env st h]
    simp [sampleSlot_report_0]

theorem loopBody_trace (env : Env) (st : State) :
    ∃ l, (loopBody env st).trace = st.trace ++ l ∧ OnlyProgress l := by
  cases h : woke env st.polls
  · rw [loopBody_timeout env st h]
    exact ⟨[], by simp, OnlyProgress.nil⟩
  · rw [loopBody_woke env st h]
    obtain ⟨l0, e0, p0⟩ := sampleSlot_trace env st.polls { st with polls := st.polls + 1 } 0
    obtain ⟨l1, e1, p1⟩ := sampleSlot_trace env st.polls
      (sampleSlot env st.polls { st with polls := st.polls + 1 } 0) 1
    obtain ⟨l2, e2, p2⟩ := sampleSlot_trace env st.polls
      (sampleSlot env st.polls (sampleSlot env st.polls { st with polls := st.polls + 1 } 0) 1) 2
    refine ⟨l0 ++ (l1 ++ l2), ?_, p0.append (p1.append p2)⟩
    rw [e2, e1, e0]
    simp

/-! ## The reset loop -/

theorem resetSlot_frame (env : Env) (st : State) (s : Nat) :
    (resetSlot env st s).calibration_counter = st.calibration_counter ∧
    (resetSlot env st s).gyro_report_0 = st.gyro_report_0 ∧
    (resetSlot env st s).poll_errcount = st.poll_errcount ∧
    (resetSlot env st s).failed = st.failed ∧
    (resetSlot env st s).polls = st.polls := by
  simp only [resetSlot]
  split
  · split <;> simp
  · simp

theorem resetSlot_scale (env : Env) (st : State) {s t : Nat} (hs : s < 3) (ht : t < 3) :
    (resetSlot env st s).gyro_scale.get t =
      if s = t then gyro_scale_zero else st.gyro_scale.get t := by
  have h : (resetSlot env st s).gyro_scale = st.gyro_scale.set s gyro_scale_zero := by
    simp only [resetSlot]
    split
    · split <;> simp
    · simp
  rw [h]
  by_cases hst : s = t
  · subst hst
    simp [Arr3.get_set_same]
  · simp [hst, Arr3.get_set_ne _ _ hs ht hst]

theorem resetSlot_res (env : Env) (st : State) (s : Nat) :
    (resetSlot env st s).res = if env.open_reset s = true then env.reset_res s else st.res := by
  simp only [resetSlot]
  split
  · split <;> simp
  · simp

theorem resetSlot_device_id (env : Env) (st : State) {s t : Nat} (hs : s < 3) (ht : t < 3) :
    (resetSlot env st s).device_id.get t =
      if s = t ∧ env.open_reset s = true then some (env.ioctl_DEVIOCGDEVICEID s)
      else st.device_id.get t := by
  simp only [resetSlot]
  by_cases ho : env.open_reset s = true
  · by_cases hst : s = t
    · subst hst
      simp only [ho, if_true]
      split <;> simp [Arr3.get_set_same]
    · simp only [ho, if_true]
      split <;> simp [Arr3.get_set_ne _ _ hs ht hst, hst]
  · simp [ho]

theorem resetSlot_trace (env : Env) (st : State) (s : Nat) :
    ∃ l, (resetSlot env st s).trace = st.trace ++ l ∧ ∀ e ∈ l, e.early = true := by
  simp only [resetSlot]
  split
  · split
    · exact ⟨[Event.reset_cal s, Event.log_critical Msg.CAL_FAILED_RESET_CAL_MSG],
        by simp, by simp [Event.early]⟩
    · exact ⟨[Event.reset_cal s], by simp, by simp [Event.early]⟩
  · exact ⟨[], by simp, by simp⟩

theorem resetStage_eq (env : Env) :
    resetStage env = resetSlot env (resetSlot env (resetSlot env (initState env) 0) 1) 2 := by
  simp [resetStage, range_max_gyros]

theorem resetStage_zero (env : Env) :
    (∀ s, (resetStage env).calibration_counter.get s = 0) ∧
    (resetStage env).gyro_report_0 = { x := FVal.fin 0, y := FVal.fin 0, z := FVal.fin 0 } ∧
    (resetStage env).poll_errcount = 0 ∧
    (resetStage env).failed = false ∧
    (resetStage env).polls = 0 := by
  rw [resetStage_eq]
  simp [resetSlot_frame, initState, Arr3.get_const]

theorem resetStage_scale (env : Env) {t : Nat} (ht : t < 3) :
    (resetStage env).gyro_scale.get t = gyro_scale_zero := by
  rw [resetStage_eq]
  interval_cases t <;> simp [resetSlot_scale]

theorem resetStage_res (env : Env) :
    (resetStage env).res =
      if env.open_reset 2 = true then env.reset_res 2
      else if env.open_reset 1 = true then env.reset_res 1
      else if env.open_reset 0 = true then env.reset_res 0
      else OK := by
  rw [resetStage_eq]
  simp [resetSlot_res, initState]

theorem resetStage_device_id (env : Env) {t : Nat} (ht : t < 3) :
    (resetStage env).device_id.get t =
      if env.open_reset t = true then some (env.ioctl_DEVIOCGDEVICEID t) else none := by
  rw [resetStage_eq]
  interval_cases t <;> simp [resetSlot_device_id, initState, Arr3.get_const]

theorem resetStage_trace (env : Env) : ∀ e ∈ (resetStage env).trace, e.early = true := by
  rw [resetStage_eq]
  obtain ⟨l0, e0, p0⟩ := resetSlot_trace env (initState env) 0
  obtain ⟨l1, e1, p1⟩ := resetSlot_trace env (resetSlot env (initState env) 0) 1
  obtain ⟨l2, e2, p2⟩ := resetSlot_trace env (resetSlot env (resetSlot env (initState env) 0) 1) 2
  rw [e2, e1, e0]
  intro e he
  simp only [List.mem_append] at he
  rcases he with ((he | he) | he) | he
  · simp only [initState, List.mem_cons, List.mem_singleton, List.not_mem_nil, or_false] at he
    rcases he with rfl | rfl | rfl <;> simp [Event.early]
  · exact p0 e he
  · exact p1 e he
  · exact p2 e he

/-! ## The `while` loop -/

theorem whileStep_exit (env : Env) (st : State)
    (h : ¬ st.calibration_counter.get 0 < calibration_count) :
    whileStep env st = Ctl.done st := by
  simp [whileStep, h]

theorem whileStep_abort (env : Env) (st : State)
    (h : st.calibration_counter.get 0 < calibration_count)
    (he : 1000 < (loopBody env st).poll_errcount) :
    whileStep env st = Ctl.done (abortState (loopBody env st)) := by
  simp [whileStep, h, he, abortState]

theorem whileStep_next (env : Env) (st : State)
    (h : st.calibration_counter.get 0 < calibration_count)
    (he : ¬ 1000 < (loopBody env st).poll_errcount) :
    whileStep env st = Ctl.next (loopBody env st) := by
  simp [whileStep, h, he]

theorem sampleLoop_succ (env : Env) (fuel : Nat) (st : State) :
    sampleLoop env (fuel + 1) st =
      if st.calibration_counter.get 0 < calibration_count then
        if 1000 < (loopBody env st).poll_errcount then some (abortState (loopBody env st))
        else sampleLoop env fuel (loopBody env st)
      else some st := by
  by_cases h : st.calibration_counter.get 0 < calibration_count
  · by_cases he : 1000 < (loopBody env st).poll_errcount
    · simp [sampleLoop, whileStep_abort env st h he, h, he]
    · simp [sampleLoop, whileStep_next env st h he, h, he]
  · simp [sampleLoop, whileStep_exit env st h, h]

/-- Partial correctness of the `while` loop: `P` is kept by every turn that
goes on, `Q` holds however the loop is left. -/
theorem sampleLoop_rule (env : Env) (P Q : State → Prop)
    (hnext : ∀ st, P st → st.calibration_counter.get 0 < calibration_count →
      ¬ 1000 < (loopBody env st).poll_errcount → P (loopBody env st))
    (hdone : ∀ st, P st → ¬ st.calibration_counter.get 0 < calibration_count → Q st)
    (habort : ∀ st, P st → st.calibration_counter.get 0 < calibration_count →
      1000 < (loopBody env st).poll_errcount → Q (abortState (loopBody env st))) :
    ∀ fuel st st1, P st → sampleLoop env fuel st = some st1 → Q st1 := by
  intro fuel
  induction fuel with
  | zero =>
    intro st st1 _ h
    simp [sampleLoop] at h
  | succ n ih =>
    intro st st1 hP h
    rw [sampleLoop_succ] at h
    by_cases hc : st.calibration_counter.get 0 < calibration_count
    · by_cases he : 1000 < (loopBody env st).poll_errcount
      · simp only [hc, he, if_true, Option.some.injEq] at h
        subst h
        exact habort st hP hc he
      · simp only [hc, he, if_true, if_false] at h
        exact ih _ _ (hnext st hP hc he) h
    · simp only [hc, if_false, Option.some.injEq] at h
      subst h
      exact hdone st hP hc

/-- Termination of the `while` loop: when every turn that goes on keeps `P`
and lowers the measure `m`, the loop ends within `m st + 1` turns. -/
theorem sampleLoop_total (env : Env) (P : State → Prop) (m : State → Nat)
    (hnext : ∀ st, P st → st.calibration_counter.get 0 < calibration_count →
      ¬ 1000 < (loopBody env st).poll_errcount →
      P (loopBody env st) ∧ m (loopBody env st) < m st) :
    ∀ n st, P st → m st ≤ n → ∃ st1, sampleLoop env (n + 1) st = some st1 := by
  intro n
  induction n with
  | zero =>
    intro st hP hm
    rw [sampleLoop_succ]
    by_cases hc : st.calibration_counter.get 0 < calibration_count
    · by_cases he : 1000 < (loopBody env st).poll_errcount
      · exact ⟨abortState (loopBody env st), by simp [hc, he]⟩
      · have := (hnext st hP hc he).2
        omega
    · exact ⟨st, by simp [hc]⟩
  | succ n ih =>
    intro st hP hm
    rw [sampleLoop_succ]
    by_cases hc : st.calibration_counter.get 0 < calibration_count
    · by_cases he : 1000 < (loopBody env st).poll_errcount
      · exact ⟨abortState (loopBody env st), by simp [hc, he]⟩
      · obtain ⟨hP1, hlt⟩ := hnext st hP hc he
        obtain ⟨st1, h1⟩ := ih (loopBody env st) hP1 (by omega)
        exact ⟨st1, by simp [hc, he, h1]⟩
    · exact ⟨st, by simp [hc]⟩

/-- More fuel does not change the result of the `while` loop. -/
theorem sampleLoop_mono (env : Env) :
    ∀ fuel fuel2 st st1, fuel ≤ fuel2 → sampleLoop env fuel st = some st1 →
      sampleLoop env fuel2 st = some st1 := by
  intro fuel
  induction fuel with
  | zero =>
    intro fuel2 st st1 _ h
    simp [sampleLoop] at h
  | succ n ih =>
    intro fuel2 st st1 hle h
    obtain ⟨k, rfl⟩ : ∃ k, fuel2 = k + 1 := ⟨fuel2 - 1, by omega⟩
    rw [sampleLoop_succ] at h ⊢
    by_cases hc : st.calibration_counter.get 0 < calibration_count
    · by_cases he : 1000 < (loopBody env st).poll_errcount
      · simpa [hc, he] using h
      · simp only [hc, he, if_true, if_false] at h ⊢
        exact ih k _ _ (by omega) h
    · simpa [hc] using h

theorem sumScale_nil : sumScale [] = gyro_scale_zero := rfl

theorem sumScale_snoc (l : List gyro_report) (r : gyro_report) :
    sumScale (l ++ [r]) =
      { sumScale l with
        x_offset := FVal.add (sumScale l).x_offset r.x
        y_offset := FVal.add (sumScale l).y_offset r.y
        z_offset := FVal.add (sumScale l).z_offset r.z } := by
  simp [sumScale, sumF_snoc]

theorem LoopInv_init (env : Env) : LoopInv env (resetStage env) := by
  obtain ⟨hc, hr, he, hf, hp⟩ := resetStage_zero env
  refine ⟨?_, ?_, ?_, ?_, rfl, hf, ?_⟩
  · intro s _
    simp [hc, hp, samplesRead]
  · intro s hs
    simp [hp, samplesRead, resetStage_scale env hs, sumScale_nil]
  · simp [he, hp, timeouts]
  · simp [hr, hp, snapshot]
  · simp [hc]

theorem LoopInv_step (env : Env) (st : State) (h : LoopInv env st)
    (hc : st.calibration_counter.get 0 < calibration_count) : LoopInv env (loopBody env st) := by
  obtain ⟨-, f2, f3, f4⟩ := loopBody_frame env st
  refine ⟨?_, ?_, ?_, ?_, ?_, ?_, ?_⟩
  · intro s hs
    rw [loopBody_counter env st hs, f4, samplesRead, h.counter s hs]
    split <;> simp
  · intro s hs
    rw [loopBody_scale env st hs, f4, samplesRead, h.scale s hs]
    split
    · rw [sumScale_snoc]
    · rfl
  · rw [loopBody_errcount, f4, timeouts, h.errs]
  · rw [loopBody_report_0, f4, snapshot, h.snap]
  · rw [f2, h.device_id]
  · rw [f3, h.failed]
  · have := loopBody_counter env st (show 0 < 3 by decide)
    rw [this]
    split <;> omega

theorem LoopInv_abortState (env : Env) (st : State) (h : LoopInv env st) :
    LoopInv env (abortState st) :=
  ⟨h.counter, h.scale, h.errs, h.snap, h.device_id, h.failed, h.ref_le⟩

theorem LoopHead_init (env : Env) : LoopHead env (resetStage env) :=
  ⟨LoopInv_init env, rfl, ⟨[], by simp, OnlyProgress.nil⟩, by simp [(resetStage_zero env).2.2.1]⟩

theorem LoopHead_step (env : Env) (st : State) (h : LoopHead env st)
    (hc : st.calibration_counter.get 0 < calibration_count)
    (he : ¬ 1000 < (loopBody env st).poll_errcount) : LoopHead env (loopBody env st) := by
  refine ⟨LoopInv_step env st h.inv hc, ?_, ?_, by omega⟩
  · rw [(loopBody_frame env st).1, h.res]
  · obtain ⟨l, hl, hp⟩ := h.trace
    obtain ⟨l2, hl2, hp2⟩ := loopBody_trace env st
    exact ⟨l ++ l2, by rw [hl2, hl, List.append_assoc], hp.append hp2⟩

/-- However the `while` loop ends, it ends in one of the two ways. -/
theorem sampleLoop_exit (env : Env) (fuel : Nat) (st1 : State)
    (h : sampleLoop env fuel (resetStage env) = some st1) :
    Completed env st1 ∨ Aborted env st1 := by
  refine sampleLoop_rule env (LoopHead env) (fun st => Completed env st ∨ Aborted env st)
    (LoopHead_step env) ?_ ?_ fuel _ _ (LoopHead_init env) h
  · intro st hh hc
    left
    have := hh.inv.ref_le
    exact ⟨hh.inv, by omega, hh.res, hh.trace, hh.errs_le⟩
  · intro st hh hc he
    right
    have hle := hh.errs_le
    have hec := loopBody_errcount env st
    refine ⟨LoopInv_abortState env _ (LoopInv_step env st hh.inv hc), ?_, rfl, ?_, ?_,
      ⟨st.polls, (loopBody_frame env st).2.2.2, by rw [← hh.inv.errs]; exact hle⟩⟩
    · show (loopBody env st).calibration_counter.get 0 < calibration_count
      rw [loopBody_counter env st (show 0 < 3 by decide)]
      cases hw : woke env st.polls
      · simpa using hc
      · rw [hw] at hec
        simp only [if_true] at hec
        omega
    · obtain ⟨l, hl, hp⟩ := hh.trace
      obtain ⟨l2, hl2, hp2⟩ := loopBody_trace env st
      refine ⟨l ++ l2, ?_, hp.append hp2⟩
      show (loopBody env st).trace ++ _ = _
      rw [hl2, hl]
      simp
    · show (loopBody env st).poll_errcount = 1001
      split at hec <;> omega

/-! ## The stages after the loop -/

theorem divideSlot_scale (st : State) {s t : Nat} (hs : s < 3) (ht : t < 3) :
    (divideSlot st s).gyro_scale.get t =
      if s = t then
        { st.gyro_scale.get t with
          x_offset := FVal.divNat (st.gyro_scale.get t).x_offset (st.calibration_counter.get t)
          y_offset := FVal.divNat (st.gyro_scale.get t).y_offset (st.calibration_counter.get t)
          z_offset := FVal.divNat (st.gyro_scale.get t).z_offset (st.calibration_counter.get t) }
      else st.gyro_scale.get t := by
  unfold divideSlot
  by_cases h : s = t
  · subst h
    simp [Arr3.get_set_same]
  · simp [h, Arr3.get_set_ne _ _ hs ht h]

theorem divideSlot_counter (st : State) (s : Nat) :
    (divideSlot st s).calibration_counter = st.calibration_counter := rfl

theorem divideStage_eq (st : State) :
    divideStage st = divideSlot (divideSlot (divideSlot st 0) 1) 2 := by
  simp [divideStage, range_max_gyros]

theorem divideStage_frame (st : State) :
    (divideStage st).res = st.res ∧
    (divideStage st).device_id = st.device_id ∧
    (divideStage st).failed = st.failed ∧
    (divideStage st).polls = st.polls ∧
    (divideStage st).poll_errcount = st.poll_errcount ∧
    (divideStage st).calibration_counter = st.calibration_counter ∧
    (divideStage st).gyro_report_0 = st.gyro_report_0 ∧
    (divideStage st).trace = st.trace := by
  rw [divideStage_eq]
  simp [divideSlot]

theorem divideStage_scale (st : State) {t : Nat} (ht : t < 3) :
    (divideStage st).gyro_scale.get t =
      { st.gyro_scale.get t with
        x_offset := FVal.divNat (st.gyro_scale.get t).x_offset (st.calibration_counter.get t)
        y_offset := FVal.divNat (st.gyro_scale.get t).y_offset (st.calibration_counter.get t)
        z_offset := FVal.divNat (st.gyro_scale.get t).z_offset (st.calibration_counter.get t) } := by
  rw [divideStage_eq]
  interval_cases t <;> simp [divideSlot_scale, divideSlot_counter]

theorem divideStage_meanScale (env : Env) (st : State) (h : LoopInv env st) {t : Nat}
    (ht : t < 3) :
    (divideStage st).gyro_scale.get t = meanScale (samplesRead env t st.polls) := by
  rw [divideStage_scale st ht, h.scale t ht, h.counter t ht]
  simp [sumScale, meanScale, mean]

theorem validateStage_frame (st : State) :
    (validateStage st).device_id = st.device_id ∧
    (validateStage st).failed = st.failed ∧
    (validateStage st).polls = st.polls ∧
    (validateStage st).poll_errcount = st.poll_errcount ∧
    (validateStage st).calibration_counter = st.calibration_counter ∧
    (validateStage st).gyro_report_0 = st.gyro_report_0 ∧
    (validateStage st).gyro_scale = st.gyro_scale := by
  unfold validateStage
  split
  · split <;> simp
  · simp

theorem validateStage_res (st : State) :
    (validateStage st).res = if st.res = OK ∧ checkFails st = true then ERROR else st.res := by
  unfold validateStage
  by_cases h : st.res = OK
  · by_cases hc : checkFails st = true <;> simp [h, hc]
  · simp [h]

theorem validateStage_trace (st : State) :
    (validateStage st).trace =
      st.trace ++ (if st.res = OK ∧ checkFails st = true then
        [Event.log_critical Msg.ERROR_Calibration_failed] else []) := by
  unfold validateStage
  by_cases h : st.res = OK
  · by_cases hc : checkFails st = true <;> simp [h, hc]
  · simp [h]

theorem setParam_frame (env : Env) (st : State) (key : ParamKey) (v : ParamVal) :
    (setParam env st key v).device_id = st.device_id ∧
    (setParam env st key v).res = st.res ∧
    (setParam env st key v).polls = st.polls ∧
    (setParam env st key v).poll_errcount = st.poll_errcount ∧
    (setParam env st key v).calibration_counter = st.calibration_counter ∧
    (setParam env st key v).gyro_report_0 = st.gyro_report_0 ∧
    (setParam env st key v).gyro_scale = st.gyro_scale := by
  simp [setParam]

theorem commitSlot_frame (env : Env) (st : State) (s : Nat) :
    (commitSlot env st s).device_id = st.device_id ∧
    (commitSlot env st s).polls = st.polls ∧
    (commitSlot env st s).poll_errcount = st.poll_errcount ∧
    (commitSlot env st s).calibration_counter = st.calibration_counter ∧
    (commitSlot env st s).gyro_report_0 = st.gyro_report_0 ∧
    (commitSlot env st s).gyro_scale = st.gyro_scale := by
  simp only [commitSlot]
  split
  · simp
  · split
    · split <;> simp [setParam]
    · simp [setParam]

theorem commitSlot_trace (env : Env) (st : State) (s : Nat) :
    (commitSlot env st s).trace = st.trace ++ slotEvents env st s := by
  simp only [commitSlot, slotEvents]
  split
  · simp
  · split
    · split <;> simp_all [setParam]
    · simp [setParam]

theorem commitSlot_failed (env : Env) (st : State) (s : Nat) :
    (commitSlot env st s).failed = (st.failed || slotFails env st s) := by
  simp only [commitSlot, slotFails]
  split
  · rename_i h
    have : ¬ calibration_count / 2 ≤ st.calibration_counter.get s := by omega
    simp [this]
  · rename_i h
    have : calibration_count / 2 ≤ st.calibration_counter.get s := by omega
    split
    · rename_i ho
      split <;> simp [setParam, this, ho, Bool.or_assoc]
    · rename_i ho
      simp [setParam, this, ho]

theorem commitSlot_res (env : Env) (st : State) (s : Nat) :
    (commitSlot env st s).res =
      if slotApplies env st s = true then env.apply_res s else st.res := by
  simp only [commitSlot, slotApplies]
  split
  · rename_i h
    have : ¬ calibration_count / 2 ≤ st.calibration_counter.get s := by omega
    simp [this]
  · rename_i h
    have : calibration_count / 2 ≤ st.calibration_counter.get s := by omega
    split
    · rename_i ho
      split <;> simp [setParam, this, ho]
    · rename_i ho
      simp [setParam, this, ho]

theorem slotEvents_congr (env : Env) (st1 st2 : State) (s : Nat)
    (h1 : st1.calibration_counter = st2.calibration_counter)
    (h2 : st1.gyro_scale = st2.gyro_scale) (h3 : st1.device_id = st2.device_id) :
    slotEvents env st1 s = slotEvents env st2 s := by
  simp [slotEvents, h1, h2, h3]

theorem slotFails_congr (env : Env) (st1 st2 : State) (s : Nat)
    (h1 : st1.calibration_counter = st2.calibration_counter) :
    slotFails env st1 s = slotFails env st2 s := by
  simp [slotFails, h1]

theorem slotApplies_congr (env : Env) (st1 st2 : State) (s : Nat)
    (h1 : st1.calibration_counter = st2.calibration_counter) :
    slotApplies env st1 s = slotApplies env st2 s := by
  simp [slotApplies, h1]

theorem commitStage_skip (env : Env) (st : State) (h : st.res ≠ OK) :
    commitStage env st = st := by
  simp [commitStage, h]

theorem commitStage_loop (env : Env) (st : State) (h : st.res = OK) :
    commitStage env st =
      (let st1 := commitSlot env (commitSlot env (commitSlot env { st with failed := false } 0) 1) 2
       if st1.failed = true then
        { st1 with
          res := ERROR
          trace := st1.trace ++ [Event.log_critical Msg.ERROR_failed_to_set_offset_params] }
       else st1) := by
  simp [commitStage, h, range_max_gyros]

theorem commitLoop_facts (env : Env) (st : State) (h : st.res = OK) :
    let st1 := commitSlot env (commitSlot env (commitSlot env { st with failed := false } 0) 1) 2
    st1.trace = st.trace ++ commitEvents env st ∧
    st1.failed = commitFails env st ∧
    st1.res = commitRes env st ∧
    st1.calibration_counter = st.calibration_counter ∧
    st1.polls = st.polls ∧
    st1.gyro_scale = st.gyro_scale := by
  intro st1
  have a0 := commitSlot_frame env { st with failed := false } 0
  have a1 := commitSlot_frame env (commitSlot env { st with failed := false } 0) 1
  have a2 := commitSlot_frame env
    (commitSlot env (commitSlot env { st with failed := false } 0) 1) 2
  have c0 : (commitSlot env { st with failed := false } 0).calibration_counter =
      st.calibration_counter := a0.2.2.2.1
  have c1 : (commitSlot env (commitSlot env { st with failed := false } 0) 1).calibration_counter =
      st.calibration_counter := a1.2.2.2.1.trans c0
  have g0 : (commitSlot env { st with failed := false } 0).gyro_scale = st.gyro_scale :=
    a0.2.2.2.2.2
  have g1 : (commitSlot env (commitSlot env { st with failed := false } 0) 1).gyro_scale =
      st.gyro_scale := a1.2.2.2.2.2.trans g0
  have d0 : (commitSlot env { st with failed := false } 0).device_id = st.device_id := a0.1
  have d1 : (commitSlot env (commitSlot env { st with failed := false } 0) 1).device_id =
      st.device_id := a1.1.trans d0
  refine ⟨?_, ?_, ?_, ?_, ?_, ?_⟩
  · show (commitSlot env _ 2).trace = _
    rw [commitSlot_trace, commitSlot_trace, commitSlot_trace,
      slotEvents_congr env _ st 2 c1 g1 d1, slotEvents_congr env _ st 1 c0 g0 d0,
      slotEvents_congr env { st with failed := false } st 0 rfl rfl rfl]
    simp [commitEvents]
  · show (commitSlot env _ 2).failed = _
    rw [commitSlot_failed, commitSlot_failed, commitSlot_failed,
      slotFails_congr env _ st 2 c1, slotFails_congr env _ st 1 c0,
      slotFails_congr env { st with failed := false } st 0 rfl]
    simp [commitFails]
  · show (commitSlot env _ 2).res = _
    rw [commitSlot_res, commitSlot_res, commitSlot_res,
      slotApplies_congr env _ st 2 c1, slotApplies_congr env _ st 1 c0,
      slotApplies_congr env { st with failed := false } st 0 rfl]
    simp [commitRes, h]
  · exact a2.2.2.2.1.trans c1
  · exact a2.2.1.trans (a1.2.1.trans a0.2.1)
  · exact a2.2.2.2.2.2.trans g1

theorem commitStage_res (env : Env) (st : State) (h : st.res = OK) :
    (commitStage env st).res = if commitFails env st = true then ERROR else commitRes env st := by
  obtain ⟨-, hf, hr, -⟩ := commitLoop_facts env st h
  rw [commitStage_loop env st h]
  simp only []
  rw [hf]
  split
  · rfl
  · exact hr

theorem commitStage_trace (env : Env) (st : State) (h : st.res = OK) :
    (commitStage env st).trace = st.trace ++ commitEvents env st ++
      (if commitFails env st = true then
        [Event.log_critical Msg.ERROR_failed_to_set_offset_params] else []) := by
  obtain ⟨ht, hf, -⟩ := commitLoop_facts env st h
  rw [commitStage_loop env st h]
  simp only []
  rw [hf]
  split
  · simp [ht]
  · simp [ht]

theorem commitStage_frame (env : Env) (st : State) :
    (commitStage env st).calibration_counter = st.calibration_counter ∧
    (commitStage env st).polls = st.polls ∧
    (commitStage env st).gyro_scale = st.gyro_scale := by
  by_cases h : st.res = OK
  · obtain ⟨-, hf, -, hc, hp, hg⟩ := commitLoop_facts env st h
    rw [commitStage_loop env st h]
    simp only []
    split
    · exact ⟨hc, hp, hg⟩
    · exact ⟨hc, hp, hg⟩
  · rw [commitStage_skip env st h]
    exact ⟨rfl, rfl, rfl⟩

theorem persistStage_res (env : Env) (st : State) :
    (persistStage env st).res = if st.res = OK then env.save_res else st.res := by
  simp only [persistStage]
  split
  · split <;> simp
  · rfl

theorem persistStage_trace (env : Env) (st : State) :
    (persistStage env st).trace = st.trace ++ persistEvents env st.res := by
  simp only [persistStage, persistEvents]
  split
  · split <;> simp_all
  · simp

theorem persistStage_frame (env : Env) (st : State) :
    (persistStage env st).calibration_counter = st.calibration_counter ∧
    (persistStage env st).polls = st.polls ∧
    (persistStage env st).gyro_scale = st.gyro_scale := by
  simp only [persistStage]
  split
  · split <;> simp
  · simp

theorem reportStage_res (st : State) : (reportStage st).res = st.res := by
  simp only [reportStage]
  split <;> rfl

theorem reportStage_trace (st : State) :
    (reportStage st).trace = st.trace ++
      [Event.log_info (if st.res = OK then Msg.CAL_DONE_MSG else Msg.CAL_FAILED_MSG)] := by
  simp only [reportStage]
  split <;> simp_all

theorem reportStage_frame (st : State) :
    (reportStage st).calibration_counter = st.calibration_counter ∧
    (reportStage st).polls = st.polls ∧
    (reportStage st).gyro_scale = st.gyro_scale := by
  simp only [reportStage]
  split <;> simp

/-! ## What the sample source delivers -/

theorem timeouts_succ_le (env : Env) (n : Nat) : timeouts env n ≤ timeouts env (n + 1) := by
  rw [timeouts]
  split <;> omega

theorem timeouts_mono (env : Env) {m n : Nat} (h : m ≤ n) : timeouts env m ≤ timeouts env n := by
  induction n with
  | zero =>
    have : m = 0 := by omega
    subst this
    exact Nat.le_refl _
  | succ k ih =>
    by_cases hk : m ≤ k
    · exact Nat.le_trans (ih hk) (timeouts_succ_le env k)
    · have : m = k + 1 := by omega
      subst this
      exact Nat.le_refl _

theorem timeouts_le (env : Env) (n : Nat) : timeouts env n ≤ n := by
  induction n with
  | zero => simp [timeouts]
  | succ k ih =>
    rw [timeouts]
    split <;> omega

theorem samplesRead_length_succ_le (env : Env) (s n : Nat) :
    (samplesRead env s n).length ≤ (samplesRead env s (n + 1)).length := by
  rw [samplesRead]
  split <;> simp

theorem samplesRead_length_mono (env : Env) (s : Nat) {m n : Nat} (h : m ≤ n) :
    (samplesRead env s m).length ≤ (samplesRead env s n).length := by
  induction n with
  | zero =>
    have : m = 0 := by omega
    subst this
    exact Nat.le_refl _
  | succ k ih =>
    by_cases hk : m ≤ k
    · exact Nat.le_trans (ih hk) (samplesRead_length_succ_le env s k)
    · have : m = k + 1 := by omega
      subst this
      exact Nat.le_refl _

theorem samplesRead_length_le (env : Env) (s n : Nat) : (samplesRead env s n).length ≤ n := by
  induction n with
  | zero => simp [samplesRead]
  | succ k ih =>
    rw [samplesRead]
    split
    · simp
      omega
    · omega

/-! ## Traces -/

theorem onlyProgress_early {l : List Event} (h : OnlyProgress l) : ∀ e ∈ l, e.early = true := by
  intro e he
  obtain ⟨p, rfl⟩ := h e he
  simp [Event.early]

theorem NoCommit_of_early {l : List Event} (h : ∀ e ∈ l, e.early = true) : NoCommit l := by
  refine ⟨?_, ?_, ?_⟩
  · intro key v hm
    simpa [Event.early] using h _ hm
  · intro s g hm
    simpa [Event.early] using h _ hm
  · intro hm
    simpa [Event.early] using h _ hm

theorem NoCommit_append {l1 l2 : List Event} (h1 : NoCommit l1) (h2 : NoCommit l2) :
    NoCommit (l1 ++ l2) := by
  refine ⟨?_, ?_, ?_⟩
  · intro key v hm
    rcases List.mem_append.mp hm with h | h
    · exact h1.1 key v h
    · exact h2.1 key v h
  · intro s g hm
    rcases List.mem_append.mp hm with h | h
    · exact h1.2.1 s g h
    · exact h2.2.1 s g h
  · intro hm
    rcases List.mem_append.mp hm with h | h
    · exact h1.2.2 h
    · exact h2.2.2 h

theorem NoCommit_log_info (m : Msg) : NoCommit [Event.log_info m] := by
  refine ⟨?_, ?_, ?_⟩ <;> simp

theorem completed_early {env : Env} {st : State} (h : Completed env st) :
    ∀ e ∈ st.trace, e.early = true := by
  obtain ⟨l, hl, hp⟩ := h.trace
  rw [hl]
  intro e he
  rcases List.mem_append.mp he with h1 | h1
  · exact resetStage_trace env e h1
  · exact onlyProgress_early hp e h1

theorem aborted_early {env : Env} {st : State} (h : Aborted env st) :
    ∀ e ∈ st.trace, e.early = true := by
  obtain ⟨l, hl, hp⟩ := h.trace
  rw [hl]
  intro e he
  simp only [List.mem_append, List.mem_singleton] at he
  rcases he with (h1 | h1) | h1
  · exact resetStage_trace env e h1
  · exact onlyProgress_early hp e h1
  · subst h1
    rfl

/-! ## The sampling block -/

/-- What the sampling block ends in: it was skipped, or the loop was left in
one of its two ways and the sums were divided. -/
theorem samplingStage_result (env : Env) (fuel : Nat) (st : State)
    (h : samplingStage env fuel (resetStage env) = some st) :
    ((resetStage env).res ≠ OK ∧ st = resetStage env) ∨
    ((resetStage env).res = OK ∧ ∃ st1, sampleLoop env fuel (resetStage env) = some st1 ∧
      st = divideStage st1 ∧ (Completed env st1 ∨ Aborted env st1)) := by
  unfold samplingStage at h
  by_cases hr : (resetStage env).res = OK
  · right
    simp only [hr, if_true, Option.map_eq_some'] at h
    obtain ⟨st1, h1, h2⟩ := h
    exact ⟨hr, st1, h1, h2.symm, sampleLoop_exit env fuel st1 h1⟩
  · left
    simp only [hr, if_false, Option.some.injEq] at h
    exact ⟨hr, h.symm⟩

theorem samplingStage_early (env : Env) (fuel : Nat) (st : State)
    (h : samplingStage env fuel (resetStage env) = some st) :
    ∀ e ∈ st.trace, e.early = true := by
  rcases samplingStage_result env fuel st h with ⟨-, rfl⟩ | ⟨-, st1, -, rfl, hc | ha⟩
  · exact resetStage_trace env
  · rw [(divideStage_frame st1).2.2.2.2.2.2.2]
    exact completed_early hc
  · rw [(divideStage_frame st1).2.2.2.2.2.2.2]
    exact aborted_early ha

/-- When gyro 0 has its 5000 reports after the sampling block, the loop was
entered and left through its condition. -/
theorem samplingStage_full (env : Env) (fuel : Nat) (st : State)
    (h : samplingStage env fuel (resetStage env) = some st)
    (hfull : st.calibration_counter.get 0 = calibration_count) :
    (resetStage env).res = OK ∧ ∃ st1, sampleLoop env fuel (resetStage env) = some st1 ∧
      st = divideStage st1 ∧ Completed env st1 := by
  rcases samplingStage_result env fuel st h with ⟨-, rfl⟩ | ⟨hr, st1, h1, rfl, hc | ha⟩
  · rw [(resetStage_zero env).1 0] at hfull
    simp [calibration_count] at hfull
  · exact ⟨hr, st1, h1, rfl, hc⟩
  · rw [(divideStage_frame st1).2.2.2.2.2.1] at hfull
    have := ha.short
    omega

theorem validateStage_early (st : State) (h : ∀ e ∈ st.trace, e.early = true) :
    ∀ e ∈ (validateStage st).trace, e.early = true := by
  rw [validateStage_trace]
  intro e he
  rcases List.mem_append.mp he with h1 | h1
  · exact h e h1
  · split at h1
    · simp only [List.mem_singleton] at h1
      subst h1
      rfl
    · simp at h1

/-! ## From validation to `return` -/

theorem finish_failed (env : Env) (st : State) (h : (validateStage st).res ≠ OK) :
    (finish env st).res = (validateStage st).res ∧
    (finish env st).trace = (validateStage st).trace ++ [Event.log_info Msg.CAL_FAILED_MSG] := by
  unfold finish
  rw [commitStage_skip env _ h]
  constructor
  · rw [reportStage_res, persistStage_res]
    simp [h]
  · rw [reportStage_trace, persistStage_trace, persistStage_res]
    simp [h, persistEvents]

theorem finish_res (env : Env) (st : State) (h : (validateStage st).res = OK) :
    (finish env st).res =
      if commitFails env (validateStage st) = true then ERROR
      else if commitRes env (validateStage st) = OK then env.save_res
      else commitRes env (validateStage st) := by
  unfold finish
  rw [reportStage_res, persistStage_res, commitStage_res env _ h]
  by_cases hf : commitFails env (validateStage st) = true
  · simp [hf, ERROR, OK]
  · simp [hf]

theorem finish_trace (env : Env) (st : State) (h : (validateStage st).res = OK) :
    (finish env st).trace =
      (validateStage st).trace ++ commitEvents env (validateStage st) ++
        (if commitFails env (validateStage st) = true then
          [Event.log_critical Msg.ERROR_failed_to_set_offset_params] else []) ++
        persistEvents env (commitStage env (validateStage st)).res ++
        [Event.log_info (if (finish env st).res = OK then Msg.CAL_DONE_MSG
          else Msg.CAL_FAILED_MSG)] := by
  have hr : (finish env st).res = (persistStage env (commitStage env (validateStage st))).res := by
    unfold finish
    rw [reportStage_res]
  rw [hr]
  unfold finish
  rw [reportStage_trace, persistStage_trace, commitStage_trace env _ h]

theorem finish_frame (env : Env) (st : State) :
    (finish env st).calibration_counter = st.calibration_counter ∧
    (finish env st).polls = st.polls ∧
    (finish env st).gyro_scale = st.gyro_scale := by
  unfold finish
  obtain ⟨a1, a2, a3⟩ := reportStage_frame (persistStage env (commitStage env (validateStage st)))
  obtain ⟨b1, b2, b3⟩ := persistStage_frame env (commitStage env (validateStage st))
  obtain ⟨c1, c2, c3⟩ := commitStage_frame env (validateStage st)
  obtain ⟨-, -, d2, -, d1, -, d3⟩ := validateStage_frame st
  exact ⟨a1.trans (b1.trans (c1.trans d1)), a2.trans (b2.trans (c2.trans d2)),
    a3.trans (b3.trans (c3.trans d3))⟩

theorem do_gyro_calibration_eq (env : Env) (fuel : Nat) (st : State)
    (h : samplingStage env fuel (resetStage env) = some st) :
    do_gyro_calibration env fuel = some (finish env st) := by
  simp [do_gyro_calibration, h]

theorem do_gyro_calibration_some (env : Env) (fuel : Nat) (out : State)
    (h : do_gyro_calibration env fuel = some out) :
    ∃ st, samplingStage env fuel (resetStage env) = some st ∧ out = finish env st := by
  simp only [do_gyro_calibration, Option.map_eq_some'] at h
  obtain ⟨st, h1, h2⟩ := h
  exact ⟨st, h1, h2.symm⟩

/-! ## Runs that end -/

/-- When gyro 0 delivers its 5000th report on turn `n` and `poll` has failed
at most 1000 times until then, the loop ends after `n` turns through its
condition. -/
theorem run_completes (env : Env) (n : Nat)
    (hfirst : ∀ m, m < n → (samplesRead env 0 m).length < calibration_count)
    (hfull : (samplesRead env 0 n).length = calibration_count)
    (herr : timeouts env n ≤ 1000) :
    ∃ st1, sampleLoop env (n + 1) (resetStage env) = some st1 ∧ Completed env st1 ∧
      st1.polls = n := by
  have hpolls0 : (resetStage env).polls = 0 := (resetStage_zero env).2.2.2.2
  have hlt : ∀ st, (LoopHead env st ∧ st.polls ≤ n) →
      st.calibration_counter.get 0 < calibration_count → st.polls < n := by
    intro st hP hc
    rcases Nat.lt_or_ge st.polls n with h | h
    · exact h
    · have : st.polls = n := by omega
      rw [hP.1.inv.counter 0 (by decide), this, hfull] at hc
      omega
  have hstep : ∀ st, (LoopHead env st ∧ st.polls ≤ n) →
      st.calibration_counter.get 0 < calibration_count →
      ¬ 1000 < (loopBody env st).poll_errcount →
      (LoopHead env (loopBody env st) ∧ (loopBody env st).polls ≤ n) ∧
        n - (loopBody env st).polls < n - st.polls := by
    intro st hP hc he
    have := hlt st hP hc
    rw [(loopBody_frame env st).2.2.2]
    exact ⟨⟨LoopHead_step env st hP.1 hc he, by omega⟩, by omega⟩
  obtain ⟨st1, h1⟩ := sampleLoop_total env (fun st => LoopHead env st ∧ st.polls ≤ n)
    (fun st => n - st.polls) hstep n (resetStage env) ⟨LoopHead_init env, by omega⟩
    (Nat.sub_le _ _)
  have hle : st1.polls ≤ n := by
    refine sampleLoop_rule env (fun st => LoopHead env st ∧ st.polls ≤ n)
      (fun st => st.polls ≤ n) (fun st hP hc he => (hstep st hP hc he).1)
      (fun st hP _ => hP.2) ?_ (n + 1) _ _ ⟨LoopHead_init env, by omega⟩ h1
    intro st hP hc _
    have := hlt st hP hc
    show (loopBody env st).polls ≤ n
    rw [(loopBody_frame env st).2.2.2]
    omega
  have hnotab : ¬ Aborted env st1 := by
    intro ha
    have h2 := ha.errs_eq
    rw [ha.inv.errs] at h2
    have h3 := ha.short
    rw [ha.inv.counter 0 (by decide)] at h3
    rcases Nat.lt_or_ge st1.polls n with h | h
    · have := timeouts_mono env (Nat.le_of_lt h)
      omega
    · have := samplesRead_length_mono env 0 h
      omega
  rcases sampleLoop_exit env _ st1 h1 with hc | ha
  · refine ⟨st1, h1, hc, ?_⟩
    rcases Nat.lt_or_ge st1.polls n with h | h
    · have := hfirst _ h
      rw [← hc.inv.counter 0 (by decide), hc.full] at this
      omega
    · omega
  · exact absurd ha hnotab

/-- When `poll` has failed more than 1000 times within the first `n` turns
and gyro 0 has delivered fewer than 5000 reports within them, the loop ends
through the `break`. -/
theorem run_aborts (env : Env) (n : Nat)
    (hshort : (samplesRead env 0 n).length < calibration_count)
    (herr : 1000 < timeouts env n) :
    ∃ st1, sampleLoop env (n + 1) (resetStage env) = some st1 ∧ Aborted env st1 := by
  have hlt : ∀ st, LoopHead env st → st.polls < n := by
    intro st hP
    have h1 := hP.errs_le
    rw [hP.inv.errs] at h1
    rcases Nat.lt_or_ge st.polls n with h | h
    · exact h
    · have := timeouts_mono env h
      omega
  have hstep : ∀ st, LoopHead env st →
      st.calibration_counter.get 0 < calibration_count →
      ¬ 1000 < (loopBody env st).poll_errcount →
      LoopHead env (loopBody env st) ∧ n - (loopBody env st).polls < n - st.polls := by
    intro st hP hc he
    have h1 := hlt st hP
    have h2 := LoopHead_step env st hP hc he
    have h3 := hlt _ h2
    rw [(loopBody_frame env st).2.2.2] at h3 ⊢
    exact ⟨h2, by omega⟩
  obtain ⟨st1, h1⟩ := sampleLoop_total env (LoopHead env) (fun st => n - st.polls) hstep n
    (resetStage env) (LoopHead_init env) (Nat.sub_le _ _)
  refine ⟨st1, h1, ?_⟩
  rcases sampleLoop_exit env _ st1 h1 with hc | ha
  · exfalso
    have h2 := hc.errs_le
    rw [hc.inv.errs] at h2
    have h3 := hc.full
    rw [hc.inv.counter 0 (by decide)] at h3
    rcases Nat.lt_or_ge st1.polls n with h | h
    · have := samplesRead_length_mono env 0 (Nat.le_of_lt h)
      omega
    · have := timeouts_mono env h
      omega
  · exact ha

/-- The result of the loop does not depend on the fuel. -/
theorem sampleLoop_unique (env : Env) (f1 f2 : Nat) (st a b : State)
    (h1 : sampleLoop env f1 st = some a) (h2 : sampleLoop env f2 st = some b) : a = b := by
  have e1 := sampleLoop_mono env f1 (max f1 f2) st a (Nat.le_max_left _ _) h1
  have e2 := sampleLoop_mono env f2 (max f1 f2) st b (Nat.le_max_right _ _) h2
  rw [e1] at e2
  exact Option.some.inj e2

/-! ## Steady sample sources -/

theorem samplesRead_none (env : Env) (s : Nat) (h : ∀ i, env.changed i s = false) (n : Nat) :
    samplesRead env s n = [] := by
  induction n with
  | zero => rfl
  | succ k ih => simp [samplesRead, h, ih]

theorem samplesRead_length_all (env : Env) (s : Nat) (n : Nat)
    (h : ∀ i, i < n → woke env i = true ∧ env.changed i s = true) :
    (samplesRead env s n).length = n := by
  induction n with
  | zero => rfl
  | succ k ih =>
    have hk := h k (Nat.lt_succ_self k)
    rw [samplesRead]
    simp [hk.1, hk.2, ih (fun i hi => h i (Nat.lt_succ_of_lt hi))]

theorem samplesRead_const (env : Env) (s : Nat) (r : gyro_report)
    (h : ∀ i, env.report i s = r) (n : Nat) :
    samplesRead env s n = List.replicate (samplesRead env s n).length r := by
  induction n with
  | zero => rfl
  | succ k ih =>
    rw [samplesRead]
    split
    · rw [List.length_append, List.length_singleton, List.replicate_succ', ← ih, h]
    · exact ih

theorem samplesRead_asleep (env : Env) (s : Nat) (h : ∀ i, woke env i = false) (n : Nat) :
    samplesRead env s n = [] := by
  induction n with
  | zero => rfl
  | succ k ih => simp [samplesRead, h, ih]

theorem timeouts_none (env : Env) (h : ∀ i, woke env i = true) (n : Nat) :
    timeouts env n = 0 := by
  induction n with
  | zero => rfl
  | succ k ih => simp [timeouts, h, ih]

theorem timeouts_all (env : Env) (h : ∀ i, woke env i = false) (n : Nat) :
    timeouts env n = n := by
  induction n with
  | zero => rfl
  | succ k ih => simp [timeouts, h, ih]

theorem snapshot_last (env : Env) (n : Nat)
    (h : woke env n = true ∧ env.changed n 0 = true) :
    snapshot env (n + 1) = env.report_0 n := by
  simp [snapshot, h.1, h.2]

theorem mean_replicate_fin (k : Nat) (q : ℚ) (hk : k ≠ 0) :
    mean (List.replicate k (FVal.fin q)) = FVal.fin q := by
  have h1 : List.replicate k (FVal.fin q) = (List.replicate k q).map FVal.fin := by simp
  have hne : List.replicate k q ≠ [] := by
    intro h
    have := congrArg List.length h
    simp at this
    exact hk this
  rw [h1, mean_fin _ hne]
  have hk2 : (k : ℚ) ≠ 0 := by exact_mod_cast hk
  simp only [List.sum_replicate, List.length_replicate, nsmul_eq_mul]
  congr 1
  field_simp

theorem mean_nil : mean [] = FVal.nan := by
  simp [mean, sumF, FVal.divNat]

theorem sumF_replicate_nan (k : Nat) (hk : k ≠ 0) :
    sumF (List.replicate k FVal.nan) = FVal.nan := by
  obtain ⟨j, rfl⟩ : ∃ j, k = j + 1 := ⟨k - 1, by omega⟩
  rw [List.replicate_succ', sumF_snoc]
  cases sumF (List.replicate j FVal.nan) <;> rfl

theorem mean_replicate_nan (k : Nat) (hk : k ≠ 0) :
    mean (List.replicate k FVal.nan) = FVal.nan := by
  simp [mean, sumF_replicate_nan k hk, FVal.divNat]
/-! ## Completed runs -/

theorem sampled_of_full (env : Env) (fuel : Nat) (st : State)
    (h : samplingStage env fuel (resetStage env) = some st)
    (hfull : st.calibration_counter.get 0 = calibration_count) : Sampled env st := by
  obtain ⟨hr, st1, -, rfl, hc⟩ := samplingStage_full env fuel st h hfull
  obtain ⟨f1, f2, -, f4, -, f6, f7, f8⟩ := divideStage_frame st1
  refine ⟨?_, ?_, hfull, ?_, ?_, ?_, ?_, ?_⟩
  · rw [f1, hc.res, hr]
  · intro s hs
    rw [f6, f4, hc.inv.counter s hs]
  · intro s hs
    rw [f4]
    exact divideStage_meanScale env st1 hc.inv hs
  · rw [f7, f4, hc.inv.snap]
  · intro s hs
    rw [f2, hc.inv.device_id, resetStage_device_id env hs]
  · rw [f8]
    exact completed_early hc
  · rw [f4, ← hc.inv.errs]
    exact hc.errs_le

/-- A run that ends its sampling after exactly `n` turns. -/
theorem run_sampled (env : Env) (n : Nat) (hres : (resetStage env).res = OK)
    (hfirst : ∀ m, m < n → (samplesRead env 0 m).length < calibration_count)
    (hfull : (samplesRead env 0 n).length = calibration_count)
    (herr : timeouts env n ≤ 1000) :
    ∃ st, samplingStage env (n + 1) (resetStage env) = some st ∧ st.polls = n ∧
      Sampled env st := by
  obtain ⟨st1, h1, hc, hp⟩ := run_completes env n hfirst hfull herr
  have hs : samplingStage env (n + 1) (resetStage env) = some (divideStage st1) := by
    simp [samplingStage, hres, h1]
  refine ⟨divideStage st1, hs, ?_, sampled_of_full env _ _ hs ?_⟩
  · rw [(divideStage_frame st1).2.2.2.1, hp]
  · rw [(divideStage_frame st1).2.2.2.2.2.1]
    exact hc.full

theorem checkFails_eq (st : State) :
    checkFails st =
      (!FVal.isfinite (st.gyro_scale.get 0).x_offset ||
       !FVal.isfinite (st.gyro_scale.get 0).y_offset ||
       !FVal.isfinite (st.gyro_scale.get 0).z_offset ||
       exceeds st.gyro_report_0.x (st.gyro_scale.get 0).x_offset ||
       exceeds st.gyro_report_0.y (st.gyro_scale.get 0).y_offset ||
       exceeds st.gyro_report_0.z (st.gyro_scale.get 0).z_offset) := rfl

/-- A run that does not pass validation commits nothing and returns a failure. -/
theorem finish_failed_noCommit (env : Env) (st : State)
    (hearly : ∀ e ∈ st.trace, e.early = true) (h : (validateStage st).res ≠ OK) :
    (finish env st).res ≠ OK ∧ NoCommit (finish env st).trace := by
  obtain ⟨h1, h2⟩ := finish_failed env st h
  refine ⟨by rw [h1]; exact h, ?_⟩
  rw [h2]
  exact NoCommit_append (NoCommit_of_early (validateStage_early st hearly)) (NoCommit_log_info _)
/-! ## Runs on a steady sample source -/

theorem meanScale_const (env : Env) (s n : Nat) (a b c : ℚ)
    (h : ∀ i, env.report i s = { x := FVal.fin a, y := FVal.fin b, z := FVal.fin c })
    (hn : (samplesRead env s n).length ≠ 0) :
    meanScale (samplesRead env s n) =
      { x_offset := FVal.fin a, x_scale := FVal.fin 1,
        y_offset := FVal.fin b, y_scale := FVal.fin 1,
        z_offset := FVal.fin c, z_scale := FVal.fin 1 } := by
  rw [samplesRead_const env s _ h n]
  simp [meanScale, mean_replicate_fin _ _ hn]

theorem meanScale_nil :
    meanScale [] =
      { x_offset := FVal.nan, x_scale := FVal.fin 1,
        y_offset := FVal.nan, y_scale := FVal.fin 1,
        z_offset := FVal.nan, z_scale := FVal.fin 1 } := by
  simp [meanScale, mean_nil]

/-- On a source whose every `poll` wakes with a report from gyro 0, and with
the sampling block entered, the loop ends after exactly 5000 turns. -/
theorem steady_run (env : Env) (hres : (resetStage env).res = OK)
    (hw : ∀ i, woke env i = true) (h0 : ∀ i, env.changed i 0 = true) :
    ∃ st, samplingStage env 5001 (resetStage env) = some st ∧ st.polls = 5000 ∧
      Sampled env st := by
  have hlen : ∀ m, (samplesRead env 0 m).length = m :=
    fun m => samplesRead_length_all env 0 m (fun i _ => ⟨hw i, h0 i⟩)
  refine run_sampled env 5000 hres ?_ ?_ ?_
  · intro m hm
    rw [hlen]
    exact hm
  · rw [hlen]
    rfl
  · rw [timeouts_none env hw]
    omega
/-! ## What the commit loop writes -/

theorem mem_slotEvents_xoff (env : Env) (st : State) (s t : Nat) (v : ParamVal) :
    Event.param_set (ParamKey.CAL_GYRO_XOFF t) v ∈ slotEvents env st s ↔
      t = s ∧ calibration_count / 2 ≤ st.calibration_counter.get s ∧
        v = ParamVal.float (st.gyro_scale.get s).x_offset := by
  unfold slotEvents
  split
  · simp
    omega
  · have : calibration_count / 2 ≤ st.calibration_counter.get s := by omega
    split <;> simp [this]

theorem mem_slotEvents_yoff (env : Env) (st : State) (s t : Nat) (v : ParamVal) :
    Event.param_set (ParamKey.CAL_GYRO_YOFF t) v ∈ slotEvents env st s ↔
      t = s ∧ calibration_count / 2 ≤ st.calibration_counter.get s ∧
        v = ParamVal.float (st.gyro_scale.get s).y_offset := by
  unfold slotEvents
  split
  · simp
    omega
  · have : calibration_count / 2 ≤ st.calibration_counter.get s := by omega
    split <;> simp [this]

theorem mem_slotEvents_zoff (env : Env) (st : State) (s t : Nat) (v : ParamVal) :
    Event.param_set (ParamKey.CAL_GYRO_ZOFF t) v ∈ slotEvents env st s ↔
      t = s ∧ calibration_count / 2 ≤ st.calibration_counter.get s ∧
        v = ParamVal.float (st.gyro_scale.get s).z_offset := by
  unfold slotEvents
  split
  · simp
    omega
  · have : calibration_count / 2 ≤ st.calibration_counter.get s := by omega
    split <;> simp [this]

theorem mem_slotEvents_id (env : Env) (st : State) (s t : Nat) (v : ParamVal) :
    Event.param_set (ParamKey.CAL_GYRO_ID t) v ∈ slotEvents env st s ↔
      t = s ∧ calibration_count / 2 ≤ st.calibration_counter.get s ∧
        v = ParamVal.int32 (st.device_id.get s) := by
  unfold slotEvents
  split
  · simp
    omega
  · have : calibration_count / 2 ≤ st.calibration_counter.get s := by omega
    split <;> simp [this]

theorem mem_slotEvents_apply (env : Env) (st : State) (s t : Nat) (g : gyro_scale) :
    Event.apply_cal t g ∈ slotEvents env st s ↔
      t = s ∧ calibration_count / 2 ≤ st.calibration_counter.get s ∧
        env.open_apply s = true ∧ g = st.gyro_scale.get s := by
  unfold slotEvents
  split
  · simp
    omega
  · have : calibration_count / 2 ≤ st.calibration_counter.get s := by omega
    split
    · rename_i ho
      split <;> simp [this, ho]
    · rename_i ho
      simp [this, ho]

theorem slotEvents_other (env : Env) (st : State) (s : Nat) :
    Event.param_save_default ∉ slotEvents env st s ∧
    (∀ m, Event.log_info m ∉ slotEvents env st s) ∧
    (∀ v, Event.param_set ParamKey.CAL_BOARD_ID v ∉ slotEvents env st s) := by
  unfold slotEvents
  split
  · simp
  · split
    · split <;> simp
    · simp

theorem mem_commitEvents_iff (env : Env) (st : State) (e : Event) :
    e ∈ commitEvents env st ↔
      e ∈ slotEvents env st 0 ∨ e ∈ slotEvents env st 1 ∨ e ∈ slotEvents env st 2 := by
  simp [commitEvents]

theorem mem_commitEvents_xoff (env : Env) (st : State) {t : Nat} (ht : t < 3) (v : ParamVal) :
    Event.param_set (ParamKey.CAL_GYRO_XOFF t) v ∈ commitEvents env st ↔
      calibration_count / 2 ≤ st.calibration_counter.get t ∧
        v = ParamVal.float (st.gyro_scale.get t).x_offset := by
  rw [mem_commitEvents_iff]
  simp only [mem_slotEvents_xoff]
  interval_cases t <;> simp

theorem mem_commitEvents_yoff (env : Env) (st : State) {t : Nat} (ht : t < 3) (v : ParamVal) :
    Event.param_set (ParamKey.CAL_GYRO_YOFF t) v ∈ commitEvents env st ↔
      calibration_count / 2 ≤ st.calibration_counter.get t ∧
        v = ParamVal.float (st.gyro_scale.get t).y_offset := by
  rw [mem_commitEvents_iff]
  simp only [mem_slotEvents_yoff]
  interval_cases t <;> simp

theorem mem_commitEvents_zoff (env : Env) (st : State) {t : Nat} (ht : t < 3) (v : ParamVal) :
    Event.param_set (ParamKey.CAL_GYRO_ZOFF t) v ∈ commitEvents env st ↔
      calibration_count / 2 ≤ st.calibration_counter.get t ∧
        v = ParamVal.float (st.gyro_scale.get t).z_offset := by
  rw [mem_commitEvents_iff]
  simp only [mem_slotEvents_zoff]
  interval_cases t <;> simp

theorem mem_commitEvents_id (env : Env) (st : State) {t : Nat} (ht : t < 3) (v : ParamVal) :
    Event.param_set (ParamKey.CAL_GYRO_ID t) v ∈ commitEvents env st ↔
      calibration_count / 2 ≤ st.calibration_counter.get t ∧
        v = ParamVal.int32 (st.device_id.get t) := by
  rw [mem_commitEvents_iff]
  simp only [mem_slotEvents_id]
  interval_cases t <;> simp

theorem mem_commitEvents_apply (env : Env) (st : State) {t : Nat} (ht : t < 3) (g : gyro_scale) :
    Event.apply_cal t g ∈ commitEvents env st ↔
      calibration_count / 2 ≤ st.calibration_counter.get t ∧
        env.open_apply t = true ∧ g = st.gyro_scale.get t := by
  rw [mem_commitEvents_iff]
  simp only [mem_slotEvents_apply]
  interval_cases t <;> simp

theorem commitEvents_other (env : Env) (st : State) :
    Event.param_save_default ∉ commitEvents env st ∧
    (∀ m, Event.log_info m ∉ commitEvents env st) := by
  refine ⟨?_, ?_⟩
  · rw [mem_commitEvents_iff]
    simp [(slotEvents_other env st 0).1, (slotEvents_other env st 1).1,
      (slotEvents_other env st 2).1]
  · intro m
    rw [mem_commitEvents_iff]
    simp [(slotEvents_other env st 0).2.1 m, (slotEvents_other env st 1).2.1 m,
      (slotEvents_other env st 2).2.1 m]

theorem commitEvents_validate (env : Env) (st : State) :
    commitEvents env (validateStage st) = commitEvents env st ∧
    commitFails env (validateStage st) = commitFails env st ∧
    commitRes env (validateStage st) = commitRes env st := by
  obtain ⟨d1, -, -, -, d2, -, d3⟩ := validateStage_frame st
  refine ⟨?_, ?_, ?_⟩
  · simp [commitEvents, slotEvents_congr env (validateStage st) st _ d2 d3 d1]
  · simp [commitFails, slotFails_congr env (validateStage st) st _ d2]
  · simp [commitRes, slotApplies_congr env (validateStage st) st _ d2]

/-- The events of a run that reaches the commit loop: those of the stages
before, those of the commit loop, and the messages and the
`param_save_default` call that follow. -/
theorem finish_mem (env : Env) (st : State) (h : (validateStage st).res = OK) (e : Event) :
    e ∈ (finish env st).trace ↔
      e ∈ (validateStage st).trace ∨ e ∈ commitEvents env st ∨
      (commitFails env st = true ∧
        e = Event.log_critical Msg.ERROR_failed_to_set_offset_params) ∨
      e ∈ persistEvents env (commitStage env (validateStage st)).res ∨
      e = Event.log_info (if (finish env st).res = OK then Msg.CAL_DONE_MSG
        else Msg.CAL_FAILED_MSG) := by
  rw [finish_trace env st h, (commitEvents_validate env st).1, (commitEvents_validate env st).2.1]
  by_cases hf : commitFails env st = true <;> simp [hf, or_assoc]

theorem mem_persistEvents (env : Env) (res : Int) (e : Event) :
    e ∈ persistEvents env res ↔
      res = OK ∧ (e = Event.param_save_default ∨
        (env.save_res ≠ OK ∧ e = Event.log_critical Msg.CAL_FAILED_SAVE_PARAMS_MSG)) := by
  unfold persistEvents
  by_cases h : res = OK
  · by_cases hs : env.save_res = OK <;> simp [h, hs]
  · simp [h]
theorem finish_mem_param (env : Env) (st : State) (hearly : ∀ e ∈ st.trace, e.early = true)
    (h : (validateStage st).res = OK) (key : ParamKey) (hk : key ≠ ParamKey.CAL_BOARD_ID)
    (v : ParamVal) :
    Event.param_set key v ∈ (finish env st).trace ↔
      Event.param_set key v ∈ commitEvents env st := by
  rw [finish_mem env st h, mem_persistEvents]
  constructor
  · rintro (h1 | h1 | h1 | h1 | h1)
    · have := validateStage_early st hearly _ h1
      simp [Event.early, hk] at this
    · exact h1
    · simp at h1
    · simp at h1
    · simp at h1
  · intro h1
    exact Or.inr (Or.inl h1)

theorem finish_mem_apply (env : Env) (st : State) (hearly : ∀ e ∈ st.trace, e.early = true)
    (h : (validateStage st).res = OK) (t : Nat) (g : gyro_scale) :
    Event.apply_cal t g ∈ (finish env st).trace ↔ Event.apply_cal t g ∈ commitEvents env st := by
  rw [finish_mem env st h, mem_persistEvents]
  constructor
  · rintro (h1 | h1 | h1 | h1 | h1)
    · have := validateStage_early st hearly _ h1
      simp [Event.early] at this
    · exact h1
    · simp at h1
    · simp at h1
    · simp at h1
  · intro h1
    exact Or.inr (Or.inl h1)

theorem finish_mem_save (env : Env) (st : State) (hearly : ∀ e ∈ st.trace, e.early = true)
    (h : (validateStage st).res = OK) :
    Event.param_save_default ∈ (finish env st).trace ↔
      (commitStage env (validateStage st)).res = OK := by
  rw [finish_mem env st h, mem_persistEvents]
  constructor
  · rintro (h1 | h1 | h1 | h1 | h1)
    · have := validateStage_early st hearly _ h1
      simp [Event.early] at this
    · exact absurd h1 (commitEvents_other env st).1
    · simp at h1
    · exact h1.1
    · simp at h1
  · intro h1
    exact Or.inr (Or.inr (Or.inr (Or.inl ⟨h1, Or.inl rfl⟩)))

theorem commitStage_res_validate (env : Env) (st : State) (h : (validateStage st).res = OK) :
    (commitStage env (validateStage st)).res =
      if commitFails env st = true then ERROR else commitRes env st := by
  rw [commitStage_res env _ h, (commitEvents_validate env st).2.1,
    (commitEvents_validate env st).2.2]

theorem finish_res_validate (env : Env) (st : State) (h : (validateStage st).res = OK) :
    (finish env st).res =
      if commitFails env st = true then ERROR
      else if commitRes env st = OK then env.save_res
      else commitRes env st := by
  rw [finish_res env st h, (commitEvents_validate env st).2.1,
    (commitEvents_validate env st).2.2]

/-- Validation passes exactly when the check of lines 201-206 does not fire. -/
theorem validateStage_ok (st : State) (h : st.res = OK) :
    (validateStage st).res = OK ↔ checkFails st = false := by
  rw [validateStage_res]
  by_cases hc : checkFails st = true
  · simp [h, hc, ERROR, OK]
  · simp [h, hc]
/-- After the sampling block `res` is `OK` only when the loop was entered and
left through its condition. -/
theorem sampled_of_ok (env : Env) (fuel : Nat) (st : State)
    (h : samplingStage env fuel (resetStage env) = some st) (hok : st.res = OK) :
    Sampled env st := by
  rcases samplingStage_result env fuel st h with ⟨hr, rfl⟩ | ⟨-, st1, -, rfl, hc | ha⟩
  · exact absurd hok hr
  · refine sampled_of_full env fuel _ h ?_
    rw [(divideStage_frame st1).2.2.2.2.2.1]
    exact hc.full
  · rw [(divideStage_frame st1).1, ha.res] at hok
    exact absurd hok (by decide)

theorem validateStage_ok_res (st : State) (h : (validateStage st).res = OK) : st.res = OK := by
  rw [validateStage_res] at h
  by_cases h1 : st.res = OK
  · exact h1
  · simp only [h1, false_and, if_false] at h

/-- With constant finite reports from gyro 0 and the same report as last copy,
the check of lines 201-206 does not fire. -/
theorem checkFails_const (env : Env) (st : State) (hs : Sampled env st) (a b c : ℚ)
    (h : ∀ i, env.report i 0 = { x := FVal.fin a, y := FVal.fin b, z := FVal.fin c })
    (hsnap : snapshot env st.polls = { x := FVal.fin a, y := FVal.fin b, z := FVal.fin c }) :
    checkFails st = false := by
  have hlen : (samplesRead env 0 st.polls).length ≠ 0 := by
    rw [← hs.counter 0 (by decide), hs.full]
    decide
  rw [checkFails_eq, hs.snap, hsnap, hs.scale 0 (by decide),
    meanScale_const env 0 st.polls a b c h hlen]
  simp [exceeds, FVal.isfinite, FVal.sub, round32_zero, FVal.fabsf, FVal.gt, maxoff]
  norm_num
/-- On a steady source with constant finite reports from gyro 0, validation passes. -/
theorem steady_run_valid (env : Env) (hres : (resetStage env).res = OK)
    (hw : ∀ i, woke env i = true) (h0 : ∀ i, env.changed i 0 = true) (a b c : ℚ)
    (hrep : ∀ i, env.report i 0 = { x := FVal.fin a, y := FVal.fin b, z := FVal.fin c })
    (hsnap : ∀ i, env.report_0 i = { x := FVal.fin a, y := FVal.fin b, z := FVal.fin c }) :
    ∃ st, samplingStage env 5001 (resetStage env) = some st ∧ st.polls = 5000 ∧
      Sampled env st ∧ (validateStage st).res = OK := by
  obtain ⟨st, hrun, hp, hs⟩ := steady_run env hres hw h0
  refine ⟨st, hrun, hp, hs, (validateStage_ok st hs.res).mpr ?_⟩
  refine checkFails_const env st hs a b c hrep ?_
  rw [hp, snapshot_last env 4999 ⟨hw _, h0 _⟩, hsnap]

theorem envSteady_run :
    ∃ st, samplingStage envSteady 5001 (resetStage envSteady) = some st ∧ st.polls = 5000 ∧
      Sampled envSteady st ∧ (validateStage st).res = OK :=
  steady_run_valid envSteady (by rw [resetStage_res]; simp [envSteady, OK])
    (fun i => by simp [woke, envSteady]) (fun i => by simp [envSteady]) 1 2 3
    (fun i => rfl) (fun i => rfl)
theorem meanScale_x_nan (env : Env) (s n : Nat) (b c : FVal)
    (h : ∀ i, env.report i s = { x := FVal.nan, y := b, z := c })
    (hn : (samplesRead env s n).length ≠ 0) :
    (meanScale (samplesRead env s n)).x_offset = FVal.nan := by
  rw [samplesRead_const env s _ h n]
  simp [meanScale, mean_replicate_nan _ hn]

/-- On a steady source a gyro that reports on every wake is counted 5000 times. -/
theorem steady_counter_all (env : Env) (st : State) (hs : Sampled env st) (hp : st.polls = 5000)
    (hw : ∀ i, woke env i = true) {s : Nat} (hlt : s < 3) (h : ∀ i, env.changed i s = true) :
    st.calibration_counter.get s = 5000 := by
  rw [hs.counter s hlt, hp, samplesRead_length_all env s 5000 (fun i _ => ⟨hw i, h i⟩)]

/-- A gyro that never reports is counted 0 times. -/
theorem steady_counter_none (env : Env) (st : State) (hs : Sampled env st)
    {s : Nat} (hlt : s < 3) (h : ∀ i, env.changed i s = false) :
    st.calibration_counter.get s = 0 := by
  rw [hs.counter s hlt, samplesRead_none env s h]
  rfl

theorem finish_ok (env : Env) (st : State) (hval : (validateStage st).res = OK)
    (hf : commitFails env st = false) (hr : commitRes env st = OK) (hsave : env.save_res = OK) :
    (finish env st).res = OK := by
  rw [finish_res_validate env st hval]
  simp [hf, hr, hsave]
/-- In any run, a `param_set` on a `CAL_GYRO` parameter and an apply `ioctl`
come from the commit loop, entered after a passed validation. -/
theorem finish_param_source (env : Env) (fuel : Nat) (st : State)
    (hrun : samplingStage env fuel (resetStage env) = some st)
    (key : ParamKey) (hk : key ≠ ParamKey.CAL_BOARD_ID) (v : ParamVal)
    (h : Event.param_set key v ∈ (finish env st).trace) :
    (validateStage st).res = OK ∧ Event.param_set key v ∈ commitEvents env st := by
  have hearly := samplingStage_early env fuel st hrun
  by_cases hval : (validateStage st).res = OK
  · exact ⟨hval, (finish_mem_param env st hearly hval key hk v).mp h⟩
  · exact absurd ((finish_failed_noCommit env st hearly hval).2.1 key v h) hk

theorem finish_apply_source (env : Env) (fuel : Nat) (st : State)
    (hrun : samplingStage env fuel (resetStage env) = some st)
    (t : Nat) (g : gyro_scale) (h : Event.apply_cal t g ∈ (finish env st).trace) :
    (validateStage st).res = OK ∧ Event.apply_cal t g ∈ commitEvents env st := by
  have hearly := samplingStage_early env fuel st hrun
  by_cases hval : (validateStage st).res = OK
  · exact ⟨hval, (finish_mem_apply env st hearly hval t g).mp h⟩
  · exact absurd h ((finish_failed_noCommit env st hearly hval).2.2.1 t g)

/-- In any run, a gyro counted fewer than 2500 times gets none of its four
parameters written and no apply `ioctl`. -/
theorem skipped_slot_untouched (env : Env) (fuel : Nat) (st : State) (s : Nat) (hs : s < 3)
    (hrun : samplingStage env fuel (resetStage env) = some st)
    (hlt : st.calibration_counter.get s < 2500) :
    (∀ v, Event.param_set (ParamKey.CAL_GYRO_XOFF s) v ∉ (finish env st).trace) ∧
    (∀ v, Event.param_set (ParamKey.CAL_GYRO_YOFF s) v ∉ (finish env st).trace) ∧
    (∀ v, Event.param_set (ParamKey.CAL_GYRO_ZOFF s) v ∉ (finish env st).trace) ∧
    (∀ v, Event.param_set (ParamKey.CAL_GYRO_ID s) v ∉ (finish env st).trace) ∧
    (∀ g, Event.apply_cal s g ∉ (finish env st).trace) := by
  have hn : ¬ calibration_count / 2 ≤ st.calibration_counter.get s := by
    simp only [calibration_count]
    omega
  refine ⟨?_, ?_, ?_, ?_, ?_⟩
  · intro v h
    have := (finish_param_source env fuel st hrun _ (by simp) v h).2
    rw [mem_commitEvents_xoff env st hs] at this
    exact hn this.1
  · intro v h
    have := (finish_param_source env fuel st hrun _ (by simp) v h).2
    rw [mem_commitEvents_yoff env st hs] at this
    exact hn this.1
  · intro v h
    have := (finish_param_source env fuel st hrun _ (by simp) v h).2
    rw [mem_commitEvents_zoff env st hs] at this
    exact hn this.1
  · intro v h
    have := (finish_param_source env fuel st hrun _ (by simp) v h).2
    rw [mem_commitEvents_id env st hs] at this
    exact hn this.1
  · intro g h
    have := (finish_apply_source env fuel st hrun s g h).2
    rw [mem_commitEvents_apply env st hs] at this
    exact hn this.1

/-- After the division a gyro counted 0 times has `NaN` offsets. -/
theorem divided_by_zero (env : Env) (fuel : Nat) (st : State) (s : Nat) (hs : s < 3)
    (hrun : samplingStage env fuel (resetStage env) = some st)
    (hentered : (resetStage env).res = OK)
    (hzero : st.calibration_counter.get s = 0) :
    st.gyro_scale.get s =
      { x_offset := FVal.nan, x_scale := FVal.fin 1,
        y_offset := FVal.nan, y_scale := FVal.fin 1,
        z_offset := FVal.nan, z_scale := FVal.fin 1 } := by
  have key : ∀ st1, LoopInv env st1 → (divideStage st1).calibration_counter.get s = 0 →
      (divideStage st1).gyro_scale.get s = meanScale [] := by
    intro st1 hinv h0
    rw [(divideStage_frame st1).2.2.2.2.2.1, hinv.counter s hs] at h0
    rw [divideStage_meanScale env st1 hinv hs, List.length_eq_zero.mp h0]
  rw [← meanScale_nil]
  rcases samplingStage_result env fuel st hrun with ⟨hr, -⟩ | ⟨-, st1, -, rfl, hc | ha⟩
  · exact absurd hentered hr
  · exact key st1 hc.inv hzero
  · exact key st1 ha.inv hzero
/-! ## The states at the head of the loop -/

theorem stateAt_succ (env : Env) (n : Nat) (st : State) (h : stateAt env (n + 1) = some st) :
    ∃ st0, stateAt env n = some st0 ∧
      st0.calibration_counter.get 0 < calibration_count ∧
      ¬ 1000 < (loopBody env st0).poll_errcount ∧ st = loopBody env st0 := by
  rw [stateAt] at h
  cases h0 : stateAt env n with
  | none => simp [h0] at h
  | some st0 =>
    simp only [h0] at h
    by_cases hc : st0.calibration_counter.get 0 < calibration_count
    · by_cases he : 1000 < (loopBody env st0).poll_errcount
      · rw [whileStep_abort env st0 hc he] at h
        simp at h
      · rw [whileStep_next env st0 hc he] at h
        simp only [Option.some.injEq] at h
        exact ⟨st0, rfl, hc, he, h.symm⟩
    · rw [whileStep_exit env st0 hc] at h
      simp at h

theorem stateAt_head (env : Env) : ∀ n st, stateAt env n = some st →
    LoopHead env st ∧ st.polls = n := by
  intro n
  induction n with
  | zero =>
    intro st h
    simp only [stateAt, Option.some.injEq] at h
    subst h
    exact ⟨LoopHead_init env, (resetStage_zero env).2.2.2.2⟩
  | succ k ih =>
    intro st h
    obtain ⟨st0, h0, hc, he, rfl⟩ := stateAt_succ env k st h
    obtain ⟨hh, hp⟩ := ih st0 h0
    exact ⟨LoopHead_step env st0 hh hc he, by rw [(loopBody_frame env st0).2.2.2, hp]⟩

theorem samplingStage_counts (env : Env) (fuel : Nat) (st : State)
    (h : samplingStage env fuel (resetStage env) = some st) :
    st.calibration_counter.get 0 ≤ calibration_count ∧
    ∀ s, s < 3 → st.calibration_counter.get s ≤ st.polls := by
  have key : ∀ st1, LoopInv env st1 →
      (divideStage st1).calibration_counter.get 0 ≤ calibration_count ∧
      ∀ s, s < 3 → (divideStage st1).calibration_counter.get s ≤ (divideStage st1).polls := by
    intro st1 hinv
    rw [(divideStage_frame st1).2.2.2.2.2.1, (divideStage_frame st1).2.2.2.1]
    refine ⟨hinv.ref_le, ?_⟩
    intro s hs
    rw [hinv.counter s hs]
    exact samplesRead_length_le env s _
  rcases samplingStage_result env fuel st h with ⟨-, rfl⟩ | ⟨-, st1, -, rfl, hc | ha⟩
  · simp [(resetStage_zero env).1]
  · exact key st1 hc.inv
  · exact key st1 ha.inv

theorem samplesRead_envLate_0 (m : Nat) : (samplesRead envLate 0 m).length = m - 1 := by
  induction m with
  | zero => rfl
  | succ k ih =>
    rw [samplesRead]
    cases k with
    | zero => simp [envLate, woke, envSteady, samplesRead]
    | succ j =>
      have : (woke envLate (j + 1) && envLate.changed (j + 1) 0) = true := by
        simp [envLate, woke, envSteady]
      rw [this]
      simp [ih]
/-! ## The outcome of the commit loop -/

theorem commitStage_failed (env : Env) (st : State) (h : st.res = OK) :
    (commitStage env st).failed = commitFails env st := by
  obtain ⟨-, hf, -⟩ := commitLoop_facts env st h
  rw [commitStage_loop env st h]
  simp only []
  split
  · exact hf
  · exact hf

theorem commitStage_failed_validate (env : Env) (st : State) (h : (validateStage st).res = OK) :
    (commitStage env (validateStage st)).failed = commitFails env st := by
  rw [commitStage_failed env _ h, (commitEvents_validate env st).2.1]

/-- With every `param_set` and every `open` of the commit loop succeeding, the
flag `failed` stays clear. -/
theorem commitFails_false (env : Env) (st : State)
    (hopen : ∀ s, s < 3 → env.open_apply s = true)
    (hparam : ∀ key, env.param_set_res key = OK) : commitFails env st = false := by
  simp [commitFails, slotFails, hparam, hopen 0 (by decide), hopen 1 (by decide),
    hopen 2 (by decide)]

/-- With every `open` of the commit loop succeeding and gyro 0 not skipped,
`res` leaves the loop with the result of the apply `ioctl` on the gyro handled
last. -/
theorem commitRes_last (env : Env) (st : State)
    (hopen : ∀ s, s < 3 → env.open_apply s = true)
    (h0 : calibration_count / 2 ≤ st.calibration_counter.get 0) :
    commitRes env st = env.apply_res (lastCommitted st) := by
  simp only [commitRes, slotApplies, lastCommitted, hopen 0 (by decide), hopen 1 (by decide),
    hopen 2 (by decide), Bool.and_true, decide_eq_true_eq, h0, if_true]
  split
  · rfl
  · split <;> rfl
/-- With every `param_set` succeeding and, for every gyro that is not skipped,
the `open` and the apply `ioctl` succeeding, the commit loop ends with the
flag clear and `res == OK`. -/
theorem commit_all_ok (env : Env) (st : State)
    (hparam : ∀ key, env.param_set_res key = OK)
    (hdev : ∀ s, s < 3 → calibration_count / 2 ≤ st.calibration_counter.get s →
      env.open_apply s = true ∧ env.apply_res s = OK) :
    commitFails env st = false ∧ commitRes env st = OK := by
  have hf : ∀ s, s < 3 → slotFails env st s = false := by
    intro s hs
    by_cases h : calibration_count / 2 ≤ st.calibration_counter.get s
    · simp [slotFails, hparam, (hdev s hs h).1]
    · simp [slotFails, h]
  have hr : ∀ s, s < 3 → slotApplies env st s = true → env.apply_res s = OK := by
    intro s hs h
    simp only [slotApplies, Bool.and_eq_true, decide_eq_true_eq] at h
    exact (hdev s hs h.1).2
  constructor
  · simp [commitFails, hf 0 (by decide), hf 1 (by decide), hf 2 (by decide)]
  · unfold commitRes
    split
    · exact hr 2 (by decide) (by assumption)
    · split
      · exact hr 1 (by decide) (by assumption)
      · split
        · exact hr 0 (by decide) (by assumption)
        · rfl

theorem commitSlot_skip (env : Env) (c : State) (s : Nat)
    (h : c.calibration_counter.get s < calibration_count / 2) : commitSlot env c s = c := by
  simp [commitSlot, h]

theorem samplesRead_envSparse_2 (m : Nat) :
    (samplesRead envSparse 2 m).length = min m 1000 := by
  induction m with
  | zero => rfl
  | succ k ih =>
    rw [samplesRead]
    by_cases hk : k < 1000
    · have : (woke envSparse k && envSparse.changed k 2) = true := by
        simp [envSparse, woke, envSteady, hk]
      rw [this]
      simp [ih]
      omega
    · have : (woke envSparse k && envSparse.changed k 2) = false := by
        simp [envSparse, hk]
      rw [this]
      simp [ih]
      omega
/-! ## Successful runs -/

/-- The trace of a run that succeeds: the events before the commit loop, those
of the commit loop, the `param_save_default` call, the final message. -/
theorem finish_trace_ok (env : Env) (st : State) (hval : (validateStage st).res = OK)
    (hf : commitFails env st = false) (hr : commitRes env st = OK) (hsave : env.save_res = OK) :
    (finish env st).trace =
      (validateStage st).trace ++ commitEvents env st ++
        [Event.param_save_default, Event.log_info Msg.CAL_DONE_MSG] := by
  have hc : (commitStage env (validateStage st)).res = OK := by
    rw [commitStage_res_validate env st hval, hf]
    simpa using hr
  rw [finish_trace env st hval, (commitEvents_validate env st).1,
    (commitEvents_validate env st).2.1, hf, hc, finish_ok env st hval hf hr hsave]
  simp [persistEvents, hsave]

theorem validateStage_trace_ok (st : State) (hval : (validateStage st).res = OK) :
    (validateStage st).trace = st.trace := by
  have hok := validateStage_ok_res st hval
  have hc := (validateStage_ok st hok).mp hval
  rw [validateStage_trace]
  simp [hc]

/-- In a run that succeeds `param_save_default` is called once, and the one
terminal message is `CAL_DONE_MSG`, sent last. -/
theorem finish_ok_counts (env : Env) (st : State) (hearly : ∀ e ∈ st.trace, e.early = true)
    (hval : (validateStage st).res = OK)
    (hf : commitFails env st = false) (hr : commitRes env st = OK) (hsave : env.save_res = OK) :
    (finish env st).trace.count Event.param_save_default = 1 ∧
    (finish env st).trace.getLast? = some (Event.log_info Msg.CAL_DONE_MSG) ∧
    (finish env st).trace.count (Event.log_info Msg.CAL_DONE_MSG) = 1 ∧
    Event.log_info Msg.CAL_FAILED_MSG ∉ (finish env st).trace := by
  have hv := validateStage_early st hearly
  have n1 : Event.param_save_default ∉ (validateStage st).trace := by
    intro h
    simpa [Event.early] using hv _ h
  have n2 : Event.log_info Msg.CAL_DONE_MSG ∉ (validateStage st).trace := by
    intro h
    simpa [Event.early] using hv _ h
  have n3 : Event.log_info Msg.CAL_FAILED_MSG ∉ (validateStage st).trace := by
    intro h
    simpa [Event.early] using hv _ h
  obtain ⟨m1, m2⟩ := commitEvents_other env st
  rw [finish_trace_ok env st hval hf hr hsave]
  refine ⟨?_, ?_, ?_, ?_⟩
  · simp [List.count_append, List.count_eq_zero_of_not_mem n1,
      List.count_eq_zero_of_not_mem m1]
  · simp
  · simp [List.count_append, List.count_eq_zero_of_not_mem n2,
      List.count_eq_zero_of_not_mem (m2 _)]
  · simp [n3, m2]

/-! ## The run on `envThreshold` -/

theorem meanScale_eq_div (l : List gyro_report) :
    meanScale l =
      { x_offset := FVal.divNat (sumScale l).x_offset l.length, x_scale := FVal.fin 1,
        y_offset := FVal.divNat (sumScale l).y_offset l.length, y_scale := FVal.fin 1,
        z_offset := FVal.divNat (sumScale l).z_offset l.length, z_scale := FVal.fin 1 } := by
  simp [meanScale, mean, sumScale]

theorem samplesRead_envThreshold_succ (n : Nat) :
    samplesRead envThreshold 0 (n + 1) =
      samplesRead envThreshold 0 n ++ [thresholdReport n] := by
  rw [samplesRead]
  simp [woke, envThreshold, envSteady]

theorem sumScale_envThreshold (n : Nat) (hn : n ≤ 4998) :
    sumScale (samplesRead envThreshold 0 (n + 1)) =
      { x_offset := FVal.fin (-2684667 / 268435456), x_scale := FVal.fin 1,
        y_offset := FVal.fin 0, y_scale := FVal.fin 1,
        z_offset := FVal.fin 0, z_scale := FVal.fin 1 } := by
  induction n with
  | zero =>
    rw [samplesRead_envThreshold_succ, sumScale_snoc]
    simp [samplesRead, sumScale_nil, gyro_scale_zero, thresholdReport, FVal.add]
  | succ k ih =>
    rw [samplesRead_envThreshold_succ, sumScale_snoc, ih (by omega)]
    have h1 : k + 1 ≠ 0 := by omega
    have h2 : k + 1 ≠ 4999 := by omega
    simp [thresholdReport, h1, h2, FVal.add]

theorem meanScale_envThreshold :
    meanScale (samplesRead envThreshold 0 5000) =
      { x_offset := FVal.fin (-1 / 4294967296), x_scale := FVal.fin 1,
        y_offset := FVal.fin 0, y_scale := FVal.fin 1,
        z_offset := FVal.fin 0, z_scale := FVal.fin 1 } := by
  have hlen : (samplesRead envThreshold 0 5000).length = 5000 :=
    samplesRead_length_all envThreshold 0 5000
      (fun i _ => by simp [woke, envThreshold, envSteady])
  rw [meanScale_eq_div, hlen, samplesRead_envThreshold_succ 4999, sumScale_snoc,
    sumScale_envThreshold 4998 (by omega)]
  simp [thresholdReport, FVal.add, FVal.divNat]
  norm_num

/-- On `envThreshold` the loop takes 5000 turns; the mean of gyro 0 is
(-1/2^32, 0, 0), the report last copied is (0.01f, 0, 0), and the check of
lines 201-206 does not fire. -/
theorem envThreshold_run :
    ∃ st, samplingStage envThreshold 5001 (resetStage envThreshold) = some st ∧
      Sampled envThreshold st ∧
      st.gyro_report_0 =
        { x := FVal.fin (10737418 / 1073741824), y := FVal.fin 0, z := FVal.fin 0 } ∧
      st.gyro_scale.get 0 =
        { x_offset := FVal.fin (-1 / 4294967296), x_scale := FVal.fin 1,
          y_offset := FVal.fin 0, y_scale := FVal.fin 1,
          z_offset := FVal.fin 0, z_scale := FVal.fin 1 } ∧
      (validateStage st).res = OK := by
  have hw : ∀ i, woke envThreshold i = true := fun i => by
    simp [woke, envThreshold, envSteady]
  obtain ⟨st, hrun, hp, hs⟩ := steady_run envThreshold
    (by rw [resetStage_res]; simp [envThreshold, envSteady, OK]) hw
    (fun i => by simp [envThreshold, envSteady])
  have hr : st.gyro_report_0 =
      { x := FVal.fin (10737418 / 1073741824), y := FVal.fin 0, z := FVal.fin 0 } := by
    rw [hs.snap, hp, snapshot_last envThreshold 4999
      ⟨hw _, by simp [envThreshold, envSteady]⟩]
    simp [envThreshold, thresholdReport]
  have hg : st.gyro_scale.get 0 =
      { x_offset := FVal.fin (-1 / 4294967296), x_scale := FVal.fin 1,
        y_offset := FVal.fin 0, y_scale := FVal.fin 1,
        z_offset := FVal.fin 0, z_scale := FVal.fin 1 } := by
    rw [hs.scale 0 (by decide), hp, meanScale_envThreshold]
  refine ⟨st, hrun, hs, hr, hg, (validateStage_ok st hs.res).mpr ?_⟩
  have hd : (10737418 / 1073741824 : ℚ) - -1 / 4294967296 = 42949673 / 4294967296 := by
    norm_num
  have ex : exceeds (FVal.fin (10737418 / 1073741824)) (FVal.fin (-1 / 4294967296)) = false := by
    show FVal.gt (FVal.fabsf (round32 (10737418 / 1073741824 - -1 / 4294967296))) maxoff = false
    rw [hd, round32_sliver]
    show decide ((10737418 / 1073741824 : ℚ) < |10737418 / 1073741824|) = false
    rw [abs_of_pos (by norm_num)]
    simp
  have e0 : exceeds (FVal.fin 0) (FVal.fin 0) = false := by
    show FVal.gt (FVal.fabsf (round32 (0 - 0))) maxoff = false
    rw [sub_zero, round32_zero]
    show decide ((10737418 / 1073741824 : ℚ) < |0|) = false
    rw [abs_zero]
    simp
    norm_num
  rw [checkFails_eq, hr, hg]
  simp [ex, e0, FVal.isfinite]

/-- On `envThreshold` the accumulation of gyro 0 stays within binary32: the
first report, its sum with the last one (the reports in between are zero) and
the quotient of this sum by 5000 are binary32 numbers, so that rounding each
`+=` and the `/=` would change nothing. -/
theorem envThreshold_accumulation_exact :
    round32 (-2684667 / 268435456) = FVal.fin (-2684667 / 268435456) ∧
    round32 (-2684667 / 268435456 + 10737418 / 1073741824) =
      FVal.fin (-2684667 / 268435456 + 10737418 / 1073741824) ∧
    round32 ((-2684667 / 268435456 + 10737418 / 1073741824) / 5000) =
      FVal.fin (-1 / 4294967296) := by
  have h1 := round32_eq_neg (2684667 / 268435456) (-7) 10738668 (by norm_num) (by norm_num)
    (by norm_num) (by norm_num) (by norm_num) (by norm_num) (by norm_num) (by norm_num)
  have h2 := round32_eq_neg (1250 / 1073741824) (-20) 10240000 (by norm_num) (by norm_num)
    (by norm_num) (by norm_num) (by norm_num) (by norm_num) (by norm_num) (by norm_num)
  have h3 := round32_eq_neg (1 / 4294967296) (-32) 8388608 (by norm_num) (by norm_num)
    (by norm_num) (by norm_num) (by norm_num) (by norm_num) (by norm_num) (by norm_num)
  have e1 : (-2684667 / 268435456 : ℚ) = -(2684667 / 268435456) := by norm_num
  have e2 : (-2684667 / 268435456 + 10737418 / 1073741824 : ℚ) = -(1250 / 1073741824) := by
    norm_num
  have e3 : ((-2684667 / 268435456 + 10737418 / 1073741824) / 5000 : ℚ) =
      -(1 / 4294967296) := by norm_num
  refine ⟨?_, ?_, ?_⟩
  · rw [e1, h1]
    norm_num
  · rw [e2, h2]
    norm_num
  · rw [e3, h3]
    norm_num

/-- When the flag `failed` is set after the commit loop (lines 249-252), the
routine returns `ERROR` and does not call `param_save_default`. -/
theorem failed_flag_fails_the_run (env : Env) (st : State)
    (hearly : ∀ e ∈ st.trace, e.early = true)
    (hval : (validateStage st).res = OK)
    (hfl : (commitStage env (validateStage st)).failed = true) :
    (finish env st).res = ERROR ∧ Event.param_save_default ∉ (finish env st).trace := by
  rw [commitStage_failed_validate env st hval] at hfl
  constructor
  · rw [finish_res_validate env st hval, if_pos hfl]
  · rw [finish_mem_save env st hearly hval, commitStage_res_validate env st hval, if_pos hfl]
    decide

/-! ## The properties -/

/-- C1. In every run that reaches the commit loop (validation leaves
`res == OK`) and for every gyro `s` counted at least 2500 times: the count is
the number of reports read from gyro `s` during the sampling loop; the one
value written to each of `CAL_GYRO<s>_XOFF`, `_YOFF`, `_ZOFF` is the mean of
these reports on that axis (their sum divided by their number); an apply
`ioctl` on gyro `s`, issued when its device opens, is passed these three means
with unit scales; and on finite reports the mean is the exact rational
quotient of their sum by the count. -/
theorem committed_offsets_are_means (env : Env) (fuel : Nat) (st : State) (s : Nat)
    (hs : s < 3)
    (hrun : samplingStage env fuel (resetStage env) = some st)
    (hval : (validateStage st).res = OK)
    (hn : 2500 ≤ st.calibration_counter.get s) :
    do_gyro_calibration env fuel = some (finish env st) ∧
    st.calibration_counter.get s = (samplesRead env s st.polls).length ∧
    (∀ v, Event.param_set (ParamKey.CAL_GYRO_XOFF s) v ∈ (finish env st).trace ↔
      v = ParamVal.float (mean ((samplesRead env s st.polls).map gyro_report.x))) ∧
    (∀ v, Event.param_set (ParamKey.CAL_GYRO_YOFF s) v ∈ (finish env st).trace ↔
      v = ParamVal.float (mean ((samplesRead env s st.polls).map gyro_report.y))) ∧
    (∀ v, Event.param_set (ParamKey.CAL_GYRO_ZOFF s) v ∈ (finish env st).trace ↔
      v = ParamVal.float (mean ((samplesRead env s st.polls).map gyro_report.z))) ∧
    (∀ g, Event.apply_cal s g ∈ (finish env st).trace ↔
      env.open_apply s = true ∧ g = meanScale (samplesRead env s st.polls)) ∧
    (∀ (axis : gyro_report → FVal) (qs : List ℚ),
      (samplesRead env s st.polls).map axis = qs.map FVal.fin →
      mean ((samplesRead env s st.polls).map axis) =
        FVal.fin (qs.sum / (st.calibration_counter.get s : ℚ))) := by
  have hsam := sampled_of_ok env fuel st hrun (validateStage_ok_res st hval)
  have hn2 : calibration_count / 2 ≤ st.calibration_counter.get s := hn
  refine ⟨do_gyro_calibration_eq env fuel st hrun, hsam.counter s hs, ?_, ?_, ?_, ?_, ?_⟩
  · intro v
    rw [finish_mem_param env st hsam.early hval _ (by simp), mem_commitEvents_xoff env st hs,
      hsam.scale s hs]
    simp [hn2, meanScale]
  · intro v
    rw [finish_mem_param env st hsam.early hval _ (by simp), mem_commitEvents_yoff env st hs,
      hsam.scale s hs]
    simp [hn2, meanScale]
  · intro v
    rw [finish_mem_param env st hsam.early hval _ (by simp), mem_commitEvents_zoff env st hs,
      hsam.scale s hs]
    simp [hn2, meanScale]
  · intro g
    rw [finish_mem_apply env st hsam.early hval, mem_commitEvents_apply env st hs,
      hsam.scale s hs]
    simp [hn2]
  · intro axis qs hq
    have hlen : qs.length = st.calibration_counter.get s := by
      have := congrArg List.length hq
      rw [List.length_map, List.length_map] at this
      rw [hsam.counter s hs, this]
    have hne : qs ≠ [] := by
      intro h0
      rw [h0] at hlen
      simp at hlen
      omega
    rw [hq, mean_fin qs hne, hlen]

/-- Witness of C1: on the steady source gyro 2 is counted 5000 times and the
value written to `CAL_GYRO2_XOFF` is the mean of the 5000 reports read. -/
theorem committed_offsets_are_means_witness :
    ∃ st, samplingStage envSteady 5001 (resetStage envSteady) = some st ∧
      (validateStage st).res = OK ∧
      2500 ≤ st.calibration_counter.get 2 ∧
      st.calibration_counter.get 2 = (samplesRead envSteady 2 st.polls).length ∧
      ∀ v, Event.param_set (ParamKey.CAL_GYRO_XOFF 2) v ∈ (finish envSteady st).trace ↔
        v = ParamVal.float (mean ((samplesRead envSteady 2 st.polls).map gyro_report.x)) := by
  obtain ⟨st, hrun, hp, hs, hval⟩ := envSteady_run
  have hn : 2500 ≤ st.calibration_counter.get 2 := by
    rw [hs.counter 2 (by decide), hp,
      samplesRead_length_all envSteady 2 5000 (fun i _ => by simp [woke, envSteady])]
    decide
  have h := committed_offsets_are_means envSteady 5001 st 2 (by decide) hrun hval hn
  exact ⟨st, hrun, hval, hn, h.2.1, h.2.2.1⟩

/-- C2, refuted as stated: on `envThreshold` gyro 0 delivers its 5000 reports,
its mean on the x axis is -1/2^32 (the sums and the quotient are binary32
numbers, no `+=` or `/=` rounds) and the report last copied has x = 0.01f, so
that their difference, 0.01f + 2^-32, exceeds 0.01; rounded to binary32 this
difference is 0.01f, which does not exceed `maxoff`: validation passes, the
parameters of gyro 0 are written, `param_save_default` is called and the
routine returns `OK`. -/
theorem deviation_above_one_hundredth_is_accepted :
    ∃ st, samplingStage envThreshold 5001 (resetStage envThreshold) = some st ∧
      st.calibration_counter.get 0 = calibration_count ∧
      st.gyro_report_0.x = FVal.fin (10737418 / 1073741824) ∧
      (st.gyro_scale.get 0).x_offset = FVal.fin (-1 / 4294967296) ∧
      (1 / 100 : ℚ) < |10737418 / 1073741824 - -1 / 4294967296| ∧
      do_gyro_calibration envThreshold 5001 = some (finish envThreshold st) ∧
      (validateStage st).res = OK ∧
      (finish envThreshold st).res = OK ∧
      Event.param_set (ParamKey.CAL_GYRO_XOFF 0) (ParamVal.float (FVal.fin (-1 / 4294967296))) ∈
        (finish envThreshold st).trace ∧
      Event.param_save_default ∈ (finish envThreshold st).trace := by
  obtain ⟨st, hrun, hs, hr, hg, hval⟩ := envThreshold_run
  have c1 := steady_counter_none envThreshold st hs (show 1 < 3 by decide)
    (fun i => by simp [envThreshold, envSteady])
  have hdev : ∀ s, s < 3 → calibration_count / 2 ≤ st.calibration_counter.get s →
      envThreshold.open_apply s = true ∧ envThreshold.apply_res s = OK := by
    intro s hs3 hn
    interval_cases s
    · exact ⟨rfl, rfl⟩
    · rw [c1] at hn
      simp [calibration_count] at hn
    · exact ⟨rfl, rfl⟩
  obtain ⟨hf, hc⟩ := commit_all_ok envThreshold st (fun key => rfl) hdev
  have hok := finish_ok envThreshold st hval hf hc rfl
  refine ⟨st, hrun, hs.full, by rw [hr], by rw [hg], ?_,
    do_gyro_calibration_eq _ _ _ hrun, hval, hok, ?_, ?_⟩
  · rw [abs_of_pos (by norm_num)]
    norm_num
  · rw [finish_mem_param envThreshold st hs.early hval _ (by simp),
      mem_commitEvents_xoff envThreshold st (by decide), hg, hs.full]
    simp [calibration_count]
  · rw [finish_mem_save envThreshold st hs.early hval,
      commitStage_res_validate envThreshold st hval, hf]
    simpa using hc

/-- C2, amended to the test of the code. Take any state `st` at line 190 with
`res == OK`, as it is when the sampling has completed, and nothing committed
so far, whatever values the accumulation has left in `gyro_scale[0]`: when on
some axis `fabsf` of the difference between `gyro_report_0` and the offset of
gyro 0, rounded to binary32, exceeds `maxoff` = 0.01f, lines 192-397 end with
`res == ERROR` after the critical message of the validation, and the trace
holds no `param_set` on a `CAL_GYRO` parameter, no apply `ioctl` and no
`param_save_default`. In every run whose sampling block ends in `st`, gyro 0
has its 5000 reports, `gyro_report_0` is the report last copied from gyro 0,
`gyro_scale[0]` holds the mean of the reports read from it, and the routine
returns in the state described. -/
theorem validation_rejects_deviation (env : Env) (st : State)
    (hres : st.res = OK)
    (hnc : NoCommit st.trace)
    (hdiff : exceeds st.gyro_report_0.x (st.gyro_scale.get 0).x_offset = true ∨
      exceeds st.gyro_report_0.y (st.gyro_scale.get 0).y_offset = true ∨
      exceeds st.gyro_report_0.z (st.gyro_scale.get 0).z_offset = true) :
    (finish env st).res = ERROR ∧
    NoCommit (finish env st).trace ∧
    Event.log_critical Msg.ERROR_Calibration_failed ∈ (finish env st).trace ∧
    ∀ fuel, samplingStage env fuel (resetStage env) = some st →
      do_gyro_calibration env fuel = some (finish env st) ∧
      st.calibration_counter.get 0 = calibration_count ∧
      st.gyro_report_0 = snapshot env st.polls ∧
      st.gyro_scale.get 0 = meanScale (samplesRead env 0 st.polls) := by
  have hc : checkFails st = true := by
    rw [checkFails_eq]
    rcases hdiff with h | h | h <;> simp [h]
  have hv : (validateStage st).res = ERROR := by
    rw [validateStage_res]
    simp [hres, hc]
  have hne : (validateStage st).res ≠ OK := by
    rw [hv]
    decide
  have htr : (finish env st).trace =
      st.trace ++ [Event.log_critical Msg.ERROR_Calibration_failed] ++
        [Event.log_info Msg.CAL_FAILED_MSG] := by
    rw [(finish_failed env st hne).2, validateStage_trace]
    simp [hres, hc]
  refine ⟨?_, ?_, ?_, fun fuel hrun => ?_⟩
  · rw [(finish_failed env st hne).1, hv]
  · rw [htr]
    refine NoCommit_append (NoCommit_append hnc ?_) (NoCommit_log_info _)
    refine ⟨?_, ?_, ?_⟩ <;> simp
  · rw [htr]
    simp
  · have hs := sampled_of_ok env fuel st hrun hres
    exact ⟨do_gyro_calibration_eq env fuel st hrun, hs.full, hs.snap, hs.scale 0 (by decide)⟩

/-- Witness of C2 as amended: on `envMoved` the sampling completes with the
report last copied from gyro 0 at x = 2.0 and the mean at x = 1.0; the run
returns `ERROR` and commits nothing. -/
theorem validation_rejects_deviation_witness :
    ∃ st, samplingStage envMoved 5001 (resetStage envMoved) = some st ∧
      st.calibration_counter.get 0 = calibration_count ∧
      st.res = OK ∧
      NoCommit st.trace ∧
      exceeds st.gyro_report_0.x (st.gyro_scale.get 0).x_offset = true ∧
      do_gyro_calibration envMoved 5001 = some (finish envMoved st) ∧
      (finish envMoved st).res = ERROR ∧
      NoCommit (finish envMoved st).trace := by
  obtain ⟨st, hrun, hp, hs⟩ := steady_run envMoved
    (by rw [resetStage_res]; simp [envMoved, envSteady, OK])
    (fun i => by simp [woke, envMoved, envSteady]) (fun i => by simp [envMoved, envSteady])
  have hx : exceeds st.gyro_report_0.x (st.gyro_scale.get 0).x_offset = true := by
    have hlen : (samplesRead envMoved 0 st.polls).length ≠ 0 := by
      rw [← hs.counter 0 (by decide), hs.full]
      decide
    rw [hs.snap, hs.scale 0 (by decide),
      meanScale_const envMoved 0 st.polls 1 2 3 (fun i => rfl) hlen, hp,
      snapshot_last envMoved 4999 ⟨by simp [woke, envMoved, envSteady], by simp [envMoved, envSteady]⟩]
    have h21 : (2 : ℚ) - 1 = 1 := by norm_num
    simp [exceeds, envMoved, FVal.sub, h21, round32_one, FVal.fabsf, FVal.gt, maxoff]
    norm_num
  have hnc : NoCommit st.trace := NoCommit_of_early hs.early
  have h := validation_rejects_deviation envMoved st hs.res hnc (Or.inl hx)
  exact ⟨st, hrun, hs.full, hs.res, hnc, hx, (h.2.2.2 5001 hrun).1, h.1, h.2.1⟩

/-- C3, refuted as stated: on `envNaN2` the mean offset of gyro 2 is `NaN` on
the x axis, yet the run passes validation, returns `OK`, and writes `NaN` to
`CAL_GYRO2_XOFF`. -/
theorem nonfinite_offset_of_gyro_2_is_committed :
    ∃ st, samplingStage envNaN2 5001 (resetStage envNaN2) = some st ∧
      FVal.isfinite (st.gyro_scale.get 2).x_offset = false ∧
      do_gyro_calibration envNaN2 5001 = some (finish envNaN2 st) ∧
      (validateStage st).res = OK ∧
      (finish envNaN2 st).res = OK ∧
      Event.param_set (ParamKey.CAL_GYRO_XOFF 2) (ParamVal.float FVal.nan) ∈
        (finish envNaN2 st).trace := by
  have hw : ∀ i, woke envNaN2 i = true := fun i => by simp [woke, envNaN2, envSteady]
  obtain ⟨st, hrun, hp, hs, hval⟩ := steady_run_valid envNaN2
    (by rw [resetStage_res]; simp [envNaN2, envSteady, OK]) hw
    (fun i => by simp [envNaN2, envSteady]) 1 2 3
    (fun i => by simp [envNaN2, envSteady, report123]) (fun i => rfl)
  have c0 := steady_counter_all envNaN2 st hs hp hw (show 0 < 3 by decide)
    (fun i => by simp [envNaN2, envSteady])
  have c1 := steady_counter_none envNaN2 st hs (show 1 < 3 by decide)
    (fun i => by simp [envNaN2, envSteady])
  have c2 := steady_counter_all envNaN2 st hs hp hw (show 2 < 3 by decide)
    (fun i => by simp [envNaN2, envSteady])
  have hx : (st.gyro_scale.get 2).x_offset = FVal.nan := by
    rw [hs.scale 2 (by decide)]
    refine meanScale_x_nan envNaN2 2 st.polls (FVal.fin 2) (FVal.fin 3)
      (fun i => by simp [envNaN2, envSteady]) ?_
    rw [← hs.counter 2 (by decide), c2]
    decide
  refine ⟨st, hrun, by rw [hx]; rfl, do_gyro_calibration_eq _ _ _ hrun, hval, ?_, ?_⟩
  · refine finish_ok envNaN2 st hval ?_ ?_ rfl
    · simp [commitFails, slotFails, c0, c1, c2, envNaN2, envSteady, calibration_count, OK]
    · simp [commitRes, slotApplies, c0, c1, c2, envNaN2, envSteady, calibration_count, OK]
  · rw [finish_mem_param envNaN2 st hs.early hval _ (by simp),
      mem_commitEvents_xoff envNaN2 st (by decide), hx, c2]
    simp [calibration_count]

/-- C3, amended to the reference gyro: in every run, when some axis of the
offset of gyro 0 at line 190 is `NaN` or infinite, the routine returns a
failure and its trace holds no `param_set` on a `CAL_GYRO` parameter, no apply
`ioctl` and no `param_save_default`; when the sampling has completed it is the
validation that fails the run, with its critical message. -/
theorem validation_rejects_nonfinite_reference (env : Env) (fuel : Nat) (st : State)
    (hrun : samplingStage env fuel (resetStage env) = some st)
    (hnf : FVal.isfinite (st.gyro_scale.get 0).x_offset = false ∨
      FVal.isfinite (st.gyro_scale.get 0).y_offset = false ∨
      FVal.isfinite (st.gyro_scale.get 0).z_offset = false) :
    do_gyro_calibration env fuel = some (finish env st) ∧
    (finish env st).res ≠ OK ∧
    NoCommit (finish env st).trace ∧
    (st.res = OK →
      (validateStage st).res = ERROR ∧
      Event.log_critical Msg.ERROR_Calibration_failed ∈ (finish env st).trace) := by
  have hearly := samplingStage_early env fuel st hrun
  have hc : checkFails st = true := by
    rw [checkFails_eq]
    rcases hnf with h | h | h <;> simp [h]
  have hne : (validateStage st).res ≠ OK := by
    rw [validateStage_res]
    by_cases hok : st.res = OK
    · simp [hok, hc, ERROR, OK]
    · simp [hok]
  obtain ⟨h1, h2⟩ := finish_failed_noCommit env st hearly hne
  refine ⟨do_gyro_calibration_eq env fuel st hrun, h1, h2, ?_⟩
  intro hok
  constructor
  · rw [validateStage_res]
    simp [hok, hc]
  · rw [(finish_failed env st hne).2, validateStage_trace]
    simp [hok, hc]

/-- Witness of C3 as amended: on `envNaN0` the mean offset of gyro 0 is `NaN`
on the x axis and the run fails at validation without any commit. -/
theorem validation_rejects_nonfinite_reference_witness :
    ∃ st, samplingStage envNaN0 5001 (resetStage envNaN0) = some st ∧
      FVal.isfinite (st.gyro_scale.get 0).x_offset = false ∧
      st.res = OK ∧
      (finish envNaN0 st).res ≠ OK ∧
      NoCommit (finish envNaN0 st).trace ∧
      Event.log_critical Msg.ERROR_Calibration_failed ∈ (finish envNaN0 st).trace := by
  obtain ⟨st, hrun, hp, hs⟩ := steady_run envNaN0
    (by rw [resetStage_res]; simp [envNaN0, envSteady, OK])
    (fun i => by simp [woke, envNaN0, envSteady]) (fun i => by simp [envNaN0, envSteady])
  have hx : FVal.isfinite (st.gyro_scale.get 0).x_offset = false := by
    rw [hs.scale 0 (by decide), meanScale_x_nan envNaN0 0 st.polls (FVal.fin 2) (FVal.fin 3)
      (fun i => by simp [envNaN0, envSteady])]
    · rfl
    · rw [← hs.counter 0 (by decide), hs.full]
      decide
  have h := validation_rejects_nonfinite_reference envNaN0 5001 st hrun (Or.inl hx)
  exact ⟨st, hrun, hx, hs.res, h.2.1, h.2.2.1, (h.2.2.2 hs.res).2⟩

/-- C4, violated by the code: `res` is overwritten by each reset and apply
`ioctl` (lines 113 and 241), so that a failed device command fails the run
when it is the last one issued and is forgotten otherwise. On `envApplyFails`
every device opens, gyro 0 delivers its 5000 reports, validation passes, every
`param_set` succeeds and `param_save_default` would succeed; the apply `ioctl`
on gyro 2, the last one, fails, and the routine returns a failure without
calling `param_save_default`, the flag `failed` being clear. On
`envEarlyFails`, which differs in that it is the reset and the apply `ioctl`
on gyro 0 that fail, the routine returns `OK` after calling
`param_save_default`. -/
theorem failed_last_apply_fails_the_run :
    (∃ st, samplingStage envApplyFails 5001 (resetStage envApplyFails) = some st ∧
      (∀ s, envApplyFails.open_reset s = true ∧ envApplyFails.open_apply s = true) ∧
      st.calibration_counter.get 0 = 5000 ∧
      (validateStage st).res = OK ∧
      (∀ key, envApplyFails.param_set_res key = OK) ∧
      envApplyFails.save_res = OK ∧
      (∀ s, envApplyFails.reset_res s = OK) ∧
      envApplyFails.apply_res 2 ≠ OK ∧
      do_gyro_calibration envApplyFails 5001 = some (finish envApplyFails st) ∧
      (finish envApplyFails st).res ≠ OK ∧
      Event.param_save_default ∉ (finish envApplyFails st).trace ∧
      (commitStage envApplyFails (validateStage st)).failed = false) ∧
    (∃ st, samplingStage envEarlyFails 5001 (resetStage envEarlyFails) = some st ∧
      (∀ s, envEarlyFails.open_reset s = true ∧ envEarlyFails.open_apply s = true) ∧
      st.calibration_counter.get 0 = 5000 ∧
      (validateStage st).res = OK ∧
      (∀ key, envEarlyFails.param_set_res key = OK) ∧
      envEarlyFails.save_res = OK ∧
      envEarlyFails.reset_res 0 ≠ OK ∧
      envEarlyFails.apply_res 0 ≠ OK ∧
      do_gyro_calibration envEarlyFails 5001 = some (finish envEarlyFails st) ∧
      (finish envEarlyFails st).res = OK ∧
      Event.param_save_default ∈ (finish envEarlyFails st).trace) := by
  constructor
  · have hw : ∀ i, woke envApplyFails i = true := fun i => by
      simp [woke, envApplyFails, envSteady]
    obtain ⟨st, hrun, hp, hs, hval⟩ := steady_run_valid envApplyFails
      (by rw [resetStage_res]; simp [envApplyFails, envSteady, OK]) hw
      (fun i => by simp [envApplyFails]) 1 2 3 (fun i => rfl) (fun i => rfl)
    have c2 := steady_counter_all envApplyFails st hs hp hw (show 2 < 3 by decide)
      (fun i => by simp [envApplyFails])
    have hf : commitFails envApplyFails st = false :=
      commitFails_false envApplyFails st (fun s _ => rfl) (fun key => rfl)
    have hr : commitRes envApplyFails st = -1 := by
      rw [commitRes_last envApplyFails st (fun s _ => rfl) (by rw [hs.full]; decide)]
      simp [lastCommitted, c2, calibration_count, envApplyFails]
    have hc : (commitStage envApplyFails (validateStage st)).res = -1 := by
      rw [commitStage_res_validate envApplyFails st hval, hf, hr]
      simp
    refine ⟨st, hrun, fun s => ⟨rfl, rfl⟩, hs.full, hval, fun key => rfl, rfl,
      fun s => rfl, by simp [envApplyFails, OK],
      do_gyro_calibration_eq _ _ _ hrun, ?_, ?_, ?_⟩
    · rw [finish_res_validate envApplyFails st hval, hf, hr]
      simp [OK]
    · rw [finish_mem_save envApplyFails st hs.early hval, hc]
      simp [OK]
    · rw [commitStage_failed_validate envApplyFails st hval, hf]
  · have hw : ∀ i, woke envEarlyFails i = true := fun i => by
      simp [woke, envEarlyFails, envSteady]
    obtain ⟨st, hrun, hp, hs, hval⟩ := steady_run_valid envEarlyFails
      (by rw [resetStage_res]; simp [envEarlyFails, OK]) hw
      (fun i => by simp [envEarlyFails]) 1 2 3 (fun i => rfl) (fun i => rfl)
    have c2 := steady_counter_all envEarlyFails st hs hp hw (show 2 < 3 by decide)
      (fun i => by simp [envEarlyFails])
    have hf : commitFails envEarlyFails st = false :=
      commitFails_false envEarlyFails st (fun s _ => rfl) (fun key => rfl)
    have hr : commitRes envEarlyFails st = OK := by
      rw [commitRes_last envEarlyFails st (fun s _ => rfl) (by rw [hs.full]; decide)]
      simp [lastCommitted, c2, calibration_count, envEarlyFails, OK]
    have hc : (commitStage envEarlyFails (validateStage st)).res = OK := by
      rw [commitStage_res_validate envEarlyFails st hval, hf, hr]
      simp
    refine ⟨st, hrun, fun s => ⟨rfl, rfl⟩, hs.full, hval, fun key => rfl, rfl,
      by simp [envEarlyFails, OK], by simp [envEarlyFails, OK],
      do_gyro_calibration_eq _ _ _ hrun, ?_, ?_⟩
    · rw [finish_res_validate envEarlyFails st hval, hf, hr]
      simp [envEarlyFails, envSteady, OK]
    · rw [finish_mem_save envEarlyFails st hs.early hval, hc]

/-- C5. With the sampling block entered: when among the first `n` calls of
`poll` more than 1000 do not wake while gyro 0 has delivered fewer than 5000
reports, the loop ends through the `break` on the very call that fails for
the 1001st time, with `res = ERROR`; the routine then returns `ERROR`, having
sent the sensor message and no `param_set` on a `CAL_GYRO` parameter, no apply
`ioctl` and no `param_save_default`. A loop that ends after at most 1000
failed calls of `poll` is left through its condition, gyro 0 counted 5000
times and `res` untouched. -/
theorem fault_ceiling (env : Env) :
    (∀ n, 1000 < timeouts env n → (samplesRead env 0 n).length < 5000 →
      (resetStage env).res = OK →
      ∃ fuel st1, sampleLoop env fuel (resetStage env) = some st1 ∧
        st1.res = ERROR ∧
        timeouts env st1.polls = 1001 ∧
        (∀ m, m < st1.polls → timeouts env m ≤ 1000) ∧
        ∃ out, do_gyro_calibration env fuel = some out ∧
          out.res = ERROR ∧
          Event.log_critical Msg.CAL_FAILED_SENSOR_MSG ∈ out.trace ∧
          NoCommit out.trace) ∧
    (∀ fuel st1, sampleLoop env fuel (resetStage env) = some st1 →
      timeouts env st1.polls ≤ 1000 →
      st1.calibration_counter.get 0 = 5000 ∧ st1.res = (resetStage env).res) := by
  constructor
  · intro n herr hshort hres
    obtain ⟨st1, h1, ha⟩ := run_aborts env n hshort herr
    have hrun : samplingStage env (n + 1) (resetStage env) = some (divideStage st1) := by
      simp [samplingStage, hres, h1]
    obtain ⟨f1, -, -, -, -, -, -, f8⟩ := divideStage_frame st1
    have hne : (validateStage (divideStage st1)).res ≠ OK := by
      rw [validateStage_res, f1, ha.res]
      simp [ERROR, OK]
    have hv : (validateStage (divideStage st1)).res = ERROR := by
      rw [validateStage_res, f1, ha.res]
      simp [ERROR, OK]
    have hearly : ∀ e ∈ (divideStage st1).trace, e.early = true := by
      rw [f8]
      exact aborted_early ha
    refine ⟨n + 1, st1, h1, ha.res, ?_, ?_, finish env (divideStage st1),
      do_gyro_calibration_eq env _ _ hrun, ?_, ?_,
      (finish_failed_noCommit env _ hearly hne).2⟩
    · rw [← ha.inv.errs, ha.errs_eq]
    · intro m hm
      obtain ⟨k, hk, hle⟩ := ha.prev
      exact Nat.le_trans (timeouts_mono env (by omega)) hle
    · rw [(finish_failed env _ hne).1, hv]
    · rw [(finish_failed env _ hne).2, validateStage_trace, f8]
      obtain ⟨l, hl, -⟩ := ha.trace
      rw [hl]
      simp
  · intro fuel st1 h1 hle
    rcases sampleLoop_exit env fuel st1 h1 with hc | ha
    · exact ⟨hc.full, hc.res⟩
    · have := ha.errs_eq
      rw [ha.inv.errs] at this
      omega

/-- Witness of C5: on `envSilent` the loop is left on the 1001st failed
`poll`; on `envSteady` no `poll` fails and the loop is left through its
condition. -/
theorem fault_ceiling_witness :
    (1000 < timeouts envSilent 1001 ∧ (samplesRead envSilent 0 1001).length < 5000 ∧
      (resetStage envSilent).res = OK ∧
      ∃ fuel st1, sampleLoop envSilent fuel (resetStage envSilent) = some st1 ∧
        st1.res = ERROR ∧ timeouts envSilent st1.polls = 1001 ∧
        ∃ out, do_gyro_calibration envSilent fuel = some out ∧
          out.res = ERROR ∧ NoCommit out.trace) ∧
    (∃ st1, sampleLoop envSteady 5001 (resetStage envSteady) = some st1 ∧
      timeouts envSteady st1.polls ≤ 1000 ∧
      st1.calibration_counter.get 0 = 5000) := by
  have hs : ∀ i, woke envSilent i = false := fun i => by simp [woke, envSilent, envSteady]
  have h1 : 1000 < timeouts envSilent 1001 := by
    rw [timeouts_all envSilent hs]
    decide
  have h2 : (samplesRead envSilent 0 1001).length < 5000 := by
    rw [samplesRead_asleep envSilent 0 hs]
    decide
  have h3 : (resetStage envSilent).res = OK := by
    rw [resetStage_res]
    simp [envSilent, envSteady, OK]
  obtain ⟨fuel, st1, a1, a2, a3, -, out, a5, a6, -, a8⟩ :=
    (fault_ceiling envSilent).1 1001 h1 h2 h3
  refine ⟨⟨h1, h2, h3, fuel, st1, a1, a2, a3, out, a5, a6, a8⟩, ?_⟩
  obtain ⟨st, hrun, -, hsam, -⟩ := envSteady_run
  obtain ⟨-, st1, b1, -, hc⟩ := samplingStage_full envSteady 5001 st hrun hsam.full
  have hle : timeouts envSteady st1.polls ≤ 1000 := by
    rw [timeouts_none envSteady (fun i => by simp [woke, envSteady])]
    omega
  exact ⟨st1, b1, hle, ((fault_ceiling envSteady).2 5001 st1 b1 hle).1⟩

/-- C6, refuted as stated: on `envSteady` gyro 1 is absent and delivers no
report; its sum, still zero when the loop ends, is divided by its count 0 all
the same, and its offsets at line 190 are `NaN`, not zero. -/
theorem absent_gyro_is_divided_by_zero :
    ∃ st1, sampleLoop envSteady 5001 (resetStage envSteady) = some st1 ∧
      envSteady.open_reset 1 = false ∧
      st1.calibration_counter.get 1 = 0 ∧
      st1.gyro_scale.get 1 = gyro_scale_zero ∧
      samplingStage envSteady 5001 (resetStage envSteady) = some (divideStage st1) ∧
      ((divideStage st1).gyro_scale.get 1).x_offset = FVal.divNat (FVal.fin 0) 0 ∧
      (divideStage st1).gyro_scale.get 1 =
        { x_offset := FVal.nan, x_scale := FVal.fin 1,
          y_offset := FVal.nan, y_scale := FVal.fin 1,
          z_offset := FVal.nan, z_scale := FVal.fin 1 } := by
  obtain ⟨st, hrun, hp, hs, -⟩ := envSteady_run
  obtain ⟨hr, st1, h1, rfl, hc⟩ := samplingStage_full envSteady 5001 st hrun hs.full
  have hnone : samplesRead envSteady 1 st1.polls = [] :=
    samplesRead_none envSteady 1 (fun i => by simp [envSteady]) _
  have c1 : st1.calibration_counter.get 1 = 0 := by
    rw [hc.inv.counter 1 (by decide), hnone]
    rfl
  have g1 : st1.gyro_scale.get 1 = gyro_scale_zero := by
    rw [hc.inv.scale 1 (by decide), hnone]
    rfl
  refine ⟨st1, h1, rfl, c1, g1, hrun, ?_, ?_⟩
  · rw [divideStage_scale st1 (by decide), g1, c1]
    rfl
  · rw [divideStage_scale st1 (by decide), g1, c1]
    simp [gyro_scale_zero, FVal.divNat]

/-- C6, amended: the division at lines 186-188 is unconditional. In every run
that enters the sampling block, a gyro counted 0 times has its sums divided by
zero, which leaves `NaN` (and not zero) in its three offsets; these offsets
are never written to a parameter nor passed to an apply `ioctl`. -/
theorem zero_count_offsets_are_nan_and_unused (env : Env) (fuel : Nat) (st : State) (s : Nat)
    (hs : s < 3)
    (hrun : samplingStage env fuel (resetStage env) = some st)
    (hentered : (resetStage env).res = OK)
    (hzero : st.calibration_counter.get s = 0) :
    st.gyro_scale.get s =
      { x_offset := FVal.nan, x_scale := FVal.fin 1,
        y_offset := FVal.nan, y_scale := FVal.fin 1,
        z_offset := FVal.nan, z_scale := FVal.fin 1 } ∧
    do_gyro_calibration env fuel = some (finish env st) ∧
    (∀ v, Event.param_set (ParamKey.CAL_GYRO_XOFF s) v ∉ (finish env st).trace) ∧
    (∀ v, Event.param_set (ParamKey.CAL_GYRO_YOFF s) v ∉ (finish env st).trace) ∧
    (∀ v, Event.param_set (ParamKey.CAL_GYRO_ZOFF s) v ∉ (finish env st).trace) ∧
    (∀ g, Event.apply_cal s g ∉ (finish env st).trace) := by
  have h := skipped_slot_untouched env fuel st s hs hrun (by omega)
  exact ⟨divided_by_zero env fuel st s hs hrun hentered hzero,
    do_gyro_calibration_eq env fuel st hrun, h.1, h.2.1, h.2.2.1, h.2.2.2.2⟩

/-- Witness of C6 as amended: gyro 1 of `envSteady`. -/
theorem zero_count_offsets_are_nan_and_unused_witness :
    ∃ st, samplingStage envSteady 5001 (resetStage envSteady) = some st ∧
      (resetStage envSteady).res = OK ∧
      st.calibration_counter.get 1 = 0 ∧
      (st.gyro_scale.get 1).x_offset = FVal.nan ∧
      ∀ v, Event.param_set (ParamKey.CAL_GYRO_XOFF 1) v ∉ (finish envSteady st).trace := by
  obtain ⟨st, hrun, hp, hs, -⟩ := envSteady_run
  have hr : (resetStage envSteady).res = OK := by
    rw [resetStage_res]
    simp [envSteady, OK]
  have c1 := steady_counter_none envSteady st hs (show 1 < 3 by decide)
    (fun i => by simp [envSteady])
  have h := zero_count_offsets_are_nan_and_unused envSteady 5001 st 1 (by decide) hrun hr c1
  exact ⟨st, hrun, hr, c1, by rw [h.1], h.2.2.1⟩

/-- C7, refuted as stated: on `envLate` the loop takes 5001 turns and gyro 2,
which reports on each of them, ends with `calibration_counter[2] = 5001`. -/
theorem counter_of_gyro_2_exceeds_target :
    ∃ out, do_gyro_calibration envLate 5002 = some out ∧
      out.calibration_counter.get 2 = 5001 ∧
      out.calibration_counter.get 0 = 5000 := by
  obtain ⟨st, hrun, hp, hs⟩ := run_sampled envLate 5001
    (by rw [resetStage_res]; simp [envLate, envSteady, OK])
    (fun m hm => by rw [samplesRead_envLate_0]; simp only [calibration_count]; omega)
    (by rw [samplesRead_envLate_0]; rfl)
    (by rw [timeouts_none envLate (fun i => by simp [woke, envLate, envSteady])]; omega)
  refine ⟨finish envLate st, do_gyro_calibration_eq _ _ _ hrun, ?_, ?_⟩
  · rw [(finish_frame envLate st).1, hs.counter 2 (by decide), hp,
      samplesRead_length_all envLate 2 5001
        (fun i _ => by simp [woke, envLate, envSteady])]
  · rw [(finish_frame envLate st).1, hs.full]
    rfl

/-- C7, amended to the reference gyro: at the head of every turn of the
sampling loop, and when the routine returns, `calibration_counter[0] <= 5000`;
the counters of the other gyros are bounded by the number of `poll` calls
made so far. -/
theorem reference_counter_bounded (env : Env) :
    (∀ n st, stateAt env n = some st →
      st.calibration_counter.get 0 ≤ 5000 ∧
      ∀ s, s < 3 → st.calibration_counter.get s ≤ n) ∧
    (∀ fuel out, do_gyro_calibration env fuel = some out →
      out.calibration_counter.get 0 ≤ 5000 ∧
      ∀ s, s < 3 → out.calibration_counter.get s ≤ out.polls) := by
  constructor
  · intro n st h
    obtain ⟨hh, hp⟩ := stateAt_head env n st h
    refine ⟨hh.inv.ref_le, ?_⟩
    intro s hs
    rw [hh.inv.counter s hs, ← hp]
    exact samplesRead_length_le env s _
  · intro fuel out h
    obtain ⟨st, hrun, rfl⟩ := do_gyro_calibration_some env fuel out h
    rw [(finish_frame env st).1, (finish_frame env st).2.1]
    exact samplingStage_counts env fuel st hrun

/-- Witness of C7 as amended: the first loop head and the end of the run on
`envLate`. -/
theorem reference_counter_bounded_witness :
    (stateAt envLate 0 = some (resetStage envLate) ∧
      (resetStage envLate).calibration_counter.get 0 ≤ 5000) ∧
    ∃ out, do_gyro_calibration envLate 5002 = some out ∧
      out.calibration_counter.get 0 ≤ 5000 ∧
      ∀ s, s < 3 → out.calibration_counter.get s ≤ out.polls := by
  obtain ⟨st, hrun, -, -⟩ := run_sampled envLate 5001
    (by rw [resetStage_res]; simp [envLate, envSteady, OK])
    (fun m hm => by rw [samplesRead_envLate_0]; simp only [calibration_count]; omega)
    (by rw [samplesRead_envLate_0]; rfl)
    (by rw [timeouts_none envLate (fun i => by simp [woke, envLate, envSteady])]; omega)
  have hout := do_gyro_calibration_eq envLate 5002 st hrun
  exact ⟨⟨rfl, ((reference_counter_bounded envLate).1 0 _ rfl).1⟩,
    finish envLate st, hout, (reference_counter_bounded envLate).2 5002 _ hout⟩

/-- C8. In every run that reaches the commit loop, for every gyro `s`:
when `s` is counted fewer than 2500 times, none of its four parameters is
written, no apply `ioctl` is issued on it, and its pass of the commit loop
leaves the state (hence `failed` and `res`) as it was; when `s` is counted at
least 2500 times, its four parameters are all written, whatever the
`param_set` calls return. In particular, with gyro 0 counted 5000 times, gyro
2 counted 1000 times, every `param_set` succeeding, the `open` and the apply
`ioctl` succeeding on every gyro that is not skipped and `param_save_default`
succeeding, the parameters of gyro 0 are written, those of gyro 2 are not, and
the routine returns `OK`. -/
theorem commit_skips_short_gyros (env : Env) (fuel : Nat) (st : State)
    (hrun : samplingStage env fuel (resetStage env) = some st)
    (hval : (validateStage st).res = OK) :
    do_gyro_calibration env fuel = some (finish env st) ∧
    (∀ s, s < 3 → st.calibration_counter.get s < 2500 →
      (∀ v, Event.param_set (ParamKey.CAL_GYRO_XOFF s) v ∉ (finish env st).trace) ∧
      (∀ v, Event.param_set (ParamKey.CAL_GYRO_YOFF s) v ∉ (finish env st).trace) ∧
      (∀ v, Event.param_set (ParamKey.CAL_GYRO_ZOFF s) v ∉ (finish env st).trace) ∧
      (∀ v, Event.param_set (ParamKey.CAL_GYRO_ID s) v ∉ (finish env st).trace) ∧
      (∀ g, Event.apply_cal s g ∉ (finish env st).trace) ∧
      (∀ c : State, c.calibration_counter = st.calibration_counter →
        commitSlot env c s = c)) ∧
    (∀ s, s < 3 → 2500 ≤ st.calibration_counter.get s →
      Event.param_set (ParamKey.CAL_GYRO_XOFF s)
        (ParamVal.float (st.gyro_scale.get s).x_offset) ∈ (finish env st).trace ∧
      Event.param_set (ParamKey.CAL_GYRO_YOFF s)
        (ParamVal.float (st.gyro_scale.get s).y_offset) ∈ (finish env st).trace ∧
      Event.param_set (ParamKey.CAL_GYRO_ZOFF s)
        (ParamVal.float (st.gyro_scale.get s).z_offset) ∈ (finish env st).trace ∧
      Event.param_set (ParamKey.CAL_GYRO_ID s)
        (ParamVal.int32 (st.device_id.get s)) ∈ (finish env st).trace) ∧
    (st.calibration_counter.get 0 = 5000 → st.calibration_counter.get 2 = 1000 →
      (∀ key, env.param_set_res key = OK) →
      (∀ s, s < 3 → 2500 ≤ st.calibration_counter.get s →
        env.open_apply s = true ∧ env.apply_res s = OK) →
      env.save_res = OK →
      (finish env st).res = OK ∧
      Event.param_set (ParamKey.CAL_GYRO_XOFF 0)
        (ParamVal.float (st.gyro_scale.get 0).x_offset) ∈ (finish env st).trace ∧
      Event.param_set (ParamKey.CAL_GYRO_YOFF 0)
        (ParamVal.float (st.gyro_scale.get 0).y_offset) ∈ (finish env st).trace ∧
      Event.param_set (ParamKey.CAL_GYRO_ZOFF 0)
        (ParamVal.float (st.gyro_scale.get 0).z_offset) ∈ (finish env st).trace ∧
      Event.param_set (ParamKey.CAL_GYRO_ID 0)
        (ParamVal.int32 (st.device_id.get 0)) ∈ (finish env st).trace ∧
      (∀ v, Event.param_set (ParamKey.CAL_GYRO_XOFF 2) v ∉ (finish env st).trace) ∧
      (∀ v, Event.param_set (ParamKey.CAL_GYRO_YOFF 2) v ∉ (finish env st).trace) ∧
      (∀ v, Event.param_set (ParamKey.CAL_GYRO_ZOFF 2) v ∉ (finish env st).trace) ∧
      (∀ v, Event.param_set (ParamKey.CAL_GYRO_ID 2) v ∉ (finish env st).trace) ∧
      (∀ g, Event.apply_cal 2 g ∉ (finish env st).trace)) := by
  have hsam := sampled_of_ok env fuel st hrun (validateStage_ok_res st hval)
  have hwritten : ∀ s, s < 3 → 2500 ≤ st.calibration_counter.get s →
      Event.param_set (ParamKey.CAL_GYRO_XOFF s)
        (ParamVal.float (st.gyro_scale.get s).x_offset) ∈ (finish env st).trace ∧
      Event.param_set (ParamKey.CAL_GYRO_YOFF s)
        (ParamVal.float (st.gyro_scale.get s).y_offset) ∈ (finish env st).trace ∧
      Event.param_set (ParamKey.CAL_GYRO_ZOFF s)
        (ParamVal.float (st.gyro_scale.get s).z_offset) ∈ (finish env st).trace ∧
      Event.param_set (ParamKey.CAL_GYRO_ID s)
        (ParamVal.int32 (st.device_id.get s)) ∈ (finish env st).trace := by
    intro s hs hn
    have hn2 : calibration_count / 2 ≤ st.calibration_counter.get s := hn
    refine ⟨?_, ?_, ?_, ?_⟩
    · rw [finish_mem_param env st hsam.early hval _ (by simp), mem_commitEvents_xoff env st hs]
      exact ⟨hn2, rfl⟩
    · rw [finish_mem_param env st hsam.early hval _ (by simp), mem_commitEvents_yoff env st hs]
      exact ⟨hn2, rfl⟩
    · rw [finish_mem_param env st hsam.early hval _ (by simp), mem_commitEvents_zoff env st hs]
      exact ⟨hn2, rfl⟩
    · rw [finish_mem_param env st hsam.early hval _ (by simp), mem_commitEvents_id env st hs]
      exact ⟨hn2, rfl⟩
  refine ⟨do_gyro_calibration_eq env fuel st hrun, ?_, hwritten, ?_⟩
  · intro s hs hlt
    obtain ⟨a1, a2, a3, a4, a5⟩ := skipped_slot_untouched env fuel st s hs hrun hlt
    refine ⟨a1, a2, a3, a4, a5, ?_⟩
    intro c hc
    refine commitSlot_skip env c s ?_
    rw [hc]
    simp only [calibration_count]
    omega
  · intro h0 h2 hparam hdev hsave
    obtain ⟨hf, hr⟩ := commit_all_ok env st hparam hdev
    obtain ⟨w1, w2, w3, w4⟩ := hwritten 0 (by decide) (by omega)
    obtain ⟨a1, a2, a3, a4, a5⟩ :=
      skipped_slot_untouched env fuel st 2 (by decide) hrun (by omega)
    exact ⟨finish_ok env st hval hf hr hsave, w1, w2, w3, w4, a1, a2, a3, a4, a5⟩

/-- Witness of C8: on `envSparse` gyro 0 is counted 5000 times and gyro 2
1000 times; the parameters of gyro 0 are written, those of gyro 2 are not,
and the routine returns `OK`. -/
theorem commit_skips_short_gyros_witness :
    ∃ st, samplingStage envSparse 5001 (resetStage envSparse) = some st ∧
      (validateStage st).res = OK ∧
      st.calibration_counter.get 0 = 5000 ∧
      st.calibration_counter.get 2 = 1000 ∧
      (finish envSparse st).res = OK ∧
      Event.param_set (ParamKey.CAL_GYRO_XOFF 0)
        (ParamVal.float (st.gyro_scale.get 0).x_offset) ∈ (finish envSparse st).trace ∧
      (∀ v, Event.param_set (ParamKey.CAL_GYRO_XOFF 2) v ∉ (finish envSparse st).trace) ∧
      (∀ c : State, c.calibration_counter = st.calibration_counter →
        commitSlot envSparse c 2 = c) := by
  have hw : ∀ i, woke envSparse i = true := fun i => by simp [woke, envSparse, envSteady]
  obtain ⟨st, hrun, hp, hs, hval⟩ := steady_run_valid envSparse
    (by rw [resetStage_res]; simp [envSparse, envSteady, OK]) hw
    (fun i => by simp [envSparse]) 1 2 3 (fun i => rfl) (fun i => rfl)
  have c1 := steady_counter_none envSparse st hs (show 1 < 3 by decide)
    (fun i => by simp [envSparse])
  have c2 : st.calibration_counter.get 2 = 1000 := by
    rw [hs.counter 2 (by decide), hp, samplesRead_envSparse_2]
    rfl
  have h := commit_skips_short_gyros envSparse 5001 st hrun hval
  have hdev : ∀ s, s < 3 → 2500 ≤ st.calibration_counter.get s →
      envSparse.open_apply s = true ∧ envSparse.apply_res s = OK := by
    intro s hs3 hn
    interval_cases s
    · exact ⟨rfl, rfl⟩
    · omega
    · omega
  have hc := h.2.2.2 hs.full c2 (fun key => rfl) hdev rfl
  have hskip := h.2.1 2 (by decide) (by omega)
  exact ⟨st, hrun, hval, hs.full, c2, hc.1, hc.2.1, hskip.1, hskip.2.2.2.2.2⟩

/-- C9. End to end: gyro 1 is absent (its `open` fails, it never reports);
gyros 0 and 2 open and are reset; gyro 0 delivers its 5000th report on turn
`n`, by which gyro 2 has delivered 5000 reports too and `poll` has failed at
most 1000 times; every report is (1.0, 2.0, 3.0), as is the report last
copied into `gyro_report_0`; every `param_set`, the two apply `ioctl`s and
`param_save_default` succeed. Then the routine returns `OK`; the one value
written to `CAL_GYRO0_XOFF/YOFF/ZOFF` and to `CAL_GYRO2_XOFF/YOFF/ZOFF` is
1.0/2.0/3.0; no parameter of gyro 1 is written; `param_save_default` is called
exactly once; and the one terminal message is `CAL_DONE_MSG`, sent last. -/
theorem end_to_end_two_gyros (env : Env) (n : Nat)
    (habsent : env.open_reset 1 = false ∧ ∀ i, env.changed i 1 = false)
    (hpresent : env.open_reset 0 = true ∧ env.open_reset 2 = true)
    (hreset : env.reset_res 0 = OK ∧ env.reset_res 2 = OK)
    (hfirst : ∀ m, m < n → (samplesRead env 0 m).length < 5000)
    (hfull0 : (samplesRead env 0 n).length = 5000)
    (hfull2 : (samplesRead env 2 n).length = 5000)
    (herr : timeouts env n ≤ 1000)
    (hrep0 : ∀ i, env.report i 0 = report123)
    (hrep2 : ∀ i, env.report i 2 = report123)
    (hsnap : snapshot env n = report123)
    (hparam : ∀ key, env.param_set_res key = OK)
    (hopen : env.open_apply 0 = true ∧ env.open_apply 2 = true)
    (happly : env.apply_res 0 = OK ∧ env.apply_res 2 = OK)
    (hsave : env.save_res = OK) :
    ∃ out, do_gyro_calibration env (n + 1) = some out ∧
      out.res = OK ∧
      (∀ v, Event.param_set (ParamKey.CAL_GYRO_XOFF 0) v ∈ out.trace ↔
        v = ParamVal.float (FVal.fin 1)) ∧
      (∀ v, Event.param_set (ParamKey.CAL_GYRO_YOFF 0) v ∈ out.trace ↔
        v = ParamVal.float (FVal.fin 2)) ∧
      (∀ v, Event.param_set (ParamKey.CAL_GYRO_ZOFF 0) v ∈ out.trace ↔
        v = ParamVal.float (FVal.fin 3)) ∧
      (∀ v, Event.param_set (ParamKey.CAL_GYRO_XOFF 2) v ∈ out.trace ↔
        v = ParamVal.float (FVal.fin 1)) ∧
      (∀ v, Event.param_set (ParamKey.CAL_GYRO_YOFF 2) v ∈ out.trace ↔
        v = ParamVal.float (FVal.fin 2)) ∧
      (∀ v, Event.param_set (ParamKey.CAL_GYRO_ZOFF 2) v ∈ out.trace ↔
        v = ParamVal.float (FVal.fin 3)) ∧
      (∀ v, Event.param_set (ParamKey.CAL_GYRO_XOFF 1) v ∉ out.trace) ∧
      (∀ v, Event.param_set (ParamKey.CAL_GYRO_YOFF 1) v ∉ out.trace) ∧
      (∀ v, Event.param_set (ParamKey.CAL_GYRO_ZOFF 1) v ∉ out.trace) ∧
      (∀ v, Event.param_set (ParamKey.CAL_GYRO_ID 1) v ∉ out.trace) ∧
      out.trace.count Event.param_save_default = 1 ∧
      out.trace.getLast? = some (Event.log_info Msg.CAL_DONE_MSG) ∧
      out.trace.count (Event.log_info Msg.CAL_DONE_MSG) = 1 ∧
      Event.log_info Msg.CAL_FAILED_MSG ∉ out.trace := by
  have hres : (resetStage env).res = OK := by
    rw [resetStage_res]
    simp [hpresent.2, hreset.2]
  obtain ⟨st, hrun, hp, hs⟩ := run_sampled env n hres hfirst hfull0 herr
  have hval : (validateStage st).res = OK := by
    refine (validateStage_ok st hs.res).mpr (checkFails_const env st hs 1 2 3 hrep0 ?_)
    rw [hp, hsnap]
    rfl
  have c0 : st.calibration_counter.get 0 = 5000 := hs.full
  have c1 : st.calibration_counter.get 1 = 0 :=
    steady_counter_none env st hs (by decide) habsent.2
  have c2 : st.calibration_counter.get 2 = 5000 := by
    rw [hs.counter 2 (by decide), hp, hfull2]
  have g0 : st.gyro_scale.get 0 =
      { x_offset := FVal.fin 1, x_scale := FVal.fin 1,
        y_offset := FVal.fin 2, y_scale := FVal.fin 1,
        z_offset := FVal.fin 3, z_scale := FVal.fin 1 } := by
    rw [hs.scale 0 (by decide)]
    refine meanScale_const env 0 st.polls 1 2 3 hrep0 ?_
    rw [← hs.counter 0 (by decide), c0]
    decide
  have g2 : st.gyro_scale.get 2 =
      { x_offset := FVal.fin 1, x_scale := FVal.fin 1,
        y_offset := FVal.fin 2, y_scale := FVal.fin 1,
        z_offset := FVal.fin 3, z_scale := FVal.fin 1 } := by
    rw [hs.scale 2 (by decide)]
    refine meanScale_const env 2 st.polls 1 2 3 hrep2 ?_
    rw [← hs.counter 2 (by decide), c2]
    decide
  have hdev : ∀ s, s < 3 → calibration_count / 2 ≤ st.calibration_counter.get s →
      env.open_apply s = true ∧ env.apply_res s = OK := by
    intro s hs3 hn
    interval_cases s
    · exact ⟨hopen.1, happly.1⟩
    · rw [c1] at hn
      simp [calibration_count] at hn
    · exact ⟨hopen.2, happly.2⟩
  obtain ⟨hf, hr⟩ := commit_all_ok env st hparam hdev
  obtain ⟨k1, k2, k3, k4⟩ := finish_ok_counts env st hs.early hval hf hr hsave
  obtain ⟨a1, a2, a3, a4, -⟩ :=
    skipped_slot_untouched env (n + 1) st 1 (by decide) hrun (by omega)
  refine ⟨finish env st, do_gyro_calibration_eq env _ st hrun,
    finish_ok env st hval hf hr hsave, ?_, ?_, ?_, ?_, ?_, ?_, a1, a2, a3, a4, k1, k2, k3, k4⟩
  · intro v
    rw [finish_mem_param env st hs.early hval _ (by simp),
      mem_commitEvents_xoff env st (by decide), g0, c0]
    simp [calibration_count]
  · intro v
    rw [finish_mem_param env st hs.early hval _ (by simp),
      mem_commitEvents_yoff env st (by decide), g0, c0]
    simp [calibration_count]
  · intro v
    rw [finish_mem_param env st hs.early hval _ (by simp),
      mem_commitEvents_zoff env st (by decide), g0, c0]
    simp [calibration_count]
  · intro v
    rw [finish_mem_param env st hs.early hval _ (by simp),
      mem_commitEvents_xoff env st (by decide), g2, c2]
    simp [calibration_count]
  · intro v
    rw [finish_mem_param env st hs.early hval _ (by simp),
      mem_commitEvents_yoff env st (by decide), g2, c2]
    simp [calibration_count]
  · intro v
    rw [finish_mem_param env st hs.early hval _ (by simp),
      mem_commitEvents_zoff env st (by decide), g2, c2]
    simp [calibration_count]

/-- Witness of C9: the scenario on `envSteady`, where every `poll` wakes with
a report from gyro 0 and from gyro 2, so that the loop takes 5000 turns. -/
theorem end_to_end_two_gyros_witness :
    ∃ out, do_gyro_calibration envSteady 5001 = some out ∧
      out.res = OK ∧
      Event.param_set (ParamKey.CAL_GYRO_XOFF 0) (ParamVal.float (FVal.fin 1)) ∈ out.trace ∧
      Event.param_set (ParamKey.CAL_GYRO_ZOFF 2) (ParamVal.float (FVal.fin 3)) ∈ out.trace ∧
      (∀ v, Event.param_set (ParamKey.CAL_GYRO_XOFF 1) v ∉ out.trace) ∧
      out.trace.count Event.param_save_default = 1 ∧
      out.trace.getLast? = some (Event.log_info Msg.CAL_DONE_MSG) := by
  have hw : ∀ i, woke envSteady i = true := fun i => by simp [woke, envSteady]
  obtain ⟨out, h1, h2, x0, -, -, -, -, z2, n1, -, -, -, k1, k2, -⟩ :=
    end_to_end_two_gyros envSteady 5000
      ⟨rfl, fun i => rfl⟩ ⟨rfl, rfl⟩ ⟨rfl, rfl⟩
      (fun m hm => by
        rw [samplesRead_length_all envSteady 0 m (fun i _ => ⟨hw i, rfl⟩)]
        exact hm)
      (samplesRead_length_all envSteady 0 5000 (fun i _ => ⟨hw i, rfl⟩))
      (samplesRead_length_all envSteady 2 5000 (fun i _ => ⟨hw i, rfl⟩))
      (by rw [timeouts_none envSteady hw]; omega)
      (fun i => rfl) (fun i => rfl)
      (snapshot_last envSteady 4999 ⟨hw _, rfl⟩)
      (fun key => rfl) ⟨rfl, rfl⟩ ⟨rfl, rfl⟩ rfl
  exact ⟨out, h1, h2, (x0 _).mpr rfl, (z2 _).mpr rfl, n1, k1, k2⟩

/-- C10, violated by the code: on `envDropout` (gyro 0 delivers nothing while
gyro 2 reports on every wake) no `poll` ever times out, so `poll_errcount`
stays 0 and `calibration_counter[0]` stays 0: the loop is at its head again
after any number `n` of turns, and the routine does not return within any
number of turns. -/
theorem loop_never_ends_on_reference_dropout :
    (∀ n, ∃ st, stateAt envDropout n = some st ∧
      st.calibration_counter.get 0 = 0 ∧ st.poll_errcount = 0 ∧ st.polls = n) ∧
    (∀ fuel, sampleLoop envDropout fuel (resetStage envDropout) = none) ∧
    (∀ fuel, do_gyro_calibration envDropout fuel = none) := by
  have hw : ∀ i, woke envDropout i = true := fun i => by simp [woke, envDropout, envSteady]
  have h0 : ∀ n, samplesRead envDropout 0 n = [] :=
    samplesRead_none envDropout 0 (fun i => by simp [envDropout])
  have hres : (resetStage envDropout).res = OK := by
    rw [resetStage_res]
    simp [envDropout, envSteady, OK]
  have hloop : ∀ fuel, sampleLoop envDropout fuel (resetStage envDropout) = none := by
    intro fuel
    cases h : sampleLoop envDropout fuel (resetStage envDropout) with
    | none => rfl
    | some st1 =>
      exfalso
      rcases sampleLoop_exit envDropout fuel st1 h with hc | ha
      · have := hc.full
        rw [hc.inv.counter 0 (by decide), h0] at this
        simp [calibration_count] at this
      · have := ha.errs_eq
        rw [ha.inv.errs, timeouts_none envDropout hw] at this
        omega
  refine ⟨?_, hloop, ?_⟩
  · intro n
    induction n with
    | zero =>
      refine ⟨resetStage envDropout, rfl, ?_, ?_, ?_⟩
      · exact (resetStage_zero envDropout).1 0
      · exact (resetStage_zero envDropout).2.2.1
      · exact (resetStage_zero envDropout).2.2.2.2
    | succ k ih =>
      obtain ⟨st, hst, c0, -, -⟩ := ih
      obtain ⟨hh, hp⟩ := stateAt_head envDropout k st hst
      have hc : st.calibration_counter.get 0 < calibration_count := by
        rw [c0]
        decide
      have he : ¬ 1000 < (loopBody envDropout st).poll_errcount := by
        rw [loopBody_errcount, hw]
        have := hh.errs_le
        simp only [if_true]
        omega
      have hnext : stateAt envDropout (k + 1) = some (loopBody envDropout st) := by
        rw [stateAt, hst]
        simp only []
        rw [whileStep_next envDropout st hc he]
      obtain ⟨hh1, hp1⟩ := stateAt_head envDropout (k + 1) _ hnext
      refine ⟨loopBody envDropout st, hnext, ?_, ?_, ?_⟩
      · rw [hh1.inv.counter 0 (by decide), h0]
        rfl
      · rw [hh1.inv.errs, timeouts_none envDropout hw]
      · exact hp1
  · intro fuel
    simp [do_gyro_calibration, samplingStage, hres, hloop fuel]

end GyroCal
